import Mathlib

/-!
# Escape-time fractals and colour maps of `js-performance`

A shallow embedding of the numeric core of the repository (`src/js/utilities.js`,
`src/js/constants.js`, `src/js/fractal_new.js`, `src/js/fractal.js`, `src/js/colours.js`)
together with theorems about it.

JavaScript numbers are read as elements of an arbitrary linearly ordered field `K`
(the rationals for evaluation, the reals for the statements about logarithms).
The statements about the length, the keys and the grayscale entries of the colour maps use a
second embedding of `colours.js`, in binary64 arithmetic (namespace `Binary64`), where a
division of zero by zero is `NaN` and every operation rounds.
Integer-valued quantities (iteration counts, array indices, colour channels) are `ℤ`.
A `while`/`for` loop is the function `whileLoop`, defined by well-founded recursion on a
variant that every pass of the loop strictly decreases.
-/

namespace JsPerformance

/-! ## Loops -/

/-- The loop `while (guard s) s = body s`, returning the state in which the guard first fails.
`variant` is a natural number that each pass of the loop strictly decreases. -/
def whileLoop {σ : Type} (guard : σ → Prop) [DecidablePred guard] (body : σ → σ)
    (variant : σ → ℕ) (hdec : ∀ s, guard s → variant (body s) < variant s) (s : σ) : σ :=
  if _hg : guard s then whileLoop guard body variant hdec (body s) else s
termination_by variant s
decreasing_by exact hdec s ‹guard s›

/-- The loop `while (guard s) s = body s` started in `s₀` makes exactly `k` passes and stops in
`s`: the guard holds before each of the `k` passes and fails in `s`, the state after them. -/
def StopsAfter {σ : Type} (guard : σ → Prop) (body : σ → σ) (s₀ s : σ) (k : ℕ) : Prop :=
  body^[k] s₀ = s ∧ ¬ guard s ∧ ∀ j < k, guard (body^[j] s₀)

section Field

variable {K : Type} [LinearOrderedField K]

/-! ## `utilities.js` and `constants.js` -/

/-- `sumOfSquares` of `utilities.js`. -/
def sumOfSquares (val1 val2 : K) : K := (val1 * val1) + (val2 * val2)

/-- `diffOfSquares` of `utilities.js`. -/
def diffOfSquares (val1 val2 : K) : K := (val1 * val1) - (val2 * val2)

/-- `BAILOUT` of `constants.js`. -/
def BAILOUT : K := 4.0

/-- The expression `arg || 0` on an optional numeric argument: an omitted argument
(`undefined`) and the number zero are falsy and give `0`, any other number gives itself. -/
def orZero : Option K → K
  | none => 0
  | some v => if v = 0 then 0 else v

/-! ## `fractal_new.js` -/

namespace FractalNew

/-- The local variables of `escapeTimeMJ`. -/
structure EscapeState (K : Type) where
  x : K
  y : K
  new_x : K
  new_y : K
  iterCount : ℤ

/-- The loop test of `escapeTimeMJ`:
`(sumOfSquares(x, y) <= C.BAILOUT) && iterCount < window.maxIters`. -/
def escapeGuard (maxIters : ℤ) (s : EscapeState K) : Prop :=
  sumOfSquares s.x s.y ≤ BAILOUT ∧ s.iterCount < maxIters

instance escapeGuardDecidable (maxIters : ℤ) :
    DecidablePred (escapeGuard maxIters : EscapeState K → Prop) := by
  intro s
  unfold escapeGuard
  infer_instance

/-- One pass of the loop body of `escapeTimeMJ`. -/
def escapeBody (mandelX mandelY : K) (s : EscapeState K) : EscapeState K :=
  let new_x := mandelX + diffOfSquares s.x s.y
  let new_y := mandelY + (2 * s.x * s.y)
  { x := new_x, y := new_y, new_x := new_x, new_y := new_y, iterCount := s.iterCount + 1 }

/-- The number of passes the loop of `escapeTimeMJ` can still make. -/
def escapeVariant (maxIters : ℤ) (s : EscapeState K) : ℕ := (maxIters - s.iterCount).toNat

/-- The `while` loop of `escapeTimeMJ`, run from the state `s`. -/
def escapeLoop (maxIters : ℤ) (mandelX mandelY : K) (s : EscapeState K) : EscapeState K :=
  whileLoop (escapeGuard maxIters) (escapeBody mandelX mandelY) (escapeVariant maxIters)
    (fun s h => by
      have h2 : s.iterCount < maxIters := h.2
      simp only [escapeVariant, escapeBody]
      omega)
    s

/-- `escapeTimeMJ` of `fractal_new.js`; `maxIters` is the global `window.maxIters`, and the
last two arguments are optional in the source. -/
def escapeTimeMJ (maxIters : ℤ) (mandelX mandelY : K) (xArg yArg : Option K) : ℤ :=
  (escapeLoop maxIters mandelX mandelY
    { x := orZero xArg, y := orZero yArg, new_x := 0, new_y := 0, iterCount := 0 }).iterCount

/-- `isInMainCardioid` of `fractal_new.js`. -/
def isInMainCardioid (x y : K) : Prop :=
  (fun temp : K => temp * (temp + x - 0.25) ≤ (y * y) / 4.0) (sumOfSquares (x - 0.25) y)

/-- `isInPeriod2Bulb` of `fractal_new.js`. -/
def isInPeriod2Bulb (x y : K) : Prop := sumOfSquares (x + 1.0) y ≤ 0.0625

/-- `mandelEarlyBailout` of `fractal_new.js`. -/
def mandelEarlyBailout (x y : K) : Prop := isInMainCardioid x y ∨ isInPeriod2Bulb x y

instance mandelEarlyBailoutDecidable (x y : K) : Decidable (mandelEarlyBailout x y) := by
  unfold mandelEarlyBailout isInMainCardioid isInPeriod2Bulb
  infer_instance

/-- `mandelIter` of `fractal_new.js`: `escapeTimeMJ` is called with two arguments only. -/
def mandelIter (maxIters : ℤ) (x_val y_val : K) : ℤ :=
  if mandelEarlyBailout x_val y_val then maxIters else escapeTimeMJ maxIters x_val y_val none none

end FractalNew

/-! ## `fractal.js` -/

namespace Fractal

/-- The variables of the loop of `mandelIter` in `fractal.js`. -/
structure MandelState (K : Type) where
  x_sqr : K
  y_sqr : K
  x : K
  y : K
  iters : ℤ

/-- The loop test of `mandelIter`: `iters < window.maxIters && (x_sqr + y_sqr <= C.BAILOUT)`. -/
def mandelGuard (maxIters : ℤ) (s : MandelState K) : Prop :=
  s.iters < maxIters ∧ s.x_sqr + s.y_sqr ≤ BAILOUT

instance mandelGuardDecidable (maxIters : ℤ) :
    DecidablePred (mandelGuard maxIters : MandelState K → Prop) := by
  intro s
  unfold mandelGuard
  infer_instance

/-- One pass of the loop body of `mandelIter`: `y` is updated before `x`, from the old `x`. -/
def mandelBody (x_val y_val : K) (s : MandelState K) : MandelState K :=
  let y := 2 * s.x * s.y + y_val
  let x := s.x_sqr - s.y_sqr + x_val
  { x_sqr := x * x, y_sqr := y * y, x := x, y := y, iters := s.iters + 1 }

/-- The number of passes the loop of `mandelIter` can still make. -/
def mandelVariant (maxIters : ℤ) (s : MandelState K) : ℕ := (maxIters - s.iters).toNat

/-- The `while` loop of `mandelIter`, run from the state `s`. -/
def mandelLoop (maxIters : ℤ) (x_val y_val : K) (s : MandelState K) : MandelState K :=
  whileLoop (mandelGuard maxIters) (mandelBody x_val y_val) (mandelVariant maxIters)
    (fun s h => by
      have h1 : s.iters < maxIters := h.1
      simp only [mandelVariant, mandelBody]
      omega)
    s

/-- `mandelIter` of `fractal.js`; `maxIters` is the global `window.maxIters`. -/
def mandelIter (maxIters : ℤ) (x_val y_val : K) : ℤ :=
  (fun (iters : ℤ) (temp : K) =>
    if (temp * (temp + x_val - 0.25) ≤ (y_val * y_val) / 4.0) ∨
        (sumOfSquares (x_val + 1) y_val < 0.0625)
    then maxIters
    else
      (fun (x_sqr y_sqr x y : K) =>
        (mandelLoop maxIters x_val y_val
          { x_sqr := x_sqr, y_sqr := y_sqr, x := x, y := y, iters := iters }).iters)
        0 0 0 0)
    0 (sumOfSquares (x_val - 0.25) y_val)

/-- `makeJuliaXStepFn` of `fractal.js`. -/
def makeJuliaXStepFn (mandelXCoord : K) : K → K → K :=
  fun x y => mandelXCoord + diffOfSquares x y

/-- `makeJuliaYStepFn` of `fractal.js`. -/
def makeJuliaYStepFn (mandelYCoord : K) : K → K → K :=
  fun x y => mandelYCoord + (2 * x * y)

/-- The variables of `juliaIter` in `fractal.js`. -/
structure JuliaState (K : Type) where
  x_coord : K
  y_coord : K
  iterCount : ℤ
  new_x : K
  new_y : K

/-- The loop test of `juliaIter`:
`(sumOfSquares(new_x, new_y) <= C.BAILOUT) && iterCount < window.maxIters`. -/
def juliaGuard (maxIters : ℤ) (s : JuliaState K) : Prop :=
  sumOfSquares s.new_x s.new_y ≤ BAILOUT ∧ s.iterCount < maxIters

instance juliaGuardDecidable (maxIters : ℤ) :
    DecidablePred (juliaGuard maxIters : JuliaState K → Prop) := by
  intro s
  unfold juliaGuard
  infer_instance

/-- One pass of the loop body of `juliaIter`. -/
def juliaBody (juliaXStepFn juliaYStepFn : K → K → K) (s : JuliaState K) : JuliaState K :=
  let new_x := juliaXStepFn s.x_coord s.y_coord
  let new_y := juliaYStepFn s.x_coord s.y_coord
  { x_coord := new_x, y_coord := new_y, iterCount := s.iterCount + 1,
    new_x := new_x, new_y := new_y }

/-- The number of passes the loop of `juliaIter` can still make. -/
def juliaVariant (maxIters : ℤ) (s : JuliaState K) : ℕ := (maxIters - s.iterCount).toNat

/-- The `while` loop of `juliaIter`, run from the state `s`. -/
def juliaLoop (maxIters : ℤ) (juliaXStepFn juliaYStepFn : K → K → K) (s : JuliaState K) :
    JuliaState K :=
  whileLoop (juliaGuard maxIters) (juliaBody juliaXStepFn juliaYStepFn) (juliaVariant maxIters)
    (fun s h => by
      have h2 : s.iterCount < maxIters := h.2
      simp only [juliaVariant, juliaBody]
      omega)
    s

/-- `juliaIter` of `fractal.js`; `maxIters` is the global `window.maxIters`. -/
def juliaIter (maxIters : ℤ) (x_coord y_coord : K) (juliaXStepFn juliaYStepFn : K → K → K) : ℤ :=
  (juliaLoop maxIters juliaXStepFn juliaYStepFn
    { x_coord := x_coord, y_coord := y_coord, iterCount := 0, new_x := 0, new_y := 0 }).iterCount

end Fractal

/-! ## `colours.js` -/

section Colours

variable [FloorRing K]

/-- An entry of a colour map: the array `[Red, Green, Blue]` of three integer channels. -/
abbrev RGB : Type := ℤ × ℤ × ℤ

/-- The built-in `parseInt` applied to a number, read as truncation toward zero. The built-in
truncates the decimal rendering of its argument, which is the truncation of the number itself
for zero and for every magnitude that is rendered positionally (from `1e-6` up to `1e21`). -/
def parseInt (x : K) : ℤ := if 0 ≤ x then ⌊x⌋ else ⌈x⌉

/-- `R2G_MAX` of `colours.js`. -/
def R2G_MAX : K := 0.13

/-- `G2B_MAX` of `colours.js`. -/
def G2B_MAX : K := 0.42

/-- `B2R_MAX` of `colours.js`. -/
def B2R_MAX : K := 0.77

/-- `R2B_MIN` of `colours.js`. -/
def R2B_MIN : K := 0.26

/-- `G2R_MIN` of `colours.js`. -/
def G2R_MIN : K := 0.58

/-- `monochrome` of `colours.js`. -/
def monochrome (_idx : ℤ) (logScale _band3 : K) : RGB :=
  (fun val : ℤ => (val, val, val)) (parseInt (255 * logScale))

/-- `fire` of `colours.js`. -/
def fire (_idx : ℤ) (_logScale band3 : K) : RGB :=
  ( if band3 < 1 then parseInt (255 * band3) else 255
  , if band3 < 1 then 0 else if band3 < 2 then parseInt (255 * (band3 - 1)) else 255
  , if band3 < 2 then 0 else parseInt (255 * (band3 - 2)) )

/-- `webSafeCycle` of `colours.js`; `%` is the remainder with the sign of the dividend and
`/` the division of numbers, whose quotient `Math.floor` rounds down. -/
def webSafeCycle (idx : ℤ) (_logScale _band3 : K) : RGB :=
  ( ⌊((idx.tmod 252 : ℤ) : K) / 42⌋ * 0x33
  , ⌊((idx.tmod 42 : ℤ) : K) / 6⌋ * 0x33
  , (idx.tmod 6) * 0x33 )

/-- `rainbow_red` of `colours.js`. -/
def rainbow_red (scaleVal : K) : ℤ :=
  if scaleVal < R2G_MAX ∨ scaleVal > B2R_MAX then 255
  else if scaleVal ≥ R2G_MAX ∧ scaleVal ≤ R2B_MIN then
    ⌊255 * (scaleVal - R2G_MAX) / (R2B_MIN - R2G_MAX)⌋
  else if scaleVal ≥ G2R_MIN ∧ scaleVal ≤ B2R_MAX then
    ⌊255 * (scaleVal - G2R_MIN) / (B2R_MAX - G2R_MIN)⌋
  else 0

/-- `rainbow_green` of `colours.js`. -/
def rainbow_green (scaleVal : K) : ℤ :=
  if scaleVal > R2G_MAX ∧ scaleVal < G2B_MAX then 255
  else if scaleVal ≤ R2G_MAX then
    ⌊255 * scaleVal / R2G_MAX⌋
  else if scaleVal ≥ G2B_MAX ∧ scaleVal ≤ G2R_MIN then
    ⌊255 * (scaleVal - G2B_MAX) / (G2R_MIN - G2B_MAX)⌋
  else 0

/-- `rainbow_blue` of `colours.js`. -/
def rainbow_blue (scaleVal : K) : ℤ :=
  if scaleVal > G2B_MAX ∧ scaleVal < B2R_MAX then 255
  else if scaleVal ≥ R2B_MIN ∧ scaleVal ≤ G2B_MAX then
    ⌊255 * (scaleVal - R2B_MIN) / (G2B_MAX - R2B_MIN)⌋
  else if scaleVal ≥ B2R_MAX then
    ⌊255 * (scaleVal - B2R_MAX) / (1 - B2R_MAX)⌋
  else 0

/-- `rainbow` of `colours.js`. -/
def rainbow (_idx : ℤ) (logScale _band3 : K) : RGB :=
  (rainbow_red logScale, rainbow_green logScale, rainbow_blue logScale)

/-- `colourMapFns` of `colours.js`: the array `[monochrome, fire, webSafeCycle, rainbow]`. -/
def colourMapFns : Fin 4 → ℤ → K → K → RGB
  | 0 => monochrome
  | 1 => fire
  | 2 => webSafeCycle
  | 3 => rainbow

/-- A JavaScript array: the value stored under each integer key (`none` for a hole or a key
never assigned) and the `length` property. Keys are unbounded integers. -/
structure JSArray (α : Type) where
  get : ℤ → Option α
  length : ℕ

/-- The empty array `[]`. -/
def JSArray.empty {α : Type} : JSArray α := { get := fun _ => none, length := 0 }

/-- The assignment `a[i] = v`: it stores `v` under the key `i`, and a non-negative `i` at or
beyond the length extends the length to `i + 1`. -/
def JSArray.set {α : Type} (a : JSArray α) (i : ℤ) (v : α) : JSArray α :=
  { get := fun j => if j = i then some v else a.get j
    length := if 0 ≤ i then max a.length (i.toNat + 1) else a.length }

/-- The assignment `colourMaps[k][i] = v` on the array of the four colour maps. -/
def setEntry (colourMaps : Fin 4 → JSArray RGB) (k : Fin 4) (i : ℤ) (v : RGB) :
    Fin 4 → JSArray RGB :=
  Function.update colourMaps k ((colourMaps k).set i v)

/-- The variables of the `for` loop of `buildColourMaps`. -/
structure BuildState (K : Type) where
  i : ℤ
  logScale : K
  band3 : K
  colourMaps : Fin 4 → JSArray RGB

/-- The loop test of `buildColourMaps`: `i<iterLimit`. -/
def buildGuard {K : Type} (iterLimit : ℤ) (s : BuildState K) : Prop := s.i < iterLimit

instance buildGuardDecidable {K : Type} (iterLimit : ℤ) :
    DecidablePred (buildGuard iterLimit : BuildState K → Prop) := by
  intro s
  unfold buildGuard
  infer_instance

/-- One pass of the `for` loop of `buildColourMaps`, its increment `i++` included; `ln` is the
built-in `Math.log`. The arithmetic is that of the field `K`, without rounding, and the
quotient by a zero `logMaxIter` is 0; `Binary64.buildBody` is the same pass in binary64
arithmetic. -/
def buildBody (ln : K → K) (logMaxIter : K) (s : BuildState K) : BuildState K :=
  let logScale := ln (s.i : K) / logMaxIter
  let band3 := logScale * 3
  let colourMaps := setEntry s.colourMaps 0 s.i (colourMapFns 0 s.i logScale band3)
  let colourMaps := setEntry colourMaps 1 s.i (colourMapFns 1 s.i logScale band3)
  let colourMaps := setEntry colourMaps 2 s.i (colourMapFns 2 s.i logScale band3)
  let colourMaps := setEntry colourMaps 3 s.i (colourMapFns 3 s.i logScale band3)
  { i := s.i + 1, logScale := logScale, band3 := band3, colourMaps := colourMaps }

/-- The number of passes the loop of `buildColourMaps` can still make. -/
def buildVariant {K : Type} (iterLimit : ℤ) (s : BuildState K) : ℕ := (iterLimit - s.i).toNat

/-- The `for` loop of `buildColourMaps`, run from the state `s`. -/
def buildLoop (ln : K → K) (iterLimit : ℤ) (logMaxIter : K) (s : BuildState K) : BuildState K :=
  whileLoop (buildGuard iterLimit) (buildBody ln logMaxIter) (buildVariant iterLimit)
    (fun s h => by
      have h1 : s.i < iterLimit := h
      simp only [buildVariant, buildBody]
      omega)
    s

/-- `buildColourMaps` of `colours.js`; `ln` is the built-in `Math.log`. -/
def buildColourMaps (ln : K → K) (iterLimit : ℤ) : Fin 4 → JSArray RGB :=
  let logScale : K := 0.0
  let band3 : K := 0.0
  let colourMaps : Fin 4 → JSArray RGB := fun _ => JSArray.empty
  let colourMaps := setEntry colourMaps 0 iterLimit (0x0, 0x0, 0x0)
  let colourMaps := setEntry colourMaps 1 iterLimit (0x0, 0x0, 0x0)
  let colourMaps := setEntry colourMaps 2 iterLimit (0x0, 0x0, 0x0)
  let colourMaps := setEntry colourMaps 3 iterLimit (0x0, 0x0, 0x0)
  let colourMaps := setEntry colourMaps 0 0 (colourMapFns 0 0 logScale band3)
  let colourMaps := setEntry colourMaps 1 0 (colourMapFns 1 0 logScale band3)
  let colourMaps := setEntry colourMaps 2 0 (colourMapFns 2 0 logScale band3)
  let colourMaps := setEntry colourMaps 3 0 (colourMapFns 3 0 logScale band3)
  let logMaxIter := ln ((iterLimit : K) - 1.0)
  (buildLoop ln iterLimit logMaxIter
    { i := 1, logScale := logScale, band3 := band3, colourMaps := colourMaps }).colourMaps

/-- Every channel of the triple is in the byte range `[0, 255]`. -/
def IsByteTriple (c : RGB) : Prop :=
  (0 ≤ c.1 ∧ c.1 ≤ 255) ∧ (0 ≤ c.2.1 ∧ c.2.1 ≤ 255) ∧ (0 ≤ c.2.2 ∧ c.2.2 ≤ 255)

end Colours

/-! ## `utilities.js`: the coordinate transform -/

/-- `pixelToCoord` of `utilities.js`, with `/` read as the division of the field. This is the
value JavaScript computes whenever the divisor `dim - 1` is not zero. -/
def pixelToCoord (min max dim : K) : K → K :=
  fun pixelLoc => min + (max - min) * pixelLoc / (dim - 1)

/-- The fields of the object `imgSpace` (`imageSpace` in `fractal.js`) that the render loops
read. -/
structure ImgSpace (K : Type) where
  colourMap : JSArray RGB
  mandelX : K
  mandelY : K
  xMin : K
  xMax : K
  yMin : K
  yMax : K

/-- `pixelXToCoordX` of `utilities.js`. -/
def pixelXToCoordX (imgSpace : ImgSpace K) (width : K) : K → K :=
  pixelToCoord imgSpace.xMin imgSpace.xMax width

/-- `pixelYToCoordY` of `utilities.js`. -/
def pixelYToCoordY (imgSpace : ImgSpace K) (height : K) : K → K :=
  pixelToCoord imgSpace.yMin imgSpace.yMax height

/-- `mouseAxisToCoordAxis` of `utilities.js`. -/
def mouseAxisToCoordAxis (cnvsDim ppu origin : K) : K → K :=
  fun mousePos => origin + ((mousePos - (cnvsDim / 2)) / ppu)

/-- The value of an arithmetic expression on JavaScript numbers: a number of the field, one of
the two infinities, or `NaN`. -/
inductive JSNumber (K : Type) where
  | finite (value : K)
  | posInfinity
  | negInfinity
  | nan

/-- The JavaScript division `a / b` of two finite numbers: a zero divisor gives `NaN` for a zero
dividend and the infinity of the sign of the dividend otherwise. -/
def jsDivide (a b : K) : JSNumber K :=
  if b = 0 then
    if a = 0 then JSNumber.nan else if 0 < a then JSNumber.posInfinity else JSNumber.negInfinity
  else JSNumber.finite (a / b)

/-- The JavaScript sum `a + b` of a finite number `a` and a value `b`. -/
def jsAddFinite (a : K) : JSNumber K → JSNumber K
  | JSNumber.finite b => JSNumber.finite (a + b)
  | JSNumber.posInfinity => JSNumber.posInfinity
  | JSNumber.negInfinity => JSNumber.negInfinity
  | JSNumber.nan => JSNumber.nan

/-- The conditions a call can throw. -/
inductive JSError where
  | invalidParameter
  | typeError
  deriving DecidableEq

/-- The completion of the call `pixelToCoord(min, max, dim)(pixelLoc)` on finite numbers, with
the division of JavaScript numbers: neither building the closure nor applying it contains a
`throw` or an operation that can throw, so the call returns the value of
`min + (max - min) * pixelLoc / (dim - 1)`. -/
def pixelToCoordCall (min max dim pixelLoc : K) : Except JSError (JSNumber K) :=
  Except.ok (jsAddFinite min (jsDivide ((max - min) * pixelLoc) (dim - 1)))

/-- The completion of the call `buildColourMaps(iterLimit)`: the function contains no `throw`
and no operation that can throw (array literals, assignments to array keys, arithmetic and
`Math.log`), so the call returns the array of the four maps. -/
def buildColourMapsCall [FloorRing K] (ln : K → K) (iterLimit : ℤ) :
    Except JSError (Fin 4 → JSArray RGB) :=
  Except.ok (buildColourMaps ln iterLimit)

/-! ## `endian.js` -/

/-- The conversion `ToUint32` of an integer-valued number: its residue modulo `2^32`. -/
def toUint32 (n : ℤ) : ℕ := (n % 4294967296).toNat

/-- The conversion `ToInt32` of an integer-valued number: the signed 32-bit integer with the
same residue modulo `2^32`. -/
def toInt32 (n : ℤ) : ℤ :=
  if n % 4294967296 < 2147483648 then n % 4294967296 else n % 4294967296 - 4294967296

/-- The operator `a << count` on integer-valued numbers: `ToInt32(a)` shifted left by the low
five bits of `count`, as a signed 32-bit integer. -/
def shiftLeft32 (a count : ℤ) : ℤ := toInt32 (toInt32 a * 2 ^ (toUint32 count % 32))

/-- The operator `a | b` on integer-valued numbers: the bitwise or of the two 32-bit patterns,
as a signed 32-bit integer. -/
def bitOr32 (a b : ℤ) : ℤ := toInt32 ((toUint32 a ||| toUint32 b : ℕ) : ℤ)

/-- `littleEndianByteOrderFn` of `endian.js`: `(0xff << 24) | (b << 16) | (g << 8) | r`. -/
def littleEndianByteOrderFn (r g b : ℤ) : ℤ :=
  bitOr32 (bitOr32 (bitOr32 (shiftLeft32 0xff 24) (shiftLeft32 b 16)) (shiftLeft32 g 8)) r

/-- `bigEndianByteOrderFn` of `endian.js`: `(r << 24) | (g << 16) | (b << 8) | 0xff`. -/
def bigEndianByteOrderFn (r g b : ℤ) : ℤ :=
  bitOr32 (bitOr32 (bitOr32 (shiftLeft32 r 24) (shiftLeft32 g 16)) (shiftLeft32 b 8)) 0xff

/-- A host, as far as `endian.js` sees it: the four bytes, in memory order, that a 32-bit word
written through a `Uint32Array` leaves in the underlying buffer. -/
abbrev Host : Type := ℕ → ℕ × ℕ × ℕ × ℕ

/-- The little-endian host: the least significant byte comes first in memory. -/
def littleEndianHost : Host :=
  fun w => (w % 256, w / 256 % 256, w / 65536 % 256, w / 16777216 % 256)

/-- The big-endian host: the most significant byte comes first in memory. -/
def bigEndianHost : Host :=
  fun w => (w / 16777216 % 256, w / 65536 % 256, w / 256 % 256, w % 256)

/-- The probe of `setRGB`: `buff32[0] = 0x0a0b0c0d`, then
`buff8[0] === 0x0d && buff8[1] === 0x0c && buff8[2] === 0x0b && buff8[3] === 0x0a`. -/
def isLittleEndian (host : Host) : Bool :=
  (fun buff8 : ℕ × ℕ × ℕ × ℕ =>
    buff8.1 == 0x0d && buff8.2.1 == 0x0c && buff8.2.2.1 == 0x0b && buff8.2.2.2 == 0x0a)
    (host (toUint32 0x0a0b0c0d))

/-- `setRGB` of `endian.js` on the given host: the encoder the probe selects. -/
def setRGB (host : Host) : ℤ → ℤ → ℤ → ℤ :=
  if isLittleEndian host then littleEndianByteOrderFn else bigEndianByteOrderFn

/-! ## The view state: `constants.js`, `utilities.js`, `colours.js`, `main.js` -/

/-- `DEFAULT_PPU` of `constants.js`. -/
def DEFAULT_PPU : K := 200

/-- `DEFAULT_MANDEL_ORIGIN` of `constants.js`. -/
def DEFAULT_MANDEL_ORIGIN : K × K := (-0.5, 0.0)

/-- `DEFAULT_MAX_ITERS` of `constants.js`. -/
def DEFAULT_MAX_ITERS : ℤ := 1000

/-- The state the view operations read and write: the globals kept on `window`, and of the
document the size of the canvas `mandelImage` and the state of the form (the integer that
`parseInt` reads from the value of the input `maxIters`, the checked `calcUsing` radio button
and the checked `colourScheme` radio button). -/
structure Page (K : Type) where
  mandelPixelsPerUnit : K
  juliaPixelsPerUnit : K
  mandelOrigin : K × K
  mandelXToCoordXFn : K → K
  mandelYToCoordYFn : K → K
  maxIters : ℤ
  colourMaps : Fin 4 → JSArray RGB
  mandelImageWidth : K
  mandelImageHeight : K
  maxItersValue : ℤ
  calcUsing : String
  colourScheme : ℤ

/-- The fields `x_coord` and `y_coord` of `mousePosToCoords(evt)` of `utilities.js`, for an
event whose position on the canvas is `mousePos`. -/
def mousePosToCoords (page : Page K) (mousePos : K × K) : K × K :=
  (page.mandelXToCoordXFn mousePos.1, -page.mandelYToCoordYFn mousePos.2)

/-- `zoomIn` of `utilities.js`, for an event whose position on the canvas is `mousePos`. The
final `mandelPlot()` draws the image and changes none of the fields of the page. -/
def zoomIn (page : Page K) (mousePos : K × K) : Page K :=
  let p2c := mousePosToCoords page mousePos
  let mandelOrigin : K × K := (p2c.1, p2c.2 * -1)
  let mandelPixelsPerUnit := page.mandelPixelsPerUnit * 2
  { page with
    mandelOrigin := mandelOrigin
    mandelPixelsPerUnit := mandelPixelsPerUnit
    mandelXToCoordXFn :=
      mouseAxisToCoordAxis page.mandelImageWidth mandelPixelsPerUnit mandelOrigin.1
    mandelYToCoordYFn :=
      mouseAxisToCoordAxis page.mandelImageHeight mandelPixelsPerUnit mandelOrigin.2 }

/-- `zoomOut` of `utilities.js`. The final `mandelPlot()` draws the image and changes none of
the fields of the page. -/
def zoomOut (page : Page K) : Page K :=
  let page : Page K :=
    if page.mandelPixelsPerUnit / 2 < DEFAULT_PPU then
      { page with
        mandelPixelsPerUnit := DEFAULT_PPU
        mandelOrigin := (DEFAULT_MANDEL_ORIGIN.1, DEFAULT_MANDEL_ORIGIN.2) }
    else
      { page with mandelPixelsPerUnit := page.mandelPixelsPerUnit / 2 }
  { page with
    mandelXToCoordXFn :=
      mouseAxisToCoordAxis page.mandelImageWidth page.mandelPixelsPerUnit page.mandelOrigin.1
    mandelYToCoordYFn :=
      mouseAxisToCoordAxis page.mandelImageHeight page.mandelPixelsPerUnit page.mandelOrigin.2 }

/-- `resetUI` of `utilities.js`. Assigning to the `value` of the input `maxIters` fires no
`change` event, and the final `mandelPlot()` draws the image and changes none of the fields of
the page. -/
def resetUI (page : Page K) : Page K :=
  { page with
    mandelOrigin := (DEFAULT_MANDEL_ORIGIN.1, DEFAULT_MANDEL_ORIGIN.2)
    mandelPixelsPerUnit := DEFAULT_PPU
    juliaPixelsPerUnit := DEFAULT_PPU
    mandelXToCoordXFn :=
      mouseAxisToCoordAxis page.mandelImageWidth DEFAULT_PPU DEFAULT_MANDEL_ORIGIN.1
    mandelYToCoordYFn :=
      mouseAxisToCoordAxis page.mandelImageHeight DEFAULT_PPU DEFAULT_MANDEL_ORIGIN.2
    calcUsing := "WASM"
    colourScheme := 1
    maxItersValue := DEFAULT_MAX_ITERS }

/-- `rebuildColourMaps` of `colours.js`; `ln` is the built-in `Math.log`. -/
def rebuildColourMaps [FloorRing K] (ln : K → K) (page : Page K) : Page K :=
  (fun newIters : ℤ =>
    if newIters ≠ page.maxIters then
      { page with colourMaps := buildColourMaps ln newIters, maxIters := newIters }
    else page)
    page.maxItersValue

/-- The `onchange` handler of the input `maxIters` installed by `startJS` of `main.js`, run
after the user has changed the value of the input to `newValue`: `rebuildColourMaps()` and then
`mandelPlot()`, which draws the image and changes none of the fields of the page. -/
def maxItersOnChange [FloorRing K] (ln : K → K) (newValue : ℤ) (page : Page K) : Page K :=
  rebuildColourMaps ln { page with maxItersValue := newValue }

/-- The state `startJS` of `main.js` sets up, for a canvas of the given size, a form whose
input `maxIters` holds `maxItersValue`, and the given checked radio buttons. -/
def startJS [FloorRing K] (ln : K → K) (width height : K) (maxItersValue : ℤ)
    (calcUsing : String) (colourScheme : ℤ) : Page K :=
  { mandelPixelsPerUnit := DEFAULT_PPU
    juliaPixelsPerUnit := DEFAULT_PPU
    mandelOrigin := (DEFAULT_MANDEL_ORIGIN.1, DEFAULT_MANDEL_ORIGIN.2)
    mandelXToCoordXFn := mouseAxisToCoordAxis width DEFAULT_PPU DEFAULT_MANDEL_ORIGIN.1
    mandelYToCoordYFn := mouseAxisToCoordAxis height DEFAULT_PPU DEFAULT_MANDEL_ORIGIN.2
    maxIters := maxItersValue
    colourMaps := buildColourMaps ln maxItersValue
    mandelImageWidth := width
    mandelImageHeight := height
    maxItersValue := maxItersValue
    calcUsing := calcUsing
    colourScheme := colourScheme }

/-- A view operation: a zoom-in at a position on the canvas, a zoom-out or a reset. -/
inductive ViewOp (K : Type) where
  | zoomIn (mousePos : K × K)
  | zoomOut
  | reset

/-- The page after one view operation. -/
def applyViewOp (page : Page K) : ViewOp K → Page K
  | ViewOp.zoomIn mousePos => zoomIn page mousePos
  | ViewOp.zoomOut => zoomOut page
  | ViewOp.reset => resetUI page

/-- The page after a sequence of view operations, the first of the list first. -/
def applyViewOps (page : Page K) (ops : List (ViewOp K)) : Page K :=
  ops.foldl applyViewOp page

/-! ## The render loops of `fractal.js` and `fractal_new.js` -/

/-- A `Uint32Array` over a fresh buffer: its length, the word stored in each element, and, as
a record of the run that is not part of the JavaScript value, the number of assignments made
to each element. -/
structure Uint32Array where
  length : ℕ
  get : ℤ → ℕ
  stores : ℤ → ℕ

/-- The array `new Uint32Array(buf)` over a fresh `ArrayBuffer` of `4 * length` bytes: every
element is zero and nothing has been assigned. -/
def Uint32Array.new (length : ℕ) : Uint32Array :=
  { length := length, get := fun _ => 0, stores := fun _ => 0 }

/-- The assignment `a[k] = v` of an integer-valued number: an index inside the array receives
`ToUint32(v)`, an index outside it leaves the array as it is. -/
def Uint32Array.set (a : Uint32Array) (k : ℤ) (v : ℤ) : Uint32Array :=
  if 0 ≤ k ∧ k < (a.length : ℤ) then
    { length := a.length
      get := fun j => if j = k then toUint32 v else a.get j
      stores := fun j => if j = k then a.stores j + 1 else a.stores j }
  else a

/-- The variables of the inner loop (over `ix`) of a render function; `thrown` holds the
condition thrown by the body, after which no further pass runs. -/
structure ColumnState where
  ix : ℤ
  buf32 : Uint32Array
  thrown : Option JSError

/-- The variables of the outer loop (over `iy`) of a render function. -/
structure RowState where
  iy : ℤ
  buf32 : Uint32Array
  thrown : Option JSError

/-- The test `ix < cvs.width` of the inner loop, reached only while nothing has been thrown. -/
def columnGuard (width : ℤ) (s : ColumnState) : Prop := s.thrown = none ∧ s.ix < width

instance columnGuardDecidable (width : ℤ) : DecidablePred (columnGuard width) := by
  intro s
  unfold columnGuard
  infer_instance

/-- One pass of the inner loop, its increment `++ix` included. `thisColour ix iy` is the entry
of the colour map that the pass looks up, `none` when the map holds nothing at that key: then
`thisColour` is `undefined` and reading `thisColour[0]` throws a `TypeError`. Otherwise the pass
runs `buf32[iy * cvs.width + ix] = setRGB(thisColour[0], thisColour[1], thisColour[2])`. -/
def columnBody (setRGB : ℤ → ℤ → ℤ → ℤ) (width iy : ℤ) (thisColour : ℤ → ℤ → Option RGB)
    (s : ColumnState) : ColumnState :=
  match thisColour s.ix iy with
  | none => { s with thrown := some JSError.typeError }
  | some c =>
    { ix := s.ix + 1
      buf32 := s.buf32.set (iy * width + s.ix) (setRGB c.1 c.2.1 c.2.2)
      thrown := s.thrown }

/-- The number of passes the inner loop can still make, plus one while nothing is thrown. -/
def columnVariant (width : ℤ) (s : ColumnState) : ℕ :=
  match s.thrown with
  | none => (width - s.ix).toNat + 1
  | some _ => 0

/-- The inner loop `for (let ix = 0; ix < cvs.width; ++ix)`, run from the state `s`. -/
def columnLoop (setRGB : ℤ → ℤ → ℤ → ℤ) (width iy : ℤ) (thisColour : ℤ → ℤ → Option RGB)
    (s : ColumnState) : ColumnState :=
  whileLoop (columnGuard width) (columnBody setRGB width iy thisColour) (columnVariant width)
    (fun s h => by
      obtain ⟨h1, h2⟩ := h
      unfold columnBody
      cases hc : thisColour s.ix iy with
      | none => simp only [columnVariant, h1]; omega
      | some c => simp only [columnVariant, h1]; omega)
    s

/-- The test `iy < cvs.height` of the outer loop, reached only while nothing has been thrown. -/
def rowGuard (height : ℤ) (s : RowState) : Prop := s.thrown = none ∧ s.iy < height

instance rowGuardDecidable (height : ℤ) : DecidablePred (rowGuard height) := by
  intro s
  unfold rowGuard
  infer_instance

/-- One pass of the outer loop, its increment `++iy` included: the inner loop from `ix = 0`. -/
def rowBody (setRGB : ℤ → ℤ → ℤ → ℤ) (width : ℤ) (thisColour : ℤ → ℤ → Option RGB)
    (s : RowState) : RowState :=
  let row := columnLoop setRGB width s.iy thisColour
    { ix := 0, buf32 := s.buf32, thrown := s.thrown }
  { iy := s.iy + 1, buf32 := row.buf32, thrown := row.thrown }

/-- The number of passes the outer loop can still make, plus one while nothing is thrown. -/
def rowVariant (height : ℤ) (s : RowState) : ℕ :=
  match s.thrown with
  | none => (height - s.iy).toNat + 1
  | some _ => 0

/-- The outer loop `for (let iy = 0; iy < cvs.height; ++iy)`, run from the state `s`. -/
def rowLoop (setRGB : ℤ → ℤ → ℤ → ℤ) (width height : ℤ) (thisColour : ℤ → ℤ → Option RGB)
    (s : RowState) : RowState :=
  whileLoop (rowGuard height) (rowBody setRGB width thisColour) (rowVariant height)
    (fun s h => by
      obtain ⟨h1, h2⟩ := h
      simp only [rowVariant, rowBody, h1]
      split <;> omega)
    s

/-- The part the render functions `mandelCalcJS` of `fractal.js` and `fractalCalcJS` of
`fractal_new.js` share, for a canvas of positive `width` and `height`: the `Uint32Array` over a
buffer of `img.data.length = 4 * width * height` bytes, the two nested pixel loops, and the
buffer handed to `ctx.putImageData`, unless the body has thrown. -/
def renderLoops (setRGB : ℤ → ℤ → ℤ → ℤ) (width height : ℤ)
    (thisColour : ℤ → ℤ → Option RGB) : Except JSError Uint32Array :=
  let buf32 := Uint32Array.new (width * height).toNat
  let final := rowLoop setRGB width height thisColour { iy := 0, buf32 := buf32, thrown := none }
  match final.thrown with
  | none => Except.ok final.buf32
  | some e => Except.error e

namespace Fractal

/-- The fields of the object `imageSpace` of `fractal.js`. -/
structure ImageSpace (K : Type) where
  mandelXCoord : K
  mandelYCoord : K
  xMin : K
  xMax : K
  yMin : K
  yMax : K

/-- `mandelCalcJS` of `fractal.js` on the given host, for a canvas of the given size:
`maxIters` is `window.maxIters` and `thisColourMap` the map
`window.colourMaps[parseInt(getRadio('colourScheme'))]`. -/
def mandelCalcJS (host : Host) (maxIters : ℤ) (thisColourMap : JSArray RGB) (width height : ℤ)
    (imageSpace : ImageSpace K) : Except JSError Uint32Array :=
  renderLoops (setRGB host) width height (fun ix iy =>
    let x_val := imageSpace.xMin + (imageSpace.xMax - imageSpace.xMin) * (ix : K)
      / ((width : K) - 1)
    let y_val := imageSpace.yMin + (imageSpace.yMax - imageSpace.yMin) * (iy : K)
      / ((height : K) - 1)
    thisColourMap.get (mandelIter maxIters x_val y_val))

end Fractal

namespace FractalNew

/-- `MANDELBROT` of `constants.js`. -/
def MANDELBROT : String := "mandel"

/-- `JULIA` of `constants.js`. -/
def JULIA : String := "julia"

/-- `fractalCalcJS` of `fractal_new.js` on the given host, for a canvas of the given size;
`maxIters` is `window.maxIters`. -/
def fractalCalcJS (host : Host) (maxIters : ℤ) (fType : String) (width height : ℤ)
    (imgSpace : ImgSpace K) : Except JSError Uint32Array :=
  let xCoordFn := pixelXToCoordX imgSpace (width : K)
  let yCoordFn := pixelYToCoordY imgSpace (height : K)
  renderLoops (setRGB host) width height (fun ix iy =>
    imgSpace.colourMap.get
      (if fType = MANDELBROT then mandelIter maxIters (xCoordFn (ix : K)) (yCoordFn (iy : K))
        else escapeTimeMJ maxIters imgSpace.mandelX imgSpace.mandelY
          (some (xCoordFn (ix : K))) (some (yCoordFn (iy : K)))))

end FractalNew

/-- The buffer has length `L`, holds the word `W k` at every index `0 ≤ k < n`, each assigned
exactly once, and is zero and unassigned at every other index. -/
def BufferFilled (W : ℤ → ℕ) (L : ℕ) (n : ℤ) (buf : Uint32Array) : Prop :=
  buf.length = L ∧
    ∀ k : ℤ, buf.get k = (if 0 ≤ k ∧ k < n then W k else 0) ∧
      buf.stores k = (if 0 ≤ k ∧ k < n then 1 else 0)

/-- The plane coordinate of the pixel index `p` along an axis of `dim` pixels, as the
specification words it: `min + (max - min) * p / (dim - 1)`. -/
def planeCoord (min max : K) (dim p : ℤ) : K :=
  min + (max - min) * (p : K) / ((dim : K) - 1)

/-- The buffer is the row-major image of a `width` by `height` canvas: it has `width * height`
words, the word at `y * width + x` is `ToUint32` of `setRGB` applied to the colour
`colourAt x y` of the pixel `(x, y)`, every index of the buffer was assigned exactly once, and
nothing else was assigned. -/
def FilledRowMajor (setRGB : ℤ → ℤ → ℤ → ℤ) (width height : ℤ)
    (colourAt : ℤ → ℤ → Option RGB) (buf : Uint32Array) : Prop :=
  (buf.length : ℤ) = width * height ∧
    (∀ x y : ℤ, 0 ≤ x → x < width → 0 ≤ y → y < height →
      ∃ c : RGB, colourAt x y = some c ∧
        buf.get (y * width + x) = toUint32 (setRGB c.1 c.2.1 c.2.2)) ∧
    (∀ k : ℤ, 0 ≤ k → k < width * height → buf.stores k = 1) ∧
    ∀ k : ℤ, ¬ (0 ≤ k ∧ k < width * height) → buf.stores k = 0

namespace Fractal

/-- The early-exit test that `mandelIter` of `fractal.js` evaluates before its loop, with
`temp = sumOfSquares(x_val - 0.25, y_val)`:
`(temp * (temp + x_val - 0.25) <= (y_val * y_val) / 4.0) || (sumOfSquares(x_val + 1, y_val) < 0.0625)`. -/
def earlyExitTest (x_val y_val : K) : Prop :=
  (fun temp : K =>
    (temp * (temp + x_val - 0.25) ≤ (y_val * y_val) / 4.0) ∨
      (sumOfSquares (x_val + 1) y_val < 0.0625))
    (sumOfSquares (x_val - 0.25) y_val)

instance earlyExitTestDecidable (x_val y_val : K) : Decidable (earlyExitTest x_val y_val) := by
  unfold earlyExitTest
  infer_instance

/-- `juliaCalcJS` of `fractal.js` on the given host, for a canvas of the given size:
`maxIters` is `window.maxIters` and `thisColourMap` the map
`window.colourMaps[parseInt(getRadio('colourScheme'))]`. The two step functions are built
anew in every row. -/
def juliaCalcJS (host : Host) (maxIters : ℤ) (thisColourMap : JSArray RGB) (width height : ℤ)
    (juliaSpace : ImageSpace K) : Except JSError Uint32Array :=
  renderLoops (setRGB host) width height (fun ix iy =>
    let juliaXStepFn := makeJuliaXStepFn juliaSpace.mandelXCoord
    let juliaYStepFn := makeJuliaYStepFn juliaSpace.mandelYCoord
    let x_coord := juliaSpace.xMin + (juliaSpace.xMax - juliaSpace.xMin) * (ix : K)
      / ((width : K) - 1)
    let y_coord := juliaSpace.yMin + (juliaSpace.yMax - juliaSpace.yMin) * (iy : K)
      / ((height : K) - 1)
    thisColourMap.get (juliaIter maxIters x_coord y_coord juliaXStepFn juliaYStepFn))

end Fractal

/-! ## `colours.js` in binary64 arithmetic

The second embedding of `colours.js`: every number is a binary64 value (a rational, an infinity
or `NaN`), every arithmetic operation rounds its exact result to nearest, and `Math.log` is the
built-in with the host's approximation of the logarithm as a parameter. Loop counters and caps
are integers, which binary64 holds exactly up to `2 ^ 53`. -/

namespace Binary64

/-- The integer nearest to `t`; the even one of the two nearest when `t` is halfway between
them. -/
def roundHalfEven (t : ℚ) : ℤ :=
  if t - ⌊t⌋ < 1 / 2 then ⌊t⌋
  else if 1 / 2 < t - ⌊t⌋ then ⌊t⌋ + 1
  else if ⌊t⌋ % 2 = 0 then ⌊t⌋ else ⌊t⌋ + 1

/-- The binary64 number that the exact result `x` of an operation is rounded to (to nearest,
ties to even). With `e` the binary exponent of `x`, not below the least normal exponent `-1022`,
the binary64 numbers around `x` are the integer multiples of `2 ^ (e - 52)`; a rounded
magnitude of `2 ^ 1024` or more is the infinity of the sign of `x`. The sign of a zero is not
recorded. -/
def round64 (x : ℚ) : JSNumber ℚ :=
  let e : ℤ := max (Int.log 2 |x|) (-1022)
  let y : ℚ := roundHalfEven (x / 2 ^ (e - 52)) * 2 ^ (e - 52)
  if (2 : ℚ) ^ (1024 : ℤ) ≤ |y| then
    if 0 < x then JSNumber.posInfinity else JSNumber.negInfinity
  else JSNumber.finite y

/-- The product `a * b` of JavaScript numbers. -/
def mul : JSNumber ℚ → JSNumber ℚ → JSNumber ℚ
  | JSNumber.finite x, JSNumber.finite y => round64 (x * y)
  | JSNumber.finite x, JSNumber.posInfinity =>
    if x = 0 then JSNumber.nan else if 0 < x then JSNumber.posInfinity else JSNumber.negInfinity
  | JSNumber.finite x, JSNumber.negInfinity =>
    if x = 0 then JSNumber.nan else if 0 < x then JSNumber.negInfinity else JSNumber.posInfinity
  | JSNumber.posInfinity, JSNumber.finite y =>
    if y = 0 then JSNumber.nan else if 0 < y then JSNumber.posInfinity else JSNumber.negInfinity
  | JSNumber.negInfinity, JSNumber.finite y =>
    if y = 0 then JSNumber.nan else if 0 < y then JSNumber.negInfinity else JSNumber.posInfinity
  | JSNumber.posInfinity, JSNumber.posInfinity => JSNumber.posInfinity
  | JSNumber.posInfinity, JSNumber.negInfinity => JSNumber.negInfinity
  | JSNumber.negInfinity, JSNumber.posInfinity => JSNumber.negInfinity
  | JSNumber.negInfinity, JSNumber.negInfinity => JSNumber.posInfinity
  | JSNumber.nan, _ => JSNumber.nan
  | _, JSNumber.nan => JSNumber.nan

/-- The quotient `a / b` of JavaScript numbers; a zero divisor is read as `+0`. -/
def div : JSNumber ℚ → JSNumber ℚ → JSNumber ℚ
  | JSNumber.finite x, JSNumber.finite y =>
    if y = 0 then
      if x = 0 then JSNumber.nan else if 0 < x then JSNumber.posInfinity else JSNumber.negInfinity
    else round64 (x / y)
  | JSNumber.finite _, JSNumber.posInfinity => JSNumber.finite 0
  | JSNumber.finite _, JSNumber.negInfinity => JSNumber.finite 0
  | JSNumber.posInfinity, JSNumber.finite y =>
    if 0 ≤ y then JSNumber.posInfinity else JSNumber.negInfinity
  | JSNumber.negInfinity, JSNumber.finite y =>
    if 0 ≤ y then JSNumber.negInfinity else JSNumber.posInfinity
  | JSNumber.posInfinity, JSNumber.posInfinity => JSNumber.nan
  | JSNumber.posInfinity, JSNumber.negInfinity => JSNumber.nan
  | JSNumber.negInfinity, JSNumber.posInfinity => JSNumber.nan
  | JSNumber.negInfinity, JSNumber.negInfinity => JSNumber.nan
  | JSNumber.nan, _ => JSNumber.nan
  | _, JSNumber.nan => JSNumber.nan

/-- The difference `a - b` of JavaScript numbers. -/
def sub : JSNumber ℚ → JSNumber ℚ → JSNumber ℚ
  | JSNumber.finite x, JSNumber.finite y => round64 (x - y)
  | JSNumber.finite _, JSNumber.posInfinity => JSNumber.negInfinity
  | JSNumber.finite _, JSNumber.negInfinity => JSNumber.posInfinity
  | JSNumber.posInfinity, JSNumber.finite _ => JSNumber.posInfinity
  | JSNumber.negInfinity, JSNumber.finite _ => JSNumber.negInfinity
  | JSNumber.posInfinity, JSNumber.posInfinity => JSNumber.nan
  | JSNumber.posInfinity, JSNumber.negInfinity => JSNumber.posInfinity
  | JSNumber.negInfinity, JSNumber.posInfinity => JSNumber.negInfinity
  | JSNumber.negInfinity, JSNumber.negInfinity => JSNumber.nan
  | JSNumber.nan, _ => JSNumber.nan
  | _, JSNumber.nan => JSNumber.nan

/-- The comparison `a < b` of JavaScript numbers: false when either is `NaN`. -/
def lt : JSNumber ℚ → JSNumber ℚ → Bool
  | JSNumber.finite x, JSNumber.finite y => decide (x < y)
  | JSNumber.finite _, JSNumber.posInfinity => true
  | JSNumber.negInfinity, JSNumber.finite _ => true
  | JSNumber.negInfinity, JSNumber.posInfinity => true
  | _, _ => false

/-- The comparison `a <= b` of JavaScript numbers: false when either is `NaN`. -/
def le : JSNumber ℚ → JSNumber ℚ → Bool
  | JSNumber.finite x, JSNumber.finite y => decide (x ≤ y)
  | JSNumber.finite _, JSNumber.posInfinity => true
  | JSNumber.negInfinity, JSNumber.finite _ => true
  | JSNumber.negInfinity, JSNumber.posInfinity => true
  | JSNumber.posInfinity, JSNumber.posInfinity => true
  | JSNumber.negInfinity, JSNumber.negInfinity => true
  | _, _ => false

/-- The comparison `a > b` of JavaScript numbers. -/
def gt (a b : JSNumber ℚ) : Bool := lt b a

/-- The comparison `a >= b` of JavaScript numbers. -/
def ge (a b : JSNumber ℚ) : Bool := le b a

/-- The built-in `Math.floor`. -/
def floor : JSNumber ℚ → JSNumber ℚ
  | JSNumber.finite x => JSNumber.finite (⌊x⌋ : ℤ)
  | JSNumber.posInfinity => JSNumber.posInfinity
  | JSNumber.negInfinity => JSNumber.negInfinity
  | JSNumber.nan => JSNumber.nan

/-- The built-in `parseInt` applied to a number. It parses the decimal rendering of its
argument: `NaN` for `NaN` and the infinities, and the truncation toward zero of a finite number
that is zero or rendered positionally (magnitudes from `1e-6` up to `1e21`). -/
def parseInt : JSNumber ℚ → JSNumber ℚ
  | JSNumber.finite x => JSNumber.finite ((if 0 ≤ x then ⌊x⌋ else ⌈x⌉ : ℤ) : ℚ)
  | _ => JSNumber.nan

/-- The built-in `Math.log`. The language fixes its value at `NaN`, at negative numbers, at
zero, at `1` and at `+Infinity`; elsewhere it is the host's approximation `ln` of the natural
logarithm. -/
def mathLog (ln : ℚ → ℚ) : JSNumber ℚ → JSNumber ℚ
  | JSNumber.finite x =>
    if x < 0 then JSNumber.nan
    else if x = 0 then JSNumber.negInfinity
    else if x = 1 then JSNumber.finite 0
    else JSNumber.finite (ln x)
  | JSNumber.posInfinity => JSNumber.posInfinity
  | JSNumber.negInfinity => JSNumber.nan
  | JSNumber.nan => JSNumber.nan

/-- A host logarithm for `Math.log`, tabulated at 2, 3, 32, 50 and 99: the binary64 numbers
nearest to the natural logarithms (`0.6931471805599453`, `1.0986122886681098`,
`3.4657359027997265`, `3.912023005428146`, `4.59511985013459`). No other argument is
tabulated; the value 0 stands for them and is not read by any statement below. -/
def lnSample (x : ℚ) : ℚ :=
  if x = 2 then 6243314768165359 / 2 ^ 53
  else if x = 3 then 4947709893870347 / 2 ^ 52
  else if x = 32 then 7804143460206699 / 2 ^ 51
  else if x = 50 then 8809092674755503 / 2 ^ 51
  else if x = 99 then 5173645011197227 / 2 ^ 50
  else 0

/-- An entry of a colour map: the array of the three numbers `[Red, Green, Blue]`. -/
abbrev Colour : Type := JSNumber ℚ × JSNumber ℚ × JSNumber ℚ

/-- `R2G_MAX` of `colours.js`. -/
def R2G_MAX : JSNumber ℚ := round64 0.13

/-- `G2B_MAX` of `colours.js`. -/
def G2B_MAX : JSNumber ℚ := round64 0.42

/-- `B2R_MAX` of `colours.js`. -/
def B2R_MAX : JSNumber ℚ := round64 0.77

/-- `R2B_MIN` of `colours.js`. -/
def R2B_MIN : JSNumber ℚ := round64 0.26

/-- `G2R_MIN` of `colours.js`. -/
def G2R_MIN : JSNumber ℚ := round64 0.58

/-- `monochrome` of `colours.js`. -/
def monochrome (_idx : ℤ) (logScale _band3 : JSNumber ℚ) : Colour :=
  (fun val : JSNumber ℚ => (val, val, val)) (parseInt (mul (JSNumber.finite 255) logScale))

/-- `fire` of `colours.js`. -/
def fire (_idx : ℤ) (_logScale band3 : JSNumber ℚ) : Colour :=
  ( if lt band3 (JSNumber.finite 1) then parseInt (mul (JSNumber.finite 255) band3)
    else JSNumber.finite 255
  , if lt band3 (JSNumber.finite 1) then JSNumber.finite 0
    else if lt band3 (JSNumber.finite 2) then
      parseInt (mul (JSNumber.finite 255) (sub band3 (JSNumber.finite 1)))
    else JSNumber.finite 255
  , if lt band3 (JSNumber.finite 2) then JSNumber.finite 0
    else parseInt (mul (JSNumber.finite 255) (sub band3 (JSNumber.finite 2))) )

/-- `webSafeCycle` of `colours.js`; `%` is the remainder with the sign of the dividend. -/
def webSafeCycle (idx : ℤ) (_logScale _band3 : JSNumber ℚ) : Colour :=
  ( mul (floor (div (JSNumber.finite (idx.tmod 252 : ℤ)) (JSNumber.finite 42)))
      (JSNumber.finite 0x33)
  , mul (floor (div (JSNumber.finite (idx.tmod 42 : ℤ)) (JSNumber.finite 6)))
      (JSNumber.finite 0x33)
  , mul (JSNumber.finite (idx.tmod 6 : ℤ)) (JSNumber.finite 0x33) )

/-- `rainbow_red` of `colours.js`. -/
def rainbow_red (scaleVal : JSNumber ℚ) : JSNumber ℚ :=
  if lt scaleVal R2G_MAX || gt scaleVal B2R_MAX then JSNumber.finite 255
  else if ge scaleVal R2G_MAX && le scaleVal R2B_MIN then
    floor (div (mul (JSNumber.finite 255) (sub scaleVal R2G_MAX)) (sub R2B_MIN R2G_MAX))
  else if ge scaleVal G2R_MIN && le scaleVal B2R_MAX then
    floor (div (mul (JSNumber.finite 255) (sub scaleVal G2R_MIN)) (sub B2R_MAX G2R_MIN))
  else JSNumber.finite 0

/-- `rainbow_green` of `colours.js`. -/
def rainbow_green (scaleVal : JSNumber ℚ) : JSNumber ℚ :=
  if gt scaleVal R2G_MAX && lt scaleVal G2B_MAX then JSNumber.finite 255
  else if le scaleVal R2G_MAX then
    floor (div (mul (JSNumber.finite 255) scaleVal) R2G_MAX)
  else if ge scaleVal G2B_MAX && le scaleVal G2R_MIN then
    floor (div (mul (JSNumber.finite 255) (sub scaleVal G2B_MAX)) (sub G2R_MIN G2B_MAX))
  else JSNumber.finite 0

/-- `rainbow_blue` of `colours.js`. -/
def rainbow_blue (scaleVal : JSNumber ℚ) : JSNumber ℚ :=
  if gt scaleVal G2B_MAX && lt scaleVal B2R_MAX then JSNumber.finite 255
  else if ge scaleVal R2B_MIN && le scaleVal G2B_MAX then
    floor (div (mul (JSNumber.finite 255) (sub scaleVal R2B_MIN)) (sub G2B_MAX R2B_MIN))
  else if ge scaleVal B2R_MAX then
    floor (div (mul (JSNumber.finite 255) (sub scaleVal B2R_MAX))
      (sub (JSNumber.finite 1) B2R_MAX))
  else JSNumber.finite 0

/-- `rainbow` of `colours.js`. -/
def rainbow (_idx : ℤ) (logScale _band3 : JSNumber ℚ) : Colour :=
  (rainbow_red logScale, rainbow_green logScale, rainbow_blue logScale)

/-- `colourMapFns` of `colours.js`: the array `[monochrome, fire, webSafeCycle, rainbow]`. -/
def colourMapFns : Fin 4 → ℤ → JSNumber ℚ → JSNumber ℚ → Colour
  | 0 => monochrome
  | 1 => fire
  | 2 => webSafeCycle
  | 3 => rainbow

/-- The assignment `colourMaps[k][i] = v` on the array of the four colour maps. -/
def setEntry (colourMaps : Fin 4 → JSArray Colour) (k : Fin 4) (i : ℤ) (v : Colour) :
    Fin 4 → JSArray Colour :=
  Function.update colourMaps k ((colourMaps k).set i v)

/-- The variables of the `for` loop of `buildColourMaps`. -/
structure BuildState where
  i : ℤ
  logScale : JSNumber ℚ
  band3 : JSNumber ℚ
  colourMaps : Fin 4 → JSArray Colour

/-- The loop test of `buildColourMaps`: `i<iterLimit`. -/
def buildGuard (iterLimit : ℤ) (s : BuildState) : Prop := s.i < iterLimit

instance buildGuardDecidable (iterLimit : ℤ) : DecidablePred (buildGuard iterLimit) := by
  intro s
  unfold buildGuard
  infer_instance

/-- One pass of the `for` loop of `buildColourMaps`, its increment `i++` included. -/
def buildBody (ln : ℚ → ℚ) (logMaxIter : JSNumber ℚ) (s : BuildState) : BuildState :=
  let logScale := div (mathLog ln (JSNumber.finite (s.i : ℚ))) logMaxIter
  let band3 := mul logScale (JSNumber.finite 3)
  let colourMaps := setEntry s.colourMaps 0 s.i (colourMapFns 0 s.i logScale band3)
  let colourMaps := setEntry colourMaps 1 s.i (colourMapFns 1 s.i logScale band3)
  let colourMaps := setEntry colourMaps 2 s.i (colourMapFns 2 s.i logScale band3)
  let colourMaps := setEntry colourMaps 3 s.i (colourMapFns 3 s.i logScale band3)
  { i := s.i + 1, logScale := logScale, band3 := band3, colourMaps := colourMaps }

/-- The number of passes the loop of `buildColourMaps` can still make. -/
def buildVariant (iterLimit : ℤ) (s : BuildState) : ℕ := (iterLimit - s.i).toNat

/-- The `for` loop of `buildColourMaps`, run from the state `s`. -/
def buildLoop (ln : ℚ → ℚ) (iterLimit : ℤ) (logMaxIter : JSNumber ℚ) (s : BuildState) :
    BuildState :=
  whileLoop (buildGuard iterLimit) (buildBody ln logMaxIter) (buildVariant iterLimit)
    (fun s h => by
      have h1 : s.i < iterLimit := h
      simp only [buildVariant, buildBody]
      omega)
    s

/-- `buildColourMaps` of `colours.js`. -/
def buildColourMaps (ln : ℚ → ℚ) (iterLimit : ℤ) : Fin 4 → JSArray Colour :=
  let logScale : JSNumber ℚ := JSNumber.finite 0.0
  let band3 : JSNumber ℚ := JSNumber.finite 0.0
  let colourMaps : Fin 4 → JSArray Colour := fun _ => JSArray.empty
  let black : Colour := (JSNumber.finite 0x0, JSNumber.finite 0x0, JSNumber.finite 0x0)
  let colourMaps := setEntry colourMaps 0 iterLimit black
  let colourMaps := setEntry colourMaps 1 iterLimit black
  let colourMaps := setEntry colourMaps 2 iterLimit black
  let colourMaps := setEntry colourMaps 3 iterLimit black
  let colourMaps := setEntry colourMaps 0 0 (colourMapFns 0 0 logScale band3)
  let colourMaps := setEntry colourMaps 1 0 (colourMapFns 1 0 logScale band3)
  let colourMaps := setEntry colourMaps 2 0 (colourMapFns 2 0 logScale band3)
  let colourMaps := setEntry colourMaps 3 0 (colourMapFns 3 0 logScale band3)
  let logMaxIter := mathLog ln (sub (JSNumber.finite (iterLimit : ℚ)) (JSNumber.finite 1.0))
  (buildLoop ln iterLimit logMaxIter
    { i := 1, logScale := logScale, band3 := band3, colourMaps := colourMaps }).colourMaps

/-- The number is a finite integer. -/
def IsInteger (a : JSNumber ℚ) : Prop := ∃ n : ℤ, a = JSNumber.finite (n : ℚ)

/-- Every element of the entry is a finite integer. -/
def IsIntegerTriple (c : Colour) : Prop := IsInteger c.1 ∧ IsInteger c.2.1 ∧ IsInteger c.2.2

end Binary64

/-! ## The orbit of the quadratic recurrence, as the specification words it -/

/-- The orbit `z_0 = (x0, y0)`, `z_{k+1} = (x_k^2 - y_k^2 + cx, 2*x_k*y_k + cy)`. -/
def orbit (cx cy x0 y0 : K) : ℕ → K × K
  | 0 => (x0, y0)
  | k + 1 =>
    let z := orbit cx cy x0 y0 k
    (z.1 ^ 2 - z.2 ^ 2 + cx, 2 * z.1 * z.2 + cy)

/-- The squared magnitude `x_k^2 + y_k^2` of the `k`-th point of the orbit. -/
def orbitNormSq (cx cy x0 y0 : K) (k : ℕ) : K :=
  (orbit cx cy x0 y0 k).1 ^ 2 + (orbit cx cy x0 y0 k).2 ^ 2

end Field

/-! ## Theorems -/

section LoopLemmas

variable {σ : Type} (guard : σ → Prop) [DecidablePred guard] (body : σ → σ)
  (variant : σ → ℕ) (hdec : ∀ s, guard s → variant (body s) < variant s)

theorem whileLoop_unfold (s : σ) :
    whileLoop guard body variant hdec s =
      if guard s then whileLoop guard body variant hdec (body s) else s := by
  rw [whileLoop]
  split <;> rfl

theorem whileLoop_of_guard (s : σ) (h : guard s) :
    whileLoop guard body variant hdec s = whileLoop guard body variant hdec (body s) := by
  rw [whileLoop_unfold, if_pos h]

theorem whileLoop_of_not_guard (s : σ) (h : ¬ guard s) :
    whileLoop guard body variant hdec s = s := by
  rw [whileLoop_unfold, if_neg h]

/-- A loop with a decreasing variant stops: it makes some number `k` of passes, at most the
initial value of the variant, the guard holds before each of them and fails after the last. -/
theorem whileLoop_passes (s : σ) :
    ∃ k : ℕ, k ≤ variant s ∧ whileLoop guard body variant hdec s = body^[k] s ∧
      ¬ guard (body^[k] s) ∧ ∀ j < k, guard (body^[j] s) := by
  generalize hn : variant s = n
  induction n using Nat.strong_induction_on generalizing s with
  | _ n ih =>
    by_cases hg : guard s
    · obtain ⟨k, hk, hrun, hstop, hbefore⟩ := ih (variant (body s)) (hn ▸ hdec s hg) (body s) rfl
      refine ⟨k + 1, ?_, ?_, ?_, ?_⟩
      · have := hdec s hg
        omega
      · rw [whileLoop_of_guard guard body variant hdec s hg, hrun, Function.iterate_succ_apply]
      · rwa [Function.iterate_succ_apply]
      · intro j hj
        cases j with
        | zero => exact hg
        | succ j =>
          rw [Function.iterate_succ_apply]
          exact hbefore j (by omega)
    · exact ⟨0, Nat.zero_le _, whileLoop_of_not_guard guard body variant hdec s hg, hg,
        fun j hj => absurd hj (Nat.not_lt_zero j)⟩

theorem whileLoop_stopsAfter (s : σ) :
    ∃ k : ℕ, k ≤ variant s ∧ StopsAfter guard body s (whileLoop guard body variant hdec s) k := by
  obtain ⟨k, hk, hrun, hstop, hbefore⟩ := whileLoop_passes guard body variant hdec s
  exact ⟨k, hk, hrun.symm, hrun ▸ hstop, hbefore⟩

end LoopLemmas

section FieldLemmas

variable {K : Type} [LinearOrderedField K]

theorem BAILOUT_eq : (BAILOUT : K) = 4 := by
  norm_num [BAILOUT]

theorem orZero_some (v : K) : orZero (some v) = v := by
  simp only [orZero]
  split_ifs with h
  · exact h.symm
  · rfl

theorem sumOfSquares_orbit (cx cy x0 y0 : K) (k : ℕ) :
    sumOfSquares (orbit cx cy x0 y0 k).1 (orbit cx cy x0 y0 k).2 = orbitNormSq cx cy x0 y0 k := by
  simp only [sumOfSquares, orbitNormSq]
  ring

theorem orbit_succ (cx cy x0 y0 : K) (k : ℕ) :
    orbit cx cy x0 y0 (k + 1) =
      (cx + diffOfSquares (orbit cx cy x0 y0 k).1 (orbit cx cy x0 y0 k).2,
        cy + 2 * (orbit cx cy x0 y0 k).1 * (orbit cx cy x0 y0 k).2) := by
  simp only [orbit, diffOfSquares]
  refine Prod.ext ?_ ?_ <;> simp only <;> ring

namespace FractalNew

/-- After `k` passes of its loop body, `escapeTimeMJ` holds the `k`-th point of the orbit. -/
theorem escapeBody_iterate (cx cy : K) (s : EscapeState K) (k : ℕ) :
    ((escapeBody cx cy)^[k] s).x = (orbit cx cy s.x s.y k).1 ∧
      ((escapeBody cx cy)^[k] s).y = (orbit cx cy s.x s.y k).2 ∧
      ((escapeBody cx cy)^[k] s).iterCount = s.iterCount + k := by
  induction k with
  | zero => simp [orbit]
  | succ k ih =>
    obtain ⟨hx, hy, hi⟩ := ih
    rw [Function.iterate_succ_apply', orbit_succ]
    simp only [escapeBody, hx, hy, hi]
    refine ⟨trivial, trivial, ?_⟩
    push_cast
    ring

theorem escapeLoop_stopsAfter (maxIters : ℤ) (cx cy : K) (s : EscapeState K) :
    ∃ k : ℕ, k ≤ escapeVariant maxIters s ∧
      StopsAfter (escapeGuard maxIters) (escapeBody cx cy) s (escapeLoop maxIters cx cy s) k :=
  whileLoop_stopsAfter _ _ _ _ s

end FractalNew

namespace Fractal

theorem mandelBody_iterate_iters (x_val y_val : K) (s : MandelState K) (k : ℕ) :
    ((mandelBody x_val y_val)^[k] s).iters = s.iters + k := by
  induction k with
  | zero => simp
  | succ k ih =>
    rw [Function.iterate_succ_apply']
    simp only [mandelBody, ih]
    push_cast
    ring

theorem mandelLoop_stopsAfter (maxIters : ℤ) (x_val y_val : K) (s : MandelState K) :
    ∃ k : ℕ, k ≤ mandelVariant maxIters s ∧
      StopsAfter (mandelGuard maxIters) (mandelBody x_val y_val) s
        (mandelLoop maxIters x_val y_val s) k :=
  whileLoop_stopsAfter _ _ _ _ s

omit [LinearOrderedField K] in
theorem juliaBody_iterate_iterCount (stepX stepY : K → K → K) (s : JuliaState K) (k : ℕ) :
    ((juliaBody stepX stepY)^[k] s).iterCount = s.iterCount + k := by
  induction k with
  | zero => simp
  | succ k ih =>
    rw [Function.iterate_succ_apply']
    simp only [juliaBody, ih]
    push_cast
    ring

theorem juliaLoop_stopsAfter (maxIters : ℤ) (stepX stepY : K → K → K) (s : JuliaState K) :
    ∃ k : ℕ, k ≤ juliaVariant maxIters s ∧
      StopsAfter (juliaGuard maxIters) (juliaBody stepX stepY) s
        (juliaLoop maxIters stepX stepY s) k :=
  whileLoop_stopsAfter _ _ _ _ s

end Fractal

end FieldLemmas

section ColourLemmas

variable {K : Type} [LinearOrderedField K] [FloorRing K]

theorem setEntry_get (m : Fin 4 → JSArray RGB) (k : Fin 4) (i : ℤ) (v : RGB) (p : Fin 4)
    (j : ℤ) :
    (setEntry m k i v p).get j = if p = k ∧ j = i then some v else (m p).get j := by
  by_cases hp : p = k
  · subst hp
    by_cases hj : j = i <;> simp [setEntry, JSArray.set, hj]
  · simp [setEntry, Function.update_noteq hp, hp]

theorem setEntry_length (m : Fin 4 → JSArray RGB) (k : Fin 4) (i : ℤ) (v : RGB) (p : Fin 4) :
    (setEntry m k i v p).length =
      if p = k ∧ 0 ≤ i then max (m p).length (i.toNat + 1) else (m p).length := by
  by_cases hp : p = k
  · subst hp
    by_cases hi : 0 ≤ i <;> simp [setEntry, JSArray.set, hi]
  · simp [setEntry, Function.update_noteq hp, hp]

/-- One pass of the loop of `buildColourMaps` writes the entry `i` of every map. -/
theorem buildBody_get (ln : K → K) (lm : K) (s : BuildState K) (p : Fin 4) (j : ℤ) :
    ((buildBody ln lm s).colourMaps p).get j =
      if j = s.i then some (colourMapFns p s.i (ln (s.i : K) / lm) (ln (s.i : K) / lm * 3))
      else (s.colourMaps p).get j := by
  simp only [buildBody, setEntry_get]
  by_cases hj : j = s.i
  · fin_cases p <;> simp [hj]
  · simp [hj]

theorem buildBody_length (ln : K → K) (lm : K) (s : BuildState K) (p : Fin 4) :
    ((buildBody ln lm s).colourMaps p).length =
      if 0 ≤ s.i then max (s.colourMaps p).length (s.i.toNat + 1)
      else (s.colourMaps p).length := by
  simp only [buildBody, setEntry_length]
  by_cases hi : 0 ≤ s.i
  · fin_cases p <;> simp [hi]
  · simp [hi]

theorem buildLoop_unfold (ln : K → K) (iterLimit : ℤ) (lm : K) (s : BuildState K) :
    buildLoop ln iterLimit lm s =
      if s.i < iterLimit then buildLoop ln iterLimit lm (buildBody ln lm s) else s := by
  unfold buildLoop
  rw [whileLoop_unfold]
  rfl

/-- The loop of `buildColourMaps` writes the entries `i, …, iterLimit - 1` of every map and
leaves every other key as it was. -/
theorem buildLoop_get (ln : K → K) (iterLimit : ℤ) (lm : K) (p : Fin 4) (j : ℤ)
    (s : BuildState K) :
    ((buildLoop ln iterLimit lm s).colourMaps p).get j =
      if s.i ≤ j ∧ j < iterLimit then
        some (colourMapFns p j (ln (j : K) / lm) (ln (j : K) / lm * 3))
      else (s.colourMaps p).get j := by
  generalize hn : (iterLimit - s.i).toNat = n
  induction n generalizing s with
  | zero =>
    have hge : ¬ s.i < iterLimit := by omega
    rw [buildLoop_unfold, if_neg hge, if_neg]
    omega
  | succ n ih =>
    have hlt : s.i < iterLimit := by omega
    have hi : (buildBody ln lm s).i = s.i + 1 := rfl
    rw [buildLoop_unfold, if_pos hlt, ih (buildBody ln lm s) (by rw [hi]; omega), hi,
      buildBody_get]
    by_cases hj : j = s.i
    · subst hj
      have h1 : ¬ (s.i + 1 ≤ s.i ∧ s.i < iterLimit) := by omega
      rw [if_neg h1, if_pos rfl, if_pos ⟨le_refl _, hlt⟩]
    · rw [if_neg hj]
      by_cases hc : s.i ≤ j ∧ j < iterLimit
      · rw [if_pos hc, if_pos (by omega)]
      · rw [if_neg hc, if_neg (by omega)]

theorem buildLoop_length (ln : K → K) (iterLimit : ℤ) (lm : K) (p : Fin 4)
    (s : BuildState K) (hs : 0 ≤ s.i) :
    ((buildLoop ln iterLimit lm s).colourMaps p).length =
      if s.i < iterLimit then max (s.colourMaps p).length iterLimit.toNat
      else (s.colourMaps p).length := by
  generalize hn : (iterLimit - s.i).toNat = n
  induction n generalizing s with
  | zero =>
    have hge : ¬ s.i < iterLimit := by omega
    rw [buildLoop_unfold, if_neg hge, if_neg hge]
  | succ n ih =>
    have hlt : s.i < iterLimit := by omega
    have hi : (buildBody ln lm s).i = s.i + 1 := rfl
    rw [buildLoop_unfold, if_pos hlt, ih (buildBody ln lm s) (by rw [hi]; omega)
      (by rw [hi]; omega), hi, buildBody_length, if_pos hs, if_pos hlt]
    split_ifs with h
    · omega
    · have : s.i.toNat + 1 = iterLimit.toNat := by omega
      rw [this]

/-- Every key of every map built by `buildColourMaps`: the loop's entry at `1 … iterLimit - 1`,
the entry computed for index 0 at key 0, black at key `iterLimit`, nothing elsewhere. -/
theorem buildColourMaps_get (ln : K → K) (iterLimit : ℤ) (p : Fin 4) (j : ℤ) :
    (buildColourMaps ln iterLimit p).get j =
      if 1 ≤ j ∧ j < iterLimit then
        some (colourMapFns p j (ln (j : K) / ln ((iterLimit : K) - 1.0))
          (ln (j : K) / ln ((iterLimit : K) - 1.0) * 3))
      else if j = 0 then some (colourMapFns p 0 (0.0 : K) 0.0)
      else if j = iterLimit then some (0, 0, 0)
      else none := by
  simp only [buildColourMaps, buildLoop_get, setEntry_get]
  by_cases h1 : 1 ≤ j ∧ j < iterLimit
  · rw [if_pos h1, if_pos h1]
  · rw [if_neg h1, if_neg h1]
    by_cases h0 : j = 0
    · fin_cases p <;> simp [h0]
    · by_cases hL : j = iterLimit
      · fin_cases p <;> simp [h0, hL, JSArray.empty]
      · simp [h0, hL, JSArray.empty]

/-- The `length` of every map built by `buildColourMaps`. -/
theorem buildColourMaps_length (ln : K → K) (iterLimit : ℤ) (p : Fin 4) :
    (buildColourMaps ln iterLimit p).length =
      if 0 ≤ iterLimit then iterLimit.toNat + 1 else 1 := by
  simp only [buildColourMaps]
  rw [buildLoop_length _ _ _ _ _ (by norm_num)]
  simp only [setEntry_length]
  by_cases hL : 0 ≤ iterLimit
  · fin_cases p <;> simp [hL, JSArray.empty]
  · fin_cases p <;> simp [hL, JSArray.empty] <;> omega

theorem floor_byte {x : K} (h0 : 0 ≤ x) (h1 : x ≤ 255) : 0 ≤ ⌊x⌋ ∧ ⌊x⌋ ≤ 255 := by
  refine ⟨Int.floor_nonneg.mpr h0, ?_⟩
  have h : (⌊x⌋ : K) ≤ 255 := (Int.floor_le x).trans h1
  exact_mod_cast h

theorem parseInt_of_nonneg {x : K} (h0 : 0 ≤ x) : parseInt x = ⌊x⌋ := by
  simp only [parseInt, if_pos h0]

theorem parseInt_byte {x : K} (h0 : 0 ≤ x) (h1 : x ≤ 255) :
    0 ≤ parseInt x ∧ parseInt x ≤ 255 := by
  rw [parseInt_of_nonneg h0]
  exact floor_byte h0 h1

/-- A linear ramp `255 * (s - a) / (b - a)` stays in `[0, 255]` for `s` between `a` and `b`. -/
theorem ramp_byte {a b s : K} (hab : a < b) (h0 : a ≤ s) (h1 : s ≤ b) :
    0 ≤ ⌊255 * (s - a) / (b - a)⌋ ∧ ⌊255 * (s - a) / (b - a)⌋ ≤ 255 := by
  have hpos : 0 < b - a := sub_pos.mpr hab
  apply floor_byte
  · apply div_nonneg _ hpos.le
    nlinarith
  · rw [div_le_iff₀ hpos]
    nlinarith

theorem monochrome_byte (idx : ℤ) {logScale : K} (band3 : K) (h0 : 0 ≤ logScale)
    (h1 : logScale ≤ 1) : IsByteTriple (monochrome idx logScale band3) := by
  have h := parseInt_byte (x := 255 * logScale) (by linarith) (by linarith)
  exact ⟨h, h, h⟩

theorem fire_byte (idx : ℤ) (logScale : K) {band3 : K} (h0 : 0 ≤ band3) (h3 : band3 ≤ 3) :
    IsByteTriple (fire idx logScale band3) := by
  simp only [IsByteTriple, fire]
  refine ⟨?_, ?_, ?_⟩
  · split_ifs with h
    · exact parseInt_byte (by linarith) (by linarith)
    · norm_num
  · split_ifs with h h'
    · norm_num
    · exact parseInt_byte (by linarith) (by linarith)
    · norm_num
  · split_ifs with h
    · norm_num
    · exact parseInt_byte (by linarith) (by linarith)

theorem rainbow_byte (idx : ℤ) {logScale : K} (band3 : K) (h0 : 0 ≤ logScale)
    (h1 : logScale ≤ 1) : IsByteTriple (rainbow idx logScale band3) := by
  simp only [IsByteTriple, rainbow]
  refine ⟨?_, ?_, ?_⟩
  · simp only [rainbow_red]
    split_ifs with h h' h''
    · norm_num
    · exact ramp_byte (by norm_num [R2G_MAX, R2B_MIN]) h'.1 h'.2
    · exact ramp_byte (by norm_num [G2R_MIN, B2R_MAX]) h''.1 h''.2
    · norm_num
  · simp only [rainbow_green]
    split_ifs with h h' h''
    · norm_num
    · have hpos : (0 : K) < R2G_MAX := by norm_num [R2G_MAX]
      apply floor_byte
      · apply div_nonneg _ hpos.le
        linarith
      · rw [div_le_iff₀ hpos]
        linarith
    · exact ramp_byte (by norm_num [G2B_MAX, G2R_MIN]) h''.1 h''.2
    · norm_num
  · simp only [rainbow_blue]
    split_ifs with h h' h''
    · norm_num
    · exact ramp_byte (by norm_num [R2B_MIN, G2B_MAX]) h'.1 h'.2
    · exact ramp_byte (by norm_num [B2R_MAX]) h'' h1
    · norm_num

/-- The green channel of the web-safe entry for index 36 is `6 * 0x33 = 306`. -/
theorem webSafeCycle_36 (logScale band3 : K) : webSafeCycle 36 logScale band3 = (0, 306, 0) := by
  have h1 : Int.tmod 36 252 = 36 := by decide
  have h2 : Int.tmod 36 42 = 36 := by decide
  have h3 : Int.tmod 36 6 = 0 := by decide
  have f1 : ⌊(((36 : ℤ) : K)) / 42⌋ = 0 := by
    rw [Int.floor_eq_iff]
    norm_num
  have f2 : ⌊(((36 : ℤ) : K)) / 6⌋ = 6 := by
    rw [Int.floor_eq_iff]
    norm_num
  simp only [webSafeCycle, h1, h2, h3, f1, f2]
  norm_num

end ColourLemmas

/-! ## Claims about the escape-time engine -/

section EscapeTimeClaims

variable {K : Type} [LinearOrderedField K]

/-- C1: for every parameter `c = (cx, cy)`, start point `(x0, y0)` and cap `maxIters ≥ 0`,
`escapeTimeMJ` returns the number `n` with `n ≤ maxIters`, `x_k^2 + y_k^2 ≤ 4` for every
`k < n`, and `n = maxIters` or `x_n^2 + y_n^2 > 4`; there is exactly one such number. -/
theorem escapeTimeMJ_first_escape (maxIters : ℤ) (hmax : 0 ≤ maxIters) (cx cy x0 y0 : K) :
    ∃ n : ℕ, FractalNew.escapeTimeMJ maxIters cx cy (some x0) (some y0) = (n : ℤ) ∧
      ((n : ℤ) ≤ maxIters ∧ (∀ k < n, orbitNormSq cx cy x0 y0 k ≤ 4) ∧
        ((n : ℤ) = maxIters ∨ 4 < orbitNormSq cx cy x0 y0 n)) ∧
      ∀ m : ℕ, ((m : ℤ) ≤ maxIters ∧ (∀ k < m, orbitNormSq cx cy x0 y0 k ≤ 4) ∧
        ((m : ℤ) = maxIters ∨ 4 < orbitNormSq cx cy x0 y0 m)) → m = n := by
  obtain ⟨n, hn, hrun, hstop, hbefore⟩ := FractalNew.escapeLoop_stopsAfter maxIters cx cy
    { x := x0, y := y0, new_x := 0, new_y := 0, iterCount := 0 }
  have hstate := fun k => FractalNew.escapeBody_iterate cx cy
    { x := x0, y := y0, new_x := 0, new_y := 0, iterCount := 0 } k
  have hle : (n : ℤ) ≤ maxIters := by
    simp only [FractalNew.escapeVariant] at hn
    omega
  have hlow : ∀ k < n, orbitNormSq cx cy x0 y0 k ≤ 4 := by
    intro k hk
    have hg := (hbefore k hk).1
    obtain ⟨hx, hy, _⟩ := hstate k
    rw [hx, hy, sumOfSquares_orbit, BAILOUT_eq] at hg
    exact hg
  have hend : (n : ℤ) = maxIters ∨ 4 < orbitNormSq cx cy x0 y0 n := by
    rw [← hrun] at hstop
    obtain ⟨hx, hy, hi⟩ := hstate n
    simp only [FractalNew.escapeGuard, hx, hy, hi, sumOfSquares_orbit, BAILOUT_eq, not_and,
      not_lt, zero_add] at hstop
    by_cases h4 : orbitNormSq cx cy x0 y0 n ≤ 4
    · exact Or.inl (le_antisymm hle (hstop h4))
    · exact Or.inr (lt_of_not_le h4)
  refine ⟨n, ?_, ⟨hle, hlow, hend⟩, ?_⟩
  · simp only [FractalNew.escapeTimeMJ, orZero_some, ← hrun]
    simpa using (hstate n).2.2
  · rintro m ⟨hmle, hmlow, hmend⟩
    rcases Nat.lt_trichotomy m n with h | h | h
    · rcases hmend with he | he
      · omega
      · exact absurd (hlow m h) (not_le_of_lt he)
    · exact h
    · rcases hend with he | he
      · omega
      · exact absurd (hmlow n h) (not_le_of_lt he)

/-- The cap 10 is non-negative, and `escapeTimeMJ` with cap 10 for `c = (1, 0)` and the
start point `(0, 0)` is the first escape of that orbit. -/
theorem escapeTimeMJ_first_escape_witness :
    (0 : ℤ) ≤ 10 ∧
      ∃ n : ℕ, FractalNew.escapeTimeMJ 10 (1 : ℚ) 0 (some 0) (some 0) = (n : ℤ) ∧
        ((n : ℤ) ≤ 10 ∧ (∀ k < n, orbitNormSq (1 : ℚ) 0 0 0 k ≤ 4) ∧
          ((n : ℤ) = 10 ∨ 4 < orbitNormSq (1 : ℚ) 0 0 0 n)) ∧
        ∀ m : ℕ, ((m : ℤ) ≤ 10 ∧ (∀ k < m, orbitNormSq (1 : ℚ) 0 0 0 k ≤ 4) ∧
          ((m : ℤ) = 10 ∨ 4 < orbitNormSq (1 : ℚ) 0 0 0 m)) → m = n :=
  ⟨by decide, escapeTimeMJ_first_escape 10 (by decide) 1 0 0 0⟩

/-- C2: every point that satisfies the main-cardioid inequality
`q*(q + x - 0.25) ≤ y^2/4` with `q = (x - 0.25)^2 + y^2`, or the period-2-bulb inequality
`(x + 1)^2 + y^2 ≤ 0.0625`, makes `mandelIter` of `fractal_new.js` return exactly `maxIters`. -/
theorem mandelIter_in_cardioid_or_bulb (maxIters : ℤ) (x y : K)
    (h : ((x - 0.25) ^ 2 + y ^ 2) * (((x - 0.25) ^ 2 + y ^ 2) + x - 0.25) ≤ y ^ 2 / 4 ∨
      (x + 1) ^ 2 + y ^ 2 ≤ 0.0625) :
    FractalNew.mandelIter maxIters x y = maxIters := by
  have hb : FractalNew.mandelEarlyBailout x y := by
    simp only [FractalNew.mandelEarlyBailout, FractalNew.isInMainCardioid,
      FractalNew.isInPeriod2Bulb, sumOfSquares]
    rcases h with h | h
    · left
      have e4 : (4.0 : K) = 4 := by norm_num
      rw [e4]
      simpa only [sq] using h
    · right
      have e1 : (1.0 : K) = 1 := by norm_num
      rw [e1]
      simpa only [sq] using h
  simp only [FractalNew.mandelIter, if_pos hb]

/-- The point `(-1, 0)` satisfies the period-2-bulb inequality, and `mandelIter(-1, 0)` with
`maxIters = 50` returns 50. -/
theorem mandelIter_in_cardioid_or_bulb_witness :
    ((((-1 : ℚ) - 0.25) ^ 2 + (0 : ℚ) ^ 2) *
        ((((-1 : ℚ) - 0.25) ^ 2 + (0 : ℚ) ^ 2) + (-1) - 0.25) ≤ (0 : ℚ) ^ 2 / 4 ∨
      ((-1 : ℚ) + 1) ^ 2 + (0 : ℚ) ^ 2 ≤ 0.0625) ∧
    FractalNew.mandelIter 50 (-1 : ℚ) 0 = 50 :=
  ⟨Or.inr (by norm_num),
    mandelIter_in_cardioid_or_bulb 50 (-1 : ℚ) 0 (Or.inr (by norm_num))⟩

/-- C4: for every cap `maxIters ≥ 0`, every point and every Julia parameter, the loops of
`mandelIter` and `juliaIter` of `fractal.js` and of `escapeTimeMJ` of `fractal_new.js` (which
`mandelIter` of `fractal_new.js` calls) stop after at most `maxIters` passes, and each of the
four functions returns an integer in `[0, maxIters]`. -/
theorem iteration_functions_terminate (maxIters : ℤ) (hmax : 0 ≤ maxIters)
    (x y cx cy : K) (xArg yArg : Option K) :
    (∃ k : ℕ, (k : ℤ) ≤ maxIters ∧
      StopsAfter (Fractal.mandelGuard maxIters) (Fractal.mandelBody x y)
        { x_sqr := 0, y_sqr := 0, x := 0, y := 0, iters := 0 }
        (Fractal.mandelLoop maxIters x y { x_sqr := 0, y_sqr := 0, x := 0, y := 0, iters := 0 })
        k) ∧
    (0 ≤ Fractal.mandelIter maxIters x y ∧ Fractal.mandelIter maxIters x y ≤ maxIters) ∧
    (∃ k : ℕ, (k : ℤ) ≤ maxIters ∧
      StopsAfter (Fractal.juliaGuard maxIters)
        (Fractal.juliaBody (Fractal.makeJuliaXStepFn cx) (Fractal.makeJuliaYStepFn cy))
        { x_coord := x, y_coord := y, iterCount := 0, new_x := 0, new_y := 0 }
        (Fractal.juliaLoop maxIters (Fractal.makeJuliaXStepFn cx) (Fractal.makeJuliaYStepFn cy)
          { x_coord := x, y_coord := y, iterCount := 0, new_x := 0, new_y := 0 })
        k) ∧
    (0 ≤ Fractal.juliaIter maxIters x y (Fractal.makeJuliaXStepFn cx)
        (Fractal.makeJuliaYStepFn cy) ∧
      Fractal.juliaIter maxIters x y (Fractal.makeJuliaXStepFn cx)
        (Fractal.makeJuliaYStepFn cy) ≤ maxIters) ∧
    (∃ k : ℕ, (k : ℤ) ≤ maxIters ∧
      StopsAfter (FractalNew.escapeGuard maxIters) (FractalNew.escapeBody cx cy)
        { x := orZero xArg, y := orZero yArg, new_x := 0, new_y := 0, iterCount := 0 }
        (FractalNew.escapeLoop maxIters cx cy
          { x := orZero xArg, y := orZero yArg, new_x := 0, new_y := 0, iterCount := 0 })
        k) ∧
    (0 ≤ FractalNew.escapeTimeMJ maxIters cx cy xArg yArg ∧
      FractalNew.escapeTimeMJ maxIters cx cy xArg yArg ≤ maxIters) ∧
    (0 ≤ FractalNew.mandelIter maxIters x y ∧ FractalNew.mandelIter maxIters x y ≤ maxIters) := by
  have hesc : ∀ (c1 c2 : K) (a b : Option K),
      ∃ k : ℕ, (k : ℤ) ≤ maxIters ∧
        StopsAfter (FractalNew.escapeGuard maxIters) (FractalNew.escapeBody c1 c2)
          { x := orZero a, y := orZero b, new_x := 0, new_y := 0, iterCount := 0 }
          (FractalNew.escapeLoop maxIters c1 c2
            { x := orZero a, y := orZero b, new_x := 0, new_y := 0, iterCount := 0 }) k ∧
        FractalNew.escapeTimeMJ maxIters c1 c2 a b = k := by
    intro c1 c2 a b
    obtain ⟨k, hk, hstop⟩ := FractalNew.escapeLoop_stopsAfter maxIters c1 c2
      { x := orZero a, y := orZero b, new_x := 0, new_y := 0, iterCount := 0 }
    refine ⟨k, ?_, hstop, ?_⟩
    · simp only [FractalNew.escapeVariant] at hk
      omega
    · simp only [FractalNew.escapeTimeMJ, ← hstop.1]
      rw [(FractalNew.escapeBody_iterate c1 c2 _ k).2.2]
      exact zero_add _
  have hman : ∃ k : ℕ, (k : ℤ) ≤ maxIters ∧
      StopsAfter (Fractal.mandelGuard maxIters) (Fractal.mandelBody x y)
        { x_sqr := 0, y_sqr := 0, x := 0, y := 0, iters := 0 }
        (Fractal.mandelLoop maxIters x y { x_sqr := 0, y_sqr := 0, x := 0, y := 0, iters := 0 })
        k ∧
      (Fractal.mandelLoop maxIters x y
        { x_sqr := 0, y_sqr := 0, x := 0, y := 0, iters := 0 }).iters = k := by
    obtain ⟨k, hk, hstop⟩ := Fractal.mandelLoop_stopsAfter maxIters x y
      { x_sqr := 0, y_sqr := 0, x := 0, y := 0, iters := 0 }
    refine ⟨k, ?_, hstop, ?_⟩
    · simp only [Fractal.mandelVariant] at hk
      omega
    · rw [← hstop.1, Fractal.mandelBody_iterate_iters x y _ k]
      exact zero_add _
  have hjul : ∃ k : ℕ, (k : ℤ) ≤ maxIters ∧
      StopsAfter (Fractal.juliaGuard maxIters)
        (Fractal.juliaBody (Fractal.makeJuliaXStepFn cx) (Fractal.makeJuliaYStepFn cy))
        { x_coord := x, y_coord := y, iterCount := 0, new_x := 0, new_y := 0 }
        (Fractal.juliaLoop maxIters (Fractal.makeJuliaXStepFn cx) (Fractal.makeJuliaYStepFn cy)
          { x_coord := x, y_coord := y, iterCount := 0, new_x := 0, new_y := 0 }) k ∧
      Fractal.juliaIter maxIters x y (Fractal.makeJuliaXStepFn cx)
        (Fractal.makeJuliaYStepFn cy) = k := by
    obtain ⟨k, hk, hstop⟩ := Fractal.juliaLoop_stopsAfter maxIters (Fractal.makeJuliaXStepFn cx)
      (Fractal.makeJuliaYStepFn cy)
      { x_coord := x, y_coord := y, iterCount := 0, new_x := 0, new_y := 0 }
    refine ⟨k, ?_, hstop, ?_⟩
    · simp only [Fractal.juliaVariant] at hk
      omega
    · simp only [Fractal.juliaIter, ← hstop.1]
      rw [Fractal.juliaBody_iterate_iterCount _ _ _ k]
      exact zero_add _
  obtain ⟨k1, hk1, hs1, hr1⟩ := hman
  obtain ⟨k2, hk2, hs2, hr2⟩ := hjul
  obtain ⟨k3, hk3, hs3, hr3⟩ := hesc cx cy xArg yArg
  obtain ⟨k4, hk4, _, hr4⟩ := hesc x y none none
  refine ⟨⟨k1, hk1, hs1⟩, ?_, ⟨k2, hk2, hs2⟩, ?_, ⟨k3, hk3, hs3⟩, ?_, ?_⟩
  · simp only [Fractal.mandelIter]
    split_ifs
    · exact ⟨hmax, le_refl _⟩
    · rw [hr1]
      exact ⟨Int.natCast_nonneg k1, hk1⟩
  · rw [hr2]
    exact ⟨Int.natCast_nonneg k2, hk2⟩
  · rw [hr3]
    exact ⟨Int.natCast_nonneg k3, hk3⟩
  · simp only [FractalNew.mandelIter]
    split_ifs
    · exact ⟨hmax, le_refl _⟩
    · rw [hr4]
      exact ⟨Int.natCast_nonneg k4, hk4⟩

/-- The cap 50 is non-negative, and at the point `(1/2, 1/2)` with Julia parameter `(0, 1)` all
four iteration functions stop within 50 passes with a result in `[0, 50]`. -/
theorem iteration_functions_terminate_witness :
    (0 : ℤ) ≤ 50 ∧
    (0 ≤ Fractal.mandelIter 50 (1 / 2 : ℚ) (1 / 2) ∧
      Fractal.mandelIter 50 (1 / 2 : ℚ) (1 / 2) ≤ 50) ∧
    (0 ≤ Fractal.juliaIter 50 (1 / 2 : ℚ) (1 / 2) (Fractal.makeJuliaXStepFn 0)
        (Fractal.makeJuliaYStepFn 1) ∧
      Fractal.juliaIter 50 (1 / 2 : ℚ) (1 / 2) (Fractal.makeJuliaXStepFn 0)
        (Fractal.makeJuliaYStepFn 1) ≤ 50) ∧
    (0 ≤ FractalNew.escapeTimeMJ 50 (0 : ℚ) 1 (some (1 / 2)) (some (1 / 2)) ∧
      FractalNew.escapeTimeMJ 50 (0 : ℚ) 1 (some (1 / 2)) (some (1 / 2)) ≤ 50) ∧
    (0 ≤ FractalNew.mandelIter 50 (1 / 2 : ℚ) (1 / 2) ∧
      FractalNew.mandelIter 50 (1 / 2 : ℚ) (1 / 2) ≤ 50) :=
  have h := iteration_functions_terminate 50 (by decide) (1 / 2 : ℚ) (1 / 2) 0 1
    (some (1 / 2)) (some (1 / 2))
  ⟨by decide, h.2.1, h.2.2.2.1, h.2.2.2.2.2.1, h.2.2.2.2.2.2⟩

/-- C5 (the code at the failing input): with `c = (0, 0)`, the cap 1000 and the pixel
coordinate `(2, 1)`, whose squared magnitude 5 exceeds 4, `juliaIter` of `fractal.js` returns 1,
whereas the least `n` with `x_n^2 + y_n^2 > 4` is 0, which is what `escapeTimeMJ` returns. -/
theorem juliaIter_skips_start_point :
    Fractal.juliaIter 1000 (2 : ℚ) 1 (Fractal.makeJuliaXStepFn 0) (Fractal.makeJuliaYStepFn 0)
        = 1 ∧
      4 < orbitNormSq (0 : ℚ) 0 2 1 0 ∧
      FractalNew.escapeTimeMJ 1000 (0 : ℚ) 0 (some 2) (some 1) = 0 := by
  refine ⟨?_, ?_, ?_⟩
  · unfold Fractal.juliaIter Fractal.juliaLoop
    rw [whileLoop_of_guard _ _ _ _ _
        (by norm_num [Fractal.juliaGuard, sumOfSquares, BAILOUT]),
      whileLoop_of_not_guard _ _ _ _ _
        (by norm_num [Fractal.juliaGuard, Fractal.juliaBody, Fractal.makeJuliaXStepFn,
          Fractal.makeJuliaYStepFn, sumOfSquares, diffOfSquares, BAILOUT])]
    rfl
  · norm_num [orbitNormSq, orbit]
  · unfold FractalNew.escapeTimeMJ FractalNew.escapeLoop
    rw [whileLoop_of_not_guard _ _ _ _ _
        (by norm_num [FractalNew.escapeGuard, orZero, sumOfSquares, BAILOUT])]

end EscapeTimeClaims

/-! ## Claims about the colour maps -/

section ColourClaims

variable {K : Type} [LinearOrderedField K] [FloorRing K]

/-- For `3 ≤ maxIter` and `1 ≤ i ≤ maxIter - 1` the value `logScale` computed by
`buildColourMaps` from the real logarithm lies in `[0, 1]`. -/
theorem logScale_mem (maxIter i : ℤ) (h3 : 3 ≤ maxIter) (h1 : 1 ≤ i) (h2 : i ≤ maxIter - 1) :
    0 < Real.log ((maxIter : ℝ) - 1.0) ∧
      0 ≤ Real.log (i : ℝ) / Real.log ((maxIter : ℝ) - 1.0) ∧
      Real.log (i : ℝ) / Real.log ((maxIter : ℝ) - 1.0) ≤ 1 := by
  have e1 : ((maxIter : ℝ) - 1.0) = ((maxIter - 1 : ℤ) : ℝ) := by
    push_cast
    norm_num
  have hi : (1 : ℝ) ≤ (i : ℝ) := by exact_mod_cast h1
  have hM : (2 : ℝ) ≤ ((maxIter - 1 : ℤ) : ℝ) := by
    have : (2 : ℤ) ≤ maxIter - 1 := by omega
    exact_mod_cast this
  have hiM : (i : ℝ) ≤ ((maxIter - 1 : ℤ) : ℝ) := by exact_mod_cast h2
  rw [e1]
  have hpos : 0 < Real.log ((maxIter - 1 : ℤ) : ℝ) := Real.log_pos (by linarith)
  refine ⟨hpos, div_nonneg (Real.log_nonneg hi) hpos.le, ?_⟩
  rw [div_le_one hpos]
  exact Real.log_le_log (by linarith) hiM

/-- C6: for every `maxIter > 0` and each of the four palettes, the colour map returned by
`buildColourMaps(maxIter)` has the black triple `(0, 0, 0)` at index `maxIter`. -/
theorem buildColourMaps_black_at_maxIter (ln : K → K) (maxIter : ℤ) (h : 0 < maxIter)
    (p : Fin 4) : (buildColourMaps ln maxIter p).get maxIter = some (0, 0, 0) := by
  rw [buildColourMaps_get, if_neg (by omega), if_neg (by omega), if_pos rfl]

/-- The cap 1000 is positive and the rainbow map built for it is black at index 1000. -/
theorem buildColourMaps_black_at_maxIter_witness :
    (0 : ℤ) < 1000 ∧ (buildColourMaps Real.log 1000 3).get 1000 = some (0, 0, 0) :=
  ⟨by decide, buildColourMaps_black_at_maxIter Real.log 1000 (by decide) 3⟩

/-- C8: for every `maxIter ≥ 3` and every index `0..maxIter`, each channel of the grayscale
(map 0), fire (map 1) and rainbow (map 3) entries built by `buildColourMaps(maxIter)` with the
real logarithm is an integer in `[0, 255]`. -/
theorem buildColourMaps_channels_byte (maxIter : ℤ) (h3 : 3 ≤ maxIter) (j : ℤ) (h0 : 0 ≤ j)
    (hj : j ≤ maxIter) (p : Fin 4) (hp : p ≠ 2) :
    ∃ c : RGB, (buildColourMaps Real.log maxIter p).get j = some c ∧ IsByteTriple c := by
  have hz : ((0.0 : ℝ)) = 0 := by norm_num
  have hpal : ∀ (idx : ℤ) (ls : ℝ), 0 ≤ ls → ls ≤ 1 →
      IsByteTriple (colourMapFns p idx ls (ls * 3)) := by
    intro idx ls hl0 hl1
    fin_cases p
    · exact monochrome_byte idx (ls * 3) hl0 hl1
    · exact fire_byte idx ls (by linarith) (by linarith)
    · exact absurd rfl hp
    · exact rainbow_byte idx (ls * 3) hl0 hl1
  rw [buildColourMaps_get]
  split_ifs with h1 h2 h4
  · obtain ⟨_, hl0, hl1⟩ := logScale_mem maxIter j h3 h1.1 (by omega)
    exact ⟨_, rfl, hpal j _ hl0 hl1⟩
  · refine ⟨_, rfl, ?_⟩
    have := hpal 0 0 (le_refl 0) zero_le_one
    rw [zero_mul] at this
    rw [hz]
    exact this
  · refine ⟨_, rfl, ?_⟩
    simp [IsByteTriple]
  · omega

/-- With the cap 100, index 50 of the fire map is a triple of channels in `[0, 255]`. -/
theorem buildColourMaps_channels_byte_witness :
    (3 : ℤ) ≤ 100 ∧ (0 : ℤ) ≤ 50 ∧ (50 : ℤ) ≤ 100 ∧ (1 : Fin 4) ≠ 2 ∧
      ∃ c : RGB, (buildColourMaps Real.log 100 1).get 50 = some c ∧ IsByteTriple c :=
  ⟨by decide, by decide, by decide, by decide,
    buildColourMaps_channels_byte 100 (by decide) 50 (by decide) (by decide) 1 (by decide)⟩

/-- C9 (the code at the failing input): for the index 36 the green channel returned by
`webSafeCycle` is `6 * 0x33 = 306`, which is no base-6 digit times `0x33` and exceeds 255;
it is the entry 36 of the web-safe map (map 2) built for the default cap 1000. -/
theorem webSafeCycle_green_out_of_range :
    webSafeCycle 36 (0 : ℚ) 0 = (0, 306, 0) ∧
      (buildColourMaps Real.log 1000 2).get 36 = some (0, 306, 0) ∧
      ¬ IsByteTriple (webSafeCycle 36 (0 : ℚ) 0) := by
  refine ⟨webSafeCycle_36 0 0, ?_, ?_⟩
  · rw [buildColourMaps_get, if_pos (by decide)]
    simp only [colourMapFns]
    rw [webSafeCycle_36]
  · rw [webSafeCycle_36]
    simp [IsByteTriple]

end ColourClaims

/-! ## Claims about the palette cycle, the coordinate transform and invalid parameters -/

section PaletteCycleClaims

variable {K : Type} [LinearOrderedField K] [FloorRing K]

/-- The web-safe triple of a non-negative index does not change when 252 is added to it. -/
theorem webSafeCycle_add_252 (i : ℤ) (hi : 0 ≤ i) (logScale band3 logScale' band3' : K) :
    webSafeCycle i logScale band3 = webSafeCycle (i + 252) logScale' band3' := by
  have e1 : (i + 252).tmod 252 = i.tmod 252 := by
    rw [Int.tmod_eq_emod (by omega) (by decide), Int.tmod_eq_emod hi (by decide)]
    omega
  have e2 : (i + 252).tmod 42 = i.tmod 42 := by
    rw [Int.tmod_eq_emod (by omega) (by decide), Int.tmod_eq_emod hi (by decide)]
    omega
  have e3 : (i + 252).tmod 6 = i.tmod 6 := by
    rw [Int.tmod_eq_emod (by omega) (by decide), Int.tmod_eq_emod hi (by decide)]
    omega
  simp only [webSafeCycle, e1, e2, e3]

/-- C11: the web-safe palette has period 252 on non-negative indices and does not depend on
the cap: `webSafeCycle(i) = webSafeCycle(i + 252)` for `i ≥ 0`; the web-safe maps (map 2) built
for two caps `M1`, `M2` agree at every index below both, where they hold a triple; and a map
built for a cap above 252 holds the same triple at the indices 0 and 252. -/
theorem webSafe_palette_cycle (ln : K → K) (i : ℤ) (hi : 0 ≤ i)
    (logScale band3 logScale' band3' : K) (M1 M2 j : ℤ) (hj0 : 0 ≤ j) (hj : j < min M1 M2)
    (M : ℤ) (hM : 252 < M) :
    webSafeCycle i logScale band3 = webSafeCycle (i + 252) logScale' band3' ∧
      (∃ c : RGB, (buildColourMaps ln M1 2).get j = some c ∧
        (buildColourMaps ln M2 2).get j = some c) ∧
      ∃ c : RGB, (buildColourMaps ln M 2).get 0 = some c ∧
        (buildColourMaps ln M 2).get 252 = some c := by
  have h1 : j < M1 := lt_of_lt_of_le hj (min_le_left _ _)
  have h2 : j < M2 := lt_of_lt_of_le hj (min_le_right _ _)
  refine ⟨webSafeCycle_add_252 i hi _ _ _ _, ?_, ?_⟩
  · rw [buildColourMaps_get, buildColourMaps_get]
    by_cases hj1 : 1 ≤ j
    · rw [if_pos ⟨hj1, h1⟩, if_pos ⟨hj1, h2⟩]
      exact ⟨webSafeCycle j 0 0, rfl, rfl⟩
    · have hz : j = 0 := by omega
      have n1 : ¬ (1 ≤ j ∧ j < M1) := by omega
      have n2 : ¬ (1 ≤ j ∧ j < M2) := by omega
      rw [if_neg n1, if_neg n2, if_pos hz, if_pos hz]
      exact ⟨_, rfl, rfl⟩
  · rw [buildColourMaps_get, buildColourMaps_get, if_neg (by omega), if_pos rfl,
      if_pos ⟨by decide, hM⟩]
    refine ⟨_, rfl, ?_⟩
    simp only [colourMapFns]
    rw [webSafeCycle_add_252 0 (le_refl 0) (0.0 : K) 0.0]
    rfl

/-- For the index 7, the caps 10 and 1000 and the cap 300: the web-safe triples of 7 and 259
agree, the two maps agree at index 7, and the map for 300 agrees at the indices 0 and 252. -/
theorem webSafe_palette_cycle_witness :
    (0 : ℤ) ≤ 7 ∧ (7 : ℤ) < min 10 1000 ∧ (252 : ℤ) < 300 ∧
      webSafeCycle 7 (0 : ℝ) 0 = webSafeCycle (7 + 252) (1 : ℝ) 3 ∧
      (∃ c : RGB, (buildColourMaps Real.log 10 2).get 7 = some c ∧
        (buildColourMaps Real.log 1000 2).get 7 = some c) ∧
      ∃ c : RGB, (buildColourMaps Real.log 300 2).get 0 = some c ∧
        (buildColourMaps Real.log 300 2).get 252 = some c :=
  ⟨by decide, by decide, by decide,
    webSafe_palette_cycle Real.log 7 (by decide) 0 0 1 3 10 1000 7 (by decide) (by decide) 300
      (by decide)⟩

end PaletteCycleClaims

section CoordinateClaims

variable {K : Type} [LinearOrderedField K]

/-- C14: for `min < max` and an integer `dim ≥ 2`, `f = pixelToCoord(min, max, dim)` is the
affine function `f(p) = min + (max - min) * p / (dim - 1)`, of slope `(max - min) / (dim - 1)`,
with `f(0) = min` and `f(dim - 1) = max`, and it is strictly increasing. -/
theorem pixelToCoord_affine (min max : K) (hlt : min < max) (dim : ℤ) (hdim : 2 ≤ dim) :
    (∀ p : K, pixelToCoord min max (dim : K) p = min + (max - min) * p / ((dim : K) - 1)) ∧
      (∀ p : K, pixelToCoord min max (dim : K) p =
        min + (max - min) / ((dim : K) - 1) * p) ∧
      pixelToCoord min max (dim : K) 0 = min ∧
      pixelToCoord min max (dim : K) ((dim : K) - 1) = max ∧
      ∀ p q : K, p < q → pixelToCoord min max (dim : K) p < pixelToCoord min max (dim : K) q := by
  have hd : (0 : K) < (dim : K) - 1 := by
    have : (2 : K) ≤ (dim : K) := by exact_mod_cast hdim
    linarith
  have hm : 0 < max - min := sub_pos.mpr hlt
  refine ⟨fun p => rfl, fun p => ?_, ?_, ?_, ?_⟩
  · simp only [pixelToCoord]
    ring
  · simp [pixelToCoord]
  · simp only [pixelToCoord]
    rw [mul_div_assoc, div_self hd.ne']
    ring
  · intro p q hpq
    simp only [pixelToCoord]
    have : (max - min) * p / ((dim : K) - 1) < (max - min) * q / ((dim : K) - 1) :=
      div_lt_div_of_pos_right (mul_lt_mul_of_pos_left hpq hm) hd
    linarith

/-- For the window `[-2, 1]` and 800 pixels the transform is affine with the two endpoints. -/
theorem pixelToCoord_affine_witness :
    (-2 : ℚ) < 1 ∧ (2 : ℤ) ≤ 800 ∧
      pixelToCoord (-2 : ℚ) 1 ((800 : ℤ) : ℚ) 0 = -2 ∧
      pixelToCoord (-2 : ℚ) 1 ((800 : ℤ) : ℚ) (((800 : ℤ) : ℚ) - 1) = 1 :=
  have h := pixelToCoord_affine (-2 : ℚ) 1 (by norm_num) 800 (by decide)
  ⟨by norm_num, by decide, h.2.2.1, h.2.2.2.1⟩

/-- C15 (counterexample): for `dim = 1`, the window `[-2, 1]` and the pixel 0, the call of the
transform does not fail with `InvalidParameter`: it returns `NaN`. -/
theorem pixelToCoordCall_dim_one_returns_nan :
    pixelToCoordCall (-2 : ℚ) 1 1 0 = Except.ok JSNumber.nan ∧
      pixelToCoordCall (-2 : ℚ) 1 1 0 ≠ Except.error JSError.invalidParameter := by
  have h : pixelToCoordCall (-2 : ℚ) 1 1 0 = Except.ok JSNumber.nan := by
    simp [pixelToCoordCall, jsDivide, jsAddFinite]
  refine ⟨h, ?_⟩
  rw [h]
  exact fun hne => Except.noConfusion hne

/-- C15 (amended): for every canvas dimension `dim < 2` the call of the transform does not
fail: it returns a number, which for `dim = 1` (a zero divisor) is `NaN` when
`(max - min) * p` is zero and the infinity of its sign otherwise, and for every other
`dim < 2` is the finite value `min + (max - min) * p / (dim - 1)`. -/
theorem pixelToCoordCall_never_fails (min max p : K) (dim : ℤ) (hdim : dim < 2) :
    pixelToCoordCall min max (dim : K) p =
      Except.ok
        (if dim = 1 then
          (if (max - min) * p = 0 then JSNumber.nan
            else if 0 < (max - min) * p then JSNumber.posInfinity else JSNumber.negInfinity)
        else JSNumber.finite (pixelToCoord min max (dim : K) p)) := by
  by_cases h1 : dim = 1
  · subst h1
    simp only [pixelToCoordCall, jsDivide, Int.cast_one, sub_self, if_true]
    split_ifs <;> rfl
  · have hd : (dim : K) - 1 ≠ 0 := by
      intro h
      apply h1
      have : (dim : K) = 1 := by linarith
      exact_mod_cast this
    simp only [pixelToCoordCall, jsDivide, if_neg hd, if_neg h1, jsAddFinite, pixelToCoord]

/-- For `dim = 1`, the window `[-2, 1]` and the pixel 3 the call returns `+Infinity`. -/
theorem pixelToCoordCall_never_fails_witness :
    (1 : ℤ) < 2 ∧ pixelToCoordCall (-2 : ℚ) 1 ((1 : ℤ) : ℚ) 3 = Except.ok JSNumber.posInfinity :=
  ⟨by decide, by
    rw [pixelToCoordCall_never_fails (-2 : ℚ) 1 3 1 (by decide)]
    norm_num⟩

end CoordinateClaims

section InvalidCapClaims

variable {K : Type} [LinearOrderedField K] [FloorRing K]

/-- The rainbow colour computed for index 0 outside the loop of `buildColourMaps`. -/
theorem rainbow_index_zero : colourMapFns 3 0 (0.0 : K) 0.0 = (255, 0, 0) := by
  have hr : rainbow_red (0.0 : K) = 255 := by
    simp only [rainbow_red, R2G_MAX, B2R_MAX]
    rw [if_pos (Or.inl (by norm_num))]
  have hg : rainbow_green (0.0 : K) = 0 := by
    simp only [rainbow_green, R2G_MAX, G2B_MAX]
    rw [if_neg (by norm_num), if_pos (by norm_num)]
    norm_num
  have hb : rainbow_blue (0.0 : K) = 0 := by
    simp only [rainbow_blue, R2B_MIN, G2B_MAX, B2R_MAX]
    rw [if_neg (by norm_num), if_neg (by norm_num), if_neg (by norm_num)]
  simp only [colourMapFns, rainbow, hr, hg, hb]

/-- C16 (counterexample): `buildColourMaps(0)` does not fail with `InvalidParameter`: it
returns the four maps, and the rainbow map (map 3) has length 1 and holds `(255, 0, 0)` at
index 0. -/
theorem buildColourMaps_zero_returns_maps :
    ∃ maps : Fin 4 → JSArray RGB,
      buildColourMapsCall Real.log 0 = Except.ok maps ∧
        buildColourMapsCall Real.log 0 ≠ Except.error JSError.invalidParameter ∧
        (maps 3).length = 1 ∧ (maps 3).get 0 = some (255, 0, 0) := by
  refine ⟨buildColourMaps Real.log 0, rfl, fun hne => Except.noConfusion hne, ?_, ?_⟩
  · rw [buildColourMaps_length]
    rfl
  · rw [buildColourMaps_get, if_neg (by decide), if_pos rfl, rainbow_index_zero]

/-- C16 (amended): for every cap `iterLimit ≤ 0`, `buildColourMaps(iterLimit)` does not fail:
it returns four maps, each of length 1, holding at index 0 the palette's colour for index 0 and
at no other index anything; for `iterLimit < 0` black is stored under the key `iterLimit`,
which is no index. -/
theorem buildColourMaps_nonpositive_cap (ln : K → K) (iterLimit : ℤ) (h : iterLimit ≤ 0) :
    ∃ maps : Fin 4 → JSArray RGB,
      buildColourMapsCall ln iterLimit = Except.ok maps ∧
        ∀ p : Fin 4, (maps p).length = 1 ∧
          (maps p).get 0 = some (colourMapFns p 0 (0.0 : K) 0.0) ∧
          (∀ j : ℤ, j ≠ 0 → j ≠ iterLimit → (maps p).get j = none) ∧
          (iterLimit < 0 → (maps p).get iterLimit = some (0, 0, 0)) := by
  refine ⟨buildColourMaps ln iterLimit, rfl, fun p => ⟨?_, ?_, ?_, ?_⟩⟩
  · rw [buildColourMaps_length]
    split_ifs with h0
    · have : iterLimit = 0 := le_antisymm h h0
      subst this
      rfl
    · rfl
  · rw [buildColourMaps_get, if_neg (by omega), if_pos rfl]
  · intro j hj0 hjL
    rw [buildColourMaps_get, if_neg (by omega), if_neg hj0, if_neg hjL]
  · intro hneg
    rw [buildColourMaps_get, if_neg (by omega), if_neg (by omega), if_pos rfl]

/-- For the cap `-1` the call returns four maps of length 1 with black under the key `-1`. -/
theorem buildColourMaps_nonpositive_cap_witness :
    (-1 : ℤ) ≤ 0 ∧
      ∃ maps : Fin 4 → JSArray RGB,
        buildColourMapsCall Real.log (-1) = Except.ok maps ∧
          ∀ p : Fin 4, (maps p).length = 1 ∧
            (maps p).get 0 = some (colourMapFns p 0 (0.0 : ℝ) 0.0) ∧
            (∀ j : ℤ, j ≠ 0 → j ≠ -1 → (maps p).get j = none) ∧
            ((-1 : ℤ) < 0 → (maps p).get (-1) = some (0, 0, 0)) :=
  ⟨by decide, buildColourMaps_nonpositive_cap Real.log (-1) (by decide)⟩

/-- C20 (counterexample): for `maxIter = 3` the first pass of the loop of `buildColourMaps`
(index `i = 1`) computes `logScale = ln(1) / ln(2) = 0`, which is not in `(0, 1]`. -/
theorem logScale_at_index_one_not_positive :
    ¬ (0 < (buildBody Real.log (Real.log (((3 : ℤ) : ℝ) - 1.0))
          { i := 1, logScale := 0.0, band3 := 0.0,
            colourMaps := fun _ => JSArray.empty }).logScale ∧
        (buildBody Real.log (Real.log (((3 : ℤ) : ℝ) - 1.0))
          { i := 1, logScale := 0.0, band3 := 0.0,
            colourMaps := fun _ => JSArray.empty }).logScale ≤ 1) := by
  simp [buildBody]

/-- C20 (amended): for every `maxIter ≥ 3` and every index `i` in `[1, maxIter - 1]`, the value
`logScale = ln(i) / ln(maxIter - 1)` computed by the pass of the loop of `buildColourMaps` for
the index `i` lies in the closed interval `[0, 1]`; it is 0 for `i = 1` and strictly positive
for `i ≥ 2`. -/
theorem logScale_in_unit_interval (maxIter i : ℤ) (h3 : 3 ≤ maxIter) (h1 : 1 ≤ i)
    (h2 : i ≤ maxIter - 1) (s : BuildState ℝ) (hs : s.i = i) :
    (buildBody Real.log (Real.log ((maxIter : ℝ) - 1.0)) s).logScale =
        Real.log (i : ℝ) / Real.log ((maxIter : ℝ) - 1) ∧
      0 ≤ (buildBody Real.log (Real.log ((maxIter : ℝ) - 1.0)) s).logScale ∧
      (buildBody Real.log (Real.log ((maxIter : ℝ) - 1.0)) s).logScale ≤ 1 ∧
      (i = 1 → (buildBody Real.log (Real.log ((maxIter : ℝ) - 1.0)) s).logScale = 0) ∧
      (2 ≤ i → 0 < (buildBody Real.log (Real.log ((maxIter : ℝ) - 1.0)) s).logScale) := by
  obtain ⟨hpos, hl0, hl1⟩ := logScale_mem maxIter i h3 h1 h2
  have hone : ((1.0 : ℝ)) = 1 := by norm_num
  have hval : (buildBody Real.log (Real.log ((maxIter : ℝ) - 1.0)) s).logScale =
      Real.log (i : ℝ) / Real.log ((maxIter : ℝ) - 1.0) := by
    simp only [buildBody, hs]
  rw [hval]
  refine ⟨by rw [hone], hl0, hl1, ?_, ?_⟩
  · intro hi
    subst hi
    simp
  · intro hi
    have : (1 : ℝ) < (i : ℝ) := by
      have : (1 : ℤ) < i := by omega
      exact_mod_cast this
    exact div_pos (Real.log_pos this) hpos

/-- For `maxIter = 100` the pass for the index 50 computes a `logScale` in `(0, 1]`. -/
theorem logScale_in_unit_interval_witness :
    (3 : ℤ) ≤ 100 ∧ (1 : ℤ) ≤ 50 ∧ (50 : ℤ) ≤ 100 - 1 ∧
      0 < (buildBody Real.log (Real.log (((100 : ℤ) : ℝ) - 1.0))
          { i := 50, logScale := 0.0, band3 := 0.0,
            colourMaps := fun _ => JSArray.empty }).logScale ∧
      (buildBody Real.log (Real.log (((100 : ℤ) : ℝ) - 1.0))
          { i := 50, logScale := 0.0, band3 := 0.0,
            colourMaps := fun _ => JSArray.empty }).logScale ≤ 1 :=
  have h := logScale_in_unit_interval 100 50 (by decide) (by decide) (by decide)
    { i := 50, logScale := 0.0, band3 := 0.0, colourMaps := fun _ => JSArray.empty } rfl
  ⟨by decide, by decide, by decide, h.2.2.2.2 (by decide), h.2.2.1⟩

end InvalidCapClaims

/-! ## Claims about the pixel encoder -/

section EncoderClaims

theorem toUint32_lt (n : ℤ) : toUint32 n < 4294967296 := by
  unfold toUint32
  omega

theorem toUint32_toInt32 (n : ℤ) : toUint32 (toInt32 n) = toUint32 n := by
  unfold toUint32 toInt32
  split_ifs <;> omega

theorem toUint32_natCast {m : ℕ} (h : m < 4294967296) : toUint32 (m : ℤ) = m := by
  unfold toUint32
  omega

theorem toUint32_bitOr32 (a b : ℤ) : toUint32 (bitOr32 a b) = toUint32 a ||| toUint32 b := by
  unfold bitOr32
  rw [toUint32_toInt32]
  exact toUint32_natCast
    (Nat.or_lt_two_pow (n := 32) (toUint32_lt a) (toUint32_lt b))

theorem toUint32_shiftLeft32_24 (a : ℤ) :
    toUint32 (shiftLeft32 a 24) = toUint32 a * 16777216 % 4294967296 := by
  have e : toUint32 24 % 32 = 24 := by decide
  unfold shiftLeft32
  rw [toUint32_toInt32, e]
  unfold toUint32 toInt32
  split_ifs <;> omega

theorem toUint32_shiftLeft32_16 (a : ℤ) :
    toUint32 (shiftLeft32 a 16) = toUint32 a * 65536 % 4294967296 := by
  have e : toUint32 16 % 32 = 16 := by decide
  unfold shiftLeft32
  rw [toUint32_toInt32, e]
  unfold toUint32 toInt32
  split_ifs <;> omega

theorem toUint32_shiftLeft32_8 (a : ℤ) :
    toUint32 (shiftLeft32 a 8) = toUint32 a * 256 % 4294967296 := by
  have e : toUint32 8 % 32 = 8 := by decide
  unfold shiftLeft32
  rw [toUint32_toInt32, e]
  unfold toUint32 toInt32
  split_ifs <;> omega

/-- The 32-bit word of the little-endian encoder, as a bitwise or of four parts. -/
theorem toUint32_littleEndianByteOrderFn (r g b : ℤ) :
    toUint32 (littleEndianByteOrderFn r g b) =
      ((4278190080 ||| toUint32 b * 65536 % 4294967296) |||
        toUint32 g * 256 % 4294967296) ||| toUint32 r := by
  have e : toUint32 0xff * 16777216 % 4294967296 = 4278190080 := by decide
  simp only [littleEndianByteOrderFn, toUint32_bitOr32, toUint32_shiftLeft32_24,
    toUint32_shiftLeft32_16, toUint32_shiftLeft32_8, e]

/-- The 32-bit word of the big-endian encoder, as a bitwise or of four parts. -/
theorem toUint32_bigEndianByteOrderFn (r g b : ℤ) :
    toUint32 (bigEndianByteOrderFn r g b) =
      ((toUint32 r * 16777216 % 4294967296 ||| toUint32 g * 65536 % 4294967296) |||
        toUint32 b * 256 % 4294967296) ||| 255 := by
  have e : toUint32 0xff = 255 := by decide
  simp only [bigEndianByteOrderFn, toUint32_bitOr32, toUint32_shiftLeft32_24,
    toUint32_shiftLeft32_16, toUint32_shiftLeft32_8, e]

/-- Four bytes packed by bitwise or are the sum of the shifted bytes. -/
theorem pack_bytes (a b c d : ℕ) (hb : b < 256) (hc : c < 256) (hd : d < 256) :
    ((a * 16777216 ||| b * 65536) ||| c * 256) ||| d =
      a * 16777216 + b * 65536 + c * 256 + d := by
  have h1 : a * 16777216 ||| b * 65536 = a * 16777216 + b * 65536 := by
    have h := Nat.mul_add_lt_is_or (i := 24) (b := b * 65536) (by norm_num; omega) a
    have e : 2 ^ 24 * a = a * 16777216 := by ring
    rw [e] at h
    exact h.symm
  have h2 : (a * 16777216 + b * 65536) ||| c * 256 = a * 16777216 + b * 65536 + c * 256 := by
    have h := Nat.mul_add_lt_is_or (i := 16) (b := c * 256) (by norm_num; omega) (a * 256 + b)
    have e : 2 ^ 16 * (a * 256 + b) = a * 16777216 + b * 65536 := by ring
    rw [e] at h
    exact h.symm
  have h3 : (a * 16777216 + b * 65536 + c * 256) ||| d =
      a * 16777216 + b * 65536 + c * 256 + d := by
    have h := Nat.mul_add_lt_is_or (i := 8) (b := d) (by norm_num; omega)
      (a * 65536 + b * 256 + c)
    have e : 2 ^ 8 * (a * 65536 + b * 256 + c) = a * 16777216 + b * 65536 + c * 256 := by ring
    rw [e] at h
    exact h.symm
  rw [h1, h2, h3]

theorem toUint32_of_byte {r : ℤ} (h0 : 0 ≤ r) (h1 : r ≤ 255) :
    toUint32 r = r.toNat ∧ r.toNat < 256 := by
  unfold toUint32
  omega

theorem littleEndianByteOrderFn_ne_bigEndianByteOrderFn :
    littleEndianByteOrderFn ≠ bigEndianByteOrderFn := by
  intro h
  have h0 : toUint32 (littleEndianByteOrderFn 0 0 0) = toUint32 (bigEndianByteOrderFn 0 0 0) := by
    rw [h]
  rw [toUint32_littleEndianByteOrderFn, toUint32_bigEndianByteOrderFn] at h0
  revert h0
  decide

/-- C12: for all `r, g, b` in `[0, 255]`, the word of the little-endian encoder (modulo
`2^32`) stored on the little-endian host, and the word of the big-endian encoder stored on the
big-endian host, leave the bytes `(r, g, b, 0xFF)` in memory order; `setRGB` is the
little-endian encoder on the little-endian host and the big-endian encoder on the big-endian
host, and on any host it is the little-endian encoder exactly when the host stores
`0x0a0b0c0d` as the bytes `0d, 0c, 0b, 0a`. -/
theorem setRGB_round_trip (r g b : ℤ) (hr : 0 ≤ r ∧ r ≤ 255) (hg : 0 ≤ g ∧ g ≤ 255)
    (hb : 0 ≤ b ∧ b ≤ 255) :
    littleEndianHost (toUint32 (littleEndianByteOrderFn r g b)) =
        (r.toNat, g.toNat, b.toNat, 0xFF) ∧
      bigEndianHost (toUint32 (bigEndianByteOrderFn r g b)) =
        (r.toNat, g.toNat, b.toNat, 0xFF) ∧
      setRGB littleEndianHost = littleEndianByteOrderFn ∧
      setRGB bigEndianHost = bigEndianByteOrderFn ∧
      ∀ host : Host, setRGB host = littleEndianByteOrderFn ↔
        host 0x0a0b0c0d = (0x0d, 0x0c, 0x0b, 0x0a) := by
  obtain ⟨er, hr'⟩ := toUint32_of_byte hr.1 hr.2
  obtain ⟨eg, hg'⟩ := toUint32_of_byte hg.1 hg.2
  obtain ⟨eb, hb'⟩ := toUint32_of_byte hb.1 hb.2
  have m16 : ∀ x : ℕ, x < 256 → x * 65536 % 4294967296 = x * 65536 := fun x hx => by omega
  have m8 : ∀ x : ℕ, x < 256 → x * 256 % 4294967296 = x * 256 := fun x hx => by omega
  have m24 : ∀ x : ℕ, x < 256 → x * 16777216 % 4294967296 = x * 16777216 :=
    fun x hx => by omega
  have probe : toUint32 0x0a0b0c0d = 0x0a0b0c0d := by decide
  refine ⟨?_, ?_, ?_, ?_, ?_⟩
  · have hw : toUint32 (littleEndianByteOrderFn r g b) =
        255 * 16777216 + b.toNat * 65536 + g.toNat * 256 + r.toNat := by
      rw [toUint32_littleEndianByteOrderFn, er, eg, eb, m16 _ hb', m8 _ hg',
        ← pack_bytes 255 b.toNat g.toNat r.toNat hb' hg' hr']
    rw [hw]
    simp only [littleEndianHost]
    refine Prod.ext ?_ (Prod.ext ?_ (Prod.ext ?_ ?_)) <;> simp only <;> omega
  · have hw : toUint32 (bigEndianByteOrderFn r g b) =
        r.toNat * 16777216 + g.toNat * 65536 + b.toNat * 256 + 255 := by
      rw [toUint32_bigEndianByteOrderFn, er, eg, eb, m24 _ hr', m16 _ hg', m8 _ hb',
        pack_bytes r.toNat g.toNat b.toNat 255 hg' hb' (by decide)]
    rw [hw]
    simp only [bigEndianHost]
    refine Prod.ext ?_ (Prod.ext ?_ (Prod.ext ?_ ?_)) <;> simp only <;> omega
  · have h : isLittleEndian littleEndianHost = true := by decide
    unfold setRGB
    rw [if_pos h]
  · have h : ¬ isLittleEndian bigEndianHost = true := by decide
    unfold setRGB
    rw [if_neg h]
  · intro host
    have hiff : isLittleEndian host = true ↔ host 0x0a0b0c0d = (0x0d, 0x0c, 0x0b, 0x0a) := by
      simp only [isLittleEndian, probe, Bool.and_eq_true, beq_iff_eq]
      constructor
      · rintro ⟨⟨⟨h0, h1⟩, h2⟩, h3⟩
        exact Prod.ext h0 (Prod.ext h1 (Prod.ext h2 h3))
      · intro h
        rw [h]
        exact ⟨⟨⟨rfl, rfl⟩, rfl⟩, rfl⟩
    rw [← hiff]
    constructor
    · intro hset
      by_contra hne
      unfold setRGB at hset
      rw [if_neg hne] at hset
      exact littleEndianByteOrderFn_ne_bigEndianByteOrderFn hset.symm
    · intro h
      unfold setRGB
      rw [if_pos h]

/-- The triple `(18, 52, 86)` is in range and round-trips on both hosts. -/
theorem setRGB_round_trip_witness :
    ((0 : ℤ) ≤ 18 ∧ (18 : ℤ) ≤ 255) ∧ ((0 : ℤ) ≤ 52 ∧ (52 : ℤ) ≤ 255) ∧
      ((0 : ℤ) ≤ 86 ∧ (86 : ℤ) ≤ 255) ∧
      littleEndianHost (toUint32 (littleEndianByteOrderFn 18 52 86)) =
        ((18 : ℤ).toNat, (52 : ℤ).toNat, (86 : ℤ).toNat, 0xFF) ∧
      bigEndianHost (toUint32 (bigEndianByteOrderFn 18 52 86)) =
        ((18 : ℤ).toNat, (52 : ℤ).toNat, (86 : ℤ).toNat, 0xFF) :=
  have h := setRGB_round_trip 18 52 86 (by decide) (by decide) (by decide)
  ⟨by decide, by decide, by decide, h.1, h.2.1⟩

/-- C13: for all integer arguments `r, g, b`, also outside `[0, 255]`, the bits 24..31 of the
word of the little-endian encoder are all ones, and the bits 0..7 of the word of the
big-endian encoder are all ones. -/
theorem encoders_force_alpha (r g b : ℤ) :
    (∀ k : ℕ, 24 ≤ k → k < 32 →
        (toUint32 (littleEndianByteOrderFn r g b)).testBit k = true) ∧
      ∀ k : ℕ, k < 8 → (toUint32 (bigEndianByteOrderFn r g b)).testBit k = true := by
  constructor
  · intro k h24 h32
    have hbit : (4278190080 : ℕ).testBit k = true := by
      interval_cases k <;> decide
    rw [toUint32_littleEndianByteOrderFn]
    simp only [Nat.testBit_or, hbit, Bool.true_or, Bool.or_true]
  · intro k h8
    have hbit : (255 : ℕ).testBit k = true := by
      interval_cases k <;> decide
    rw [toUint32_bigEndianByteOrderFn]
    simp only [Nat.testBit_or, hbit, Bool.true_or, Bool.or_true]

end EncoderClaims

/-! ## Claims about the view state -/

section ViewClaims

variable {K : Type} [LinearOrderedField K]

theorem DEFAULT_PPU_eq : (DEFAULT_PPU : K) = 200 := rfl

theorem zoomOut_mandelPixelsPerUnit (page : Page K) :
    (zoomOut page).mandelPixelsPerUnit =
      if page.mandelPixelsPerUnit / 2 < 200 then 200 else page.mandelPixelsPerUnit / 2 := by
  simp only [zoomOut, DEFAULT_PPU_eq]
  split_ifs <;> rfl

theorem zoomOut_mandelOrigin (page : Page K) :
    (zoomOut page).mandelOrigin =
      if page.mandelPixelsPerUnit / 2 < 200 then (-0.5, 0.0) else page.mandelOrigin := by
  simp only [zoomOut, DEFAULT_PPU_eq, DEFAULT_MANDEL_ORIGIN]
  split_ifs <;> rfl

/-- No view operation takes the pixels-per-unit of the Mandelbrot image below 200. -/
theorem applyViewOp_baseline (page : Page K) (op : ViewOp K)
    (h : 200 ≤ page.mandelPixelsPerUnit) : 200 ≤ (applyViewOp page op).mandelPixelsPerUnit := by
  cases op with
  | zoomIn mousePos =>
    show 200 ≤ page.mandelPixelsPerUnit * 2
    linarith
  | zoomOut =>
    show 200 ≤ (zoomOut page).mandelPixelsPerUnit
    rw [zoomOut_mandelPixelsPerUnit]
    split_ifs with hlt
    · exact le_refl _
    · exact not_lt.mp hlt
  | reset => exact le_of_eq DEFAULT_PPU_eq.symm

theorem applyViewOps_baseline (ops : List (ViewOp K)) (page : Page K)
    (h : 200 ≤ page.mandelPixelsPerUnit) : 200 ≤ (applyViewOps page ops).mandelPixelsPerUnit := by
  induction ops generalizing page with
  | nil => exact h
  | cons op ops ih => exact ih (applyViewOp page op) (applyViewOp_baseline page op h)

/-- C18: `zoomOut` sets the pixels-per-unit `p` to `p/2` and leaves the origin unchanged
whenever `p/2 ≥ 200`, and otherwise sets `p = 200` and the origin to `(-0.5, 0.0)`; starting
from `p = 200`, the pixels-per-unit is at least 200 after every sequence of zoom-in, zoom-out
and reset operations. -/
theorem zoomOut_halves_or_resets (page : Page K) :
    (200 ≤ page.mandelPixelsPerUnit / 2 →
        (zoomOut page).mandelPixelsPerUnit = page.mandelPixelsPerUnit / 2 ∧
          (zoomOut page).mandelOrigin = page.mandelOrigin) ∧
      (page.mandelPixelsPerUnit / 2 < 200 →
        (zoomOut page).mandelPixelsPerUnit = 200 ∧
          (zoomOut page).mandelOrigin = (-0.5, 0.0)) ∧
      ∀ ops : List (ViewOp K), page.mandelPixelsPerUnit = 200 →
        200 ≤ (applyViewOps page ops).mandelPixelsPerUnit := by
  refine ⟨fun h => ?_, fun h => ?_, fun ops h => applyViewOps_baseline ops page (le_of_eq h.symm)⟩
  · rw [zoomOut_mandelPixelsPerUnit, zoomOut_mandelOrigin, if_neg (not_lt.mpr h),
      if_neg (not_lt.mpr h)]
    exact ⟨rfl, rfl⟩
  · rw [zoomOut_mandelPixelsPerUnit, zoomOut_mandelOrigin, if_pos h, if_pos h]
    exact ⟨rfl, rfl⟩

/-- C19 (the code at the failing input): on the page that `startJS` sets up with the cap 1000,
after the user has changed the input `maxIters` to 500, `resetUI` restores the origin
`(-0.5, 0.0)` and both pixels-per-unit values 200 and writes 1000 into the input, but the cap
`window.maxIters` read by the next render is still 500 and each cached colour map still has
501 entries. -/
theorem resetUI_leaves_cap_and_colourMaps :
    (resetUI (maxItersOnChange Real.log 500
        (startJS Real.log 800 600 1000 "WASM" 1))).mandelOrigin = (-0.5, 0.0) ∧
      (resetUI (maxItersOnChange Real.log 500
        (startJS Real.log 800 600 1000 "WASM" 1))).mandelPixelsPerUnit = 200 ∧
      (resetUI (maxItersOnChange Real.log 500
        (startJS Real.log 800 600 1000 "WASM" 1))).juliaPixelsPerUnit = 200 ∧
      (resetUI (maxItersOnChange Real.log 500
        (startJS Real.log 800 600 1000 "WASM" 1))).maxItersValue = 1000 ∧
      (resetUI (maxItersOnChange Real.log 500
        (startJS Real.log 800 600 1000 "WASM" 1))).maxIters = 500 ∧
      ∀ p : Fin 4,
        ((resetUI (maxItersOnChange Real.log 500
          (startJS Real.log 800 600 1000 "WASM" 1))).colourMaps p).length = 501 := by
  have hne : (500 : ℤ) ≠ 1000 := by decide
  have hpage : maxItersOnChange Real.log 500 (startJS Real.log 800 600 1000 "WASM" 1) =
      { startJS Real.log 800 600 1000 "WASM" 1 with
        maxItersValue := 500
        colourMaps := buildColourMaps Real.log 500
        maxIters := 500 } := by
    simp only [maxItersOnChange, rebuildColourMaps, startJS]
    rw [if_pos hne]
  rw [hpage]
  refine ⟨rfl, rfl, rfl, rfl, rfl, fun p => ?_⟩
  show (buildColourMaps Real.log 500 p).length = 501
  rw [buildColourMaps_length]
  rfl

end ViewClaims

/-! ## Claims about the render loops -/

section RenderLemmas

/-- The linear index of a pixel of the canvas lies inside the buffer. -/
theorem pixel_index_mem {width height x y : ℤ} (hx0 : 0 ≤ x) (hx : x < width) (hy0 : 0 ≤ y)
    (hy : y < height) : 0 ≤ y * width + x ∧ y * width + x < width * height := by
  have hw : 0 < width := lt_of_le_of_lt hx0 hx
  have h1 : 0 ≤ y * width := mul_nonneg hy0 hw.le
  have h2 : (y + 1) * width ≤ height * width :=
    mul_le_mul_of_nonneg_right (by omega) hw.le
  constructor
  · omega
  · nlinarith

/-- Every index inside the buffer is the linear index of exactly one pixel of the canvas. -/
theorem pixel_of_index {width height k : ℤ} (hw : 0 < width) (hk0 : 0 ≤ k)
    (hk : k < width * height) :
    (0 ≤ k % width ∧ k % width < width) ∧ (0 ≤ k / width ∧ k / width < height) ∧
      k = k / width * width + k % width := by
  have hmod0 : 0 ≤ k % width := Int.emod_nonneg k hw.ne'
  have hmod : k % width < width := Int.emod_lt_of_pos k hw
  have hdiv0 : 0 ≤ k / width := Int.ediv_nonneg hk0 hw.le
  have hdecomp : k = k / width * width + k % width := by
    have := Int.ediv_add_emod k width
    linarith [mul_comm width (k / width)]
  refine ⟨⟨hmod0, hmod⟩, ⟨hdiv0, ?_⟩, hdecomp⟩
  by_contra hge
  have hge' : height ≤ k / width := not_lt.mp hge
  have : height * width ≤ k / width * width := mul_le_mul_of_nonneg_right hge' hw.le
  nlinarith

/-- Two pixels of the canvas with the same linear index are the same pixel. -/
theorem pixel_index_injective {width x y x' y' : ℤ} (hx0 : 0 ≤ x) (hx : x < width)
    (hx0' : 0 ≤ x') (hx' : x' < width) (h : y * width + x = y' * width + x') :
    x = x' ∧ y = y' := by
  have hw : 0 < width := lt_of_le_of_lt hx0 hx
  have hy : y = y' := by
    by_contra hne
    rcases lt_or_gt_of_ne hne with hlt | hgt
    · have : (y + 1) * width ≤ y' * width := mul_le_mul_of_nonneg_right (by omega) hw.le
      nlinarith
    · have : (y' + 1) * width ≤ y * width := mul_le_mul_of_nonneg_right (by omega) hw.le
      nlinarith
  subst hy
  exact ⟨by linarith, rfl⟩

/-- Storing the word of the next index extends a filled buffer by one index. -/
theorem BufferFilled.set {W : ℤ → ℕ} {L : ℕ} {n : ℤ} {buf : Uint32Array}
    (h : BufferFilled W L n buf) (hn0 : 0 ≤ n) (hn : n < (L : ℤ)) (v : ℤ)
    (hv : W n = toUint32 v) : BufferFilled W L (n + 1) (buf.set n v) := by
  obtain ⟨hlen, hk⟩ := h
  have hin : 0 ≤ n ∧ n < (buf.length : ℤ) := ⟨hn0, by rw [hlen]; exact hn⟩
  simp only [Uint32Array.set, if_pos hin]
  refine ⟨hlen, fun k => ?_⟩
  obtain ⟨hg, hs⟩ := hk k
  by_cases hkn : k = n
  · subst hkn
    have hlt : ¬ (0 ≤ k ∧ k < k) := by omega
    rw [if_neg hlt] at hs
    simp only [if_true, hs, if_pos (show 0 ≤ k ∧ k < k + 1 by omega), hv]
    exact ⟨trivial, trivial⟩
  · simp only [if_neg hkn, hg, hs]
    by_cases hc : 0 ≤ k ∧ k < n
    · rw [if_pos hc, if_pos (by omega), if_pos hc, if_pos (by omega)]
      exact ⟨rfl, rfl⟩
    · rw [if_neg hc, if_neg (by omega), if_neg hc, if_neg (by omega)]
      exact ⟨rfl, rfl⟩

theorem columnLoop_unfold (setRGB : ℤ → ℤ → ℤ → ℤ) (width iy : ℤ)
    (thisColour : ℤ → ℤ → Option RGB) (s : ColumnState) :
    columnLoop setRGB width iy thisColour s =
      if s.thrown = none ∧ s.ix < width then
        columnLoop setRGB width iy thisColour (columnBody setRGB width iy thisColour s)
      else s := by
  unfold columnLoop
  rw [whileLoop_unfold]
  rfl

theorem rowLoop_unfold (setRGB : ℤ → ℤ → ℤ → ℤ) (width height : ℤ)
    (thisColour : ℤ → ℤ → Option RGB) (s : RowState) :
    rowLoop setRGB width height thisColour s =
      if s.thrown = none ∧ s.iy < height then
        rowLoop setRGB width height thisColour (rowBody setRGB width thisColour s)
      else s := by
  unfold rowLoop
  rw [whileLoop_unfold]
  rfl

/-- The inner loop fills the rest of row `iy`, when every pixel of the row has a colour. -/
theorem columnLoop_fills (setRGB : ℤ → ℤ → ℤ → ℤ) (width height iy : ℤ)
    (thisColour : ℤ → ℤ → Option RGB) (W : ℤ → ℕ)
    (hW : ∀ x : ℤ, 0 ≤ x → x < width →
      ∃ c : RGB, thisColour x iy = some c ∧ W (iy * width + x) = toUint32 (setRGB c.1 c.2.1 c.2.2))
    (hiy0 : 0 ≤ iy) (hiy : iy < height) (s : ColumnState) (hs : s.thrown = none)
    (hix0 : 0 ≤ s.ix) (hix : s.ix ≤ width)
    (hinv : BufferFilled W (width * height).toNat (iy * width + s.ix) s.buf32) :
    (columnLoop setRGB width iy thisColour s).thrown = none ∧
      BufferFilled W (width * height).toNat (iy * width + width)
        (columnLoop setRGB width iy thisColour s).buf32 := by
  generalize hn : (width - s.ix).toNat = n
  induction n generalizing s with
  | zero =>
    have he : s.ix = width := by omega
    rw [columnLoop_unfold, if_neg (by omega)]
    rw [he] at hinv
    exact ⟨hs, hinv⟩
  | succ n ih =>
    have hlt : s.ix < width := by omega
    obtain ⟨c, hc, hWc⟩ := hW s.ix hix0 hlt
    obtain ⟨hk0, hk⟩ := pixel_index_mem hix0 hlt hiy0 hiy
    have hbody : columnBody setRGB width iy thisColour s =
        { ix := s.ix + 1
          buf32 := s.buf32.set (iy * width + s.ix) (setRGB c.1 c.2.1 c.2.2)
          thrown := s.thrown } := by
      simp only [columnBody, hc]
    rw [columnLoop_unfold, if_pos ⟨hs, hlt⟩, hbody]
    apply ih
    · exact hs
    · show 0 ≤ s.ix + 1
      omega
    · show s.ix + 1 ≤ width
      omega
    · show BufferFilled W (width * height).toNat (iy * width + (s.ix + 1)) _
      have := hinv.set hk0 (by omega) (setRGB c.1 c.2.1 c.2.2) hWc
      rw [add_assoc] at this
      exact this
    · show (width - (s.ix + 1)).toNat = n
      omega

/-- The outer loop fills the rows from `iy` on, when every pixel has a colour. -/
theorem rowLoop_fills (setRGB : ℤ → ℤ → ℤ → ℤ) (width height : ℤ) (hw : 0 ≤ width)
    (thisColour : ℤ → ℤ → Option RGB) (W : ℤ → ℕ)
    (hW : ∀ x y : ℤ, 0 ≤ x → x < width → 0 ≤ y → y < height →
      ∃ c : RGB, thisColour x y = some c ∧ W (y * width + x) = toUint32 (setRGB c.1 c.2.1 c.2.2))
    (s : RowState) (hs : s.thrown = none) (hiy0 : 0 ≤ s.iy) (hiy : s.iy ≤ height)
    (hinv : BufferFilled W (width * height).toNat (s.iy * width) s.buf32) :
    (rowLoop setRGB width height thisColour s).thrown = none ∧
      BufferFilled W (width * height).toNat (height * width)
        (rowLoop setRGB width height thisColour s).buf32 := by
  generalize hn : (height - s.iy).toNat = n
  induction n generalizing s with
  | zero =>
    have he : s.iy = height := by omega
    rw [rowLoop_unfold, if_neg (by omega)]
    rw [he] at hinv
    exact ⟨hs, hinv⟩
  | succ n ih =>
    have hlt : s.iy < height := by omega
    obtain ⟨hthrown, hfilled⟩ := columnLoop_fills setRGB width height s.iy thisColour W
      (fun x hx0 hx => hW x s.iy hx0 hx hiy0 hlt) hiy0 hlt
      { ix := 0, buf32 := s.buf32, thrown := s.thrown } hs (le_refl 0) hw
      (by simpa using hinv)
    rw [rowLoop_unfold, if_pos ⟨hs, hlt⟩]
    apply ih
    · exact hthrown
    · show 0 ≤ s.iy + 1
      omega
    · show s.iy + 1 ≤ height
      omega
    · show BufferFilled W (width * height).toNat ((s.iy + 1) * width) _
      have e : (s.iy + 1) * width = s.iy * width + width := by ring
      rw [e]
      exact hfilled
    · show (height - (s.iy + 1)).toNat = n
      omega

/-- The pixel loops, when the colour map holds a triple for every pixel of the canvas: nothing
is thrown, the buffer has `width * height` words, the word of the pixel `(x, y)` is at
`y * width + x`, and every index of the buffer is assigned exactly once. -/
theorem renderLoops_fills (setRGB : ℤ → ℤ → ℤ → ℤ) (width height : ℤ) (hw : 0 < width)
    (hh : 0 ≤ height) (thisColour : ℤ → ℤ → Option RGB)
    (hcol : ∀ x y : ℤ, 0 ≤ x → x < width → 0 ≤ y → y < height →
      ∃ c : RGB, thisColour x y = some c) :
    ∃ buf : Uint32Array, renderLoops setRGB width height thisColour = Except.ok buf ∧
      FilledRowMajor setRGB width height thisColour buf := by
  obtain ⟨W, hW⟩ : ∃ W : ℤ → ℕ, ∀ x y : ℤ, 0 ≤ x → x < width → 0 ≤ y → y < height →
      ∃ c : RGB, thisColour x y = some c ∧
        W (y * width + x) = toUint32 (setRGB c.1 c.2.1 c.2.2) := by
    refine ⟨fun k : ℤ => match thisColour (k % width) (k / width) with
      | some c => toUint32 (setRGB c.1 c.2.1 c.2.2)
      | none => 0, ?_⟩
    intro x y hx0 hx hy0 hy
    obtain ⟨c, hc⟩ := hcol x y hx0 hx hy0 hy
    refine ⟨c, hc, ?_⟩
    have hmod : (y * width + x) % width = x := by
      rw [add_comm, Int.add_mul_emod_self, Int.emod_eq_of_lt hx0 hx]
    have hdiv : (y * width + x) / width = y := by
      rw [add_comm, Int.add_mul_ediv_right _ _ hw.ne', Int.ediv_eq_zero_of_lt hx0 hx, zero_add]
    simp only [hmod, hdiv, hc]
  have hL : (((width * height).toNat : ℕ) : ℤ) = width * height :=
    Int.toNat_of_nonneg (mul_nonneg hw.le hh)
  obtain ⟨ht, hlen, hfill⟩ := rowLoop_fills setRGB width height hw.le thisColour W hW
    { iy := 0, buf32 := Uint32Array.new (width * height).toNat, thrown := none } rfl
    (le_refl 0) hh
    ⟨rfl, fun k => by
      have hk : ¬ (0 ≤ k ∧ k < 0 * width) := by omega
      simp only [Uint32Array.new, if_neg hk]
      exact ⟨trivial, trivial⟩⟩
  have hcomm : height * width = width * height := mul_comm _ _
  rw [hcomm] at hfill
  refine ⟨(rowLoop setRGB width height thisColour
    { iy := 0, buf32 := Uint32Array.new (width * height).toNat, thrown := none }).buf32,
    ?_, ?_, ?_, ?_, ?_⟩
  · simp only [renderLoops, ht]
  · rw [hlen]
    exact hL
  · intro x y hx0 hx hy0 hy
    obtain ⟨c, hc, hWc⟩ := hW x y hx0 hx hy0 hy
    refine ⟨c, hc, ?_⟩
    rw [(hfill (y * width + x)).1, if_pos (pixel_index_mem hx0 hx hy0 hy)]
    exact hWc
  · intro k hk0 hk
    rw [(hfill k).2, if_pos ⟨hk0, hk⟩]
  · intro k hk
    rw [(hfill k).2, if_neg hk]

end RenderLemmas

section RenderClaims

variable {K : Type} [LinearOrderedField K]

theorem FractalNew.escapeTimeMJ_mem (maxIters : ℤ) (hmax : 0 ≤ maxIters) (cx cy : K)
    (xArg yArg : Option K) :
    0 ≤ FractalNew.escapeTimeMJ maxIters cx cy xArg yArg ∧
      FractalNew.escapeTimeMJ maxIters cx cy xArg yArg ≤ maxIters := by
  obtain ⟨k, hk, hstop⟩ := FractalNew.escapeLoop_stopsAfter maxIters cx cy
    { x := orZero xArg, y := orZero yArg, new_x := 0, new_y := 0, iterCount := 0 }
  have hval : FractalNew.escapeTimeMJ maxIters cx cy xArg yArg = k := by
    simp only [FractalNew.escapeTimeMJ, ← hstop.1]
    rw [(FractalNew.escapeBody_iterate cx cy _ k).2.2]
    exact zero_add _
  simp only [FractalNew.escapeVariant] at hk
  rw [hval]
  omega

theorem FractalNew.mandelIterNew_mem (maxIters : ℤ) (hmax : 0 ≤ maxIters) (x y : K) :
    0 ≤ FractalNew.mandelIter maxIters x y ∧ FractalNew.mandelIter maxIters x y ≤ maxIters := by
  simp only [FractalNew.mandelIter]
  split_ifs
  · exact ⟨hmax, le_refl _⟩
  · exact FractalNew.escapeTimeMJ_mem maxIters hmax x y none none

theorem Fractal.mandelIter_mem (maxIters : ℤ) (hmax : 0 ≤ maxIters) (x y : K) :
    0 ≤ Fractal.mandelIter maxIters x y ∧ Fractal.mandelIter maxIters x y ≤ maxIters := by
  simp only [Fractal.mandelIter]
  split_ifs
  · exact ⟨hmax, le_refl _⟩
  · obtain ⟨k, hk, hstop⟩ := Fractal.mandelLoop_stopsAfter maxIters x y
      { x_sqr := 0, y_sqr := 0, x := 0, y := 0, iters := 0 }
    rw [← hstop.1, Fractal.mandelBody_iterate_iters x y _ k]
    simp only [Fractal.mandelVariant] at hk
    show 0 ≤ (0 : ℤ) + k ∧ (0 : ℤ) + k ≤ maxIters
    omega

/-- The maps built for a cap `maxIter ≥ 0` hold a triple at every index `0..maxIter`. -/
theorem buildColourMaps_defined [FloorRing K] (ln : K → K) (maxIter : ℤ) (p : Fin 4) (j : ℤ)
    (h0 : 0 ≤ j) (hj : j ≤ maxIter) : ∃ c : RGB, (buildColourMaps ln maxIter p).get j = some c := by
  rw [buildColourMaps_get]
  split_ifs with h1 h2 h3
  · exact ⟨_, rfl⟩
  · exact ⟨_, rfl⟩
  · exact ⟨_, rfl⟩
  · omega

/-- C17: for a canvas of `width ≥ 2` by `height ≥ 2` pixels, any view window, cap and colour
map that holds a triple at the iteration count of every pixel, the render loops of
`mandelCalcJS` (`fractal.js`) and of `fractalCalcJS` (`fractal_new.js`, for either fractal
kind) throw nothing and fill a buffer of exactly `width * height` words in row-major order:
the word at `y * width + x` is `setRGB` (as a 32-bit word) of the colour-map triple at the
iteration count of the plane point
`(xMin + (xMax - xMin)*x/(width - 1), yMin + (yMax - yMin)*y/(height - 1))`, and every index
of the buffer is assigned exactly once. -/
theorem render_fills_row_major (host : Host) (maxIters width height : ℤ) (hw : 2 ≤ width)
    (hh : 2 ≤ height) (thisColourMap : JSArray RGB) (imageSpace : Fractal.ImageSpace K)
    (fType : String) (imgSpace : ImgSpace K)
    (hmap : ∀ x y : ℤ, 0 ≤ x → x < width → 0 ≤ y → y < height →
      ∃ c : RGB, thisColourMap.get
        (Fractal.mandelIter maxIters (planeCoord imageSpace.xMin imageSpace.xMax width x)
          (planeCoord imageSpace.yMin imageSpace.yMax height y)) = some c)
    (hmapNew : ∀ x y : ℤ, 0 ≤ x → x < width → 0 ≤ y → y < height →
      ∃ c : RGB, imgSpace.colourMap.get
        (if fType = FractalNew.MANDELBROT then
          FractalNew.mandelIter maxIters (planeCoord imgSpace.xMin imgSpace.xMax width x)
            (planeCoord imgSpace.yMin imgSpace.yMax height y)
        else
          FractalNew.escapeTimeMJ maxIters imgSpace.mandelX imgSpace.mandelY
            (some (planeCoord imgSpace.xMin imgSpace.xMax width x))
            (some (planeCoord imgSpace.yMin imgSpace.yMax height y))) = some c) :
    (∃ buf : Uint32Array,
      Fractal.mandelCalcJS host maxIters thisColourMap width height imageSpace = Except.ok buf ∧
        FilledRowMajor (setRGB host) width height
          (fun x y => thisColourMap.get
            (Fractal.mandelIter maxIters (planeCoord imageSpace.xMin imageSpace.xMax width x)
              (planeCoord imageSpace.yMin imageSpace.yMax height y))) buf) ∧
      ∃ buf : Uint32Array,
        FractalNew.fractalCalcJS host maxIters fType width height imgSpace = Except.ok buf ∧
          FilledRowMajor (setRGB host) width height
            (fun x y => imgSpace.colourMap.get
              (if fType = FractalNew.MANDELBROT then
                FractalNew.mandelIter maxIters (planeCoord imgSpace.xMin imgSpace.xMax width x)
                  (planeCoord imgSpace.yMin imgSpace.yMax height y)
              else
                FractalNew.escapeTimeMJ maxIters imgSpace.mandelX imgSpace.mandelY
                  (some (planeCoord imgSpace.xMin imgSpace.xMax width x))
                  (some (planeCoord imgSpace.yMin imgSpace.yMax height y)))) buf :=
  ⟨renderLoops_fills (setRGB host) width height (by omega) (by omega) _ hmap,
    renderLoops_fills (setRGB host) width height (by omega) (by omega) _ hmapNew⟩

/-- For a canvas of 3 by 2 pixels, the cap 50 and the fire map built for it, every pixel's
iteration count is an index of the map, and the Julia render for `c = (0, 1)` on the
little-endian host returns a buffer of `3 * 2` words filled in row-major order. -/
theorem render_fills_row_major_witness :
    (2 : ℤ) ≤ 3 ∧ (2 : ℤ) ≤ 2 ∧
      ∃ buf : Uint32Array,
        FractalNew.fractalCalcJS littleEndianHost 50 FractalNew.JULIA 3 2
            { colourMap := buildColourMaps Real.log 50 1, mandelX := (0 : ℝ), mandelY := 1,
              xMin := -2, xMax := 2, yMin := -1, yMax := 1 } = Except.ok buf ∧
          (buf.length : ℤ) = 3 * 2 ∧
          (∀ k : ℤ, 0 ≤ k → k < 3 * 2 → buf.stores k = 1) :=
  have h := render_fills_row_major littleEndianHost 50 3 2 (by decide) (by decide)
    (buildColourMaps Real.log 50 1)
    { mandelXCoord := (0 : ℝ), mandelYCoord := 0, xMin := -2, xMax := 1, yMin := -1, yMax := 1 }
    FractalNew.JULIA
    { colourMap := buildColourMaps Real.log 50 1, mandelX := (0 : ℝ), mandelY := 1,
      xMin := -2, xMax := 2, yMin := -1, yMax := 1 }
    (fun _ _ _ _ _ _ => buildColourMaps_defined Real.log 50 1 _
      (Fractal.mandelIter_mem 50 (by decide) _ _).1 (Fractal.mandelIter_mem 50 (by decide) _ _).2)
    (fun _ _ _ _ _ _ => by
      rw [if_neg (by decide)]
      exact buildColourMaps_defined Real.log 50 1 _
        (FractalNew.escapeTimeMJ_mem 50 (by decide) _ _ _ _).1
        (FractalNew.escapeTimeMJ_mem 50 (by decide) _ _ _ _).2)
  ⟨by decide, by decide,
    let ⟨buf, hbuf, hfilled⟩ := h.2
    ⟨buf, hbuf, hfilled.1, hfilled.2.2.1⟩⟩

end RenderClaims

/-! ## Claims about the fire palette, the two revisions of the Mandelbrot loop and the cap -/

section RevisionLemmas

variable {K : Type} [LinearOrderedField K]

/-- `mandelIter` of `fractal.js` returns the cap when its early-exit test holds, and the
count of its loop otherwise. -/
theorem Fractal.mandelIter_eq (maxIters : ℤ) (x y : K) :
    Fractal.mandelIter maxIters x y =
      if Fractal.earlyExitTest x y then maxIters
      else (Fractal.mandelLoop maxIters x y
        { x_sqr := 0, y_sqr := 0, x := 0, y := 0, iters := 0 }).iters := by
  simp only [Fractal.mandelIter, Fractal.earlyExitTest]

/-- Two loops whose states stay related, with guards that agree on related states, stop in
related states. -/
theorem whileLoop_related {σ τ : Type} (R : σ → τ → Prop)
    (guard₁ : σ → Prop) [DecidablePred guard₁] (body₁ : σ → σ) (variant₁ : σ → ℕ)
    (hdec₁ : ∀ s, guard₁ s → variant₁ (body₁ s) < variant₁ s)
    (guard₂ : τ → Prop) [DecidablePred guard₂] (body₂ : τ → τ) (variant₂ : τ → ℕ)
    (hdec₂ : ∀ t, guard₂ t → variant₂ (body₂ t) < variant₂ t)
    (hguard : ∀ s t, R s t → (guard₁ s ↔ guard₂ t))
    (hbody : ∀ s t, R s t → guard₁ s → R (body₁ s) (body₂ t))
    (s : σ) (t : τ) (h : R s t) :
    R (whileLoop guard₁ body₁ variant₁ hdec₁ s) (whileLoop guard₂ body₂ variant₂ hdec₂ t) := by
  generalize hn : variant₁ s = n
  induction n using Nat.strong_induction_on generalizing s t with
  | _ n ih =>
    by_cases hg : guard₁ s
    · rw [whileLoop_of_guard guard₁ body₁ variant₁ hdec₁ s hg,
        whileLoop_of_guard guard₂ body₂ variant₂ hdec₂ t ((hguard s t h).mp hg)]
      exact ih (variant₁ (body₁ s)) (hn ▸ hdec₁ s hg) (body₁ s) (body₂ t) (hbody s t h hg) rfl
    · rw [whileLoop_of_not_guard guard₁ body₁ variant₁ hdec₁ s hg,
        whileLoop_of_not_guard guard₂ body₂ variant₂ hdec₂ t (fun h2 => hg ((hguard s t h).mpr h2))]
      exact h

/-- The loop of `mandelIter` in `fractal.js` and the loop of `escapeTimeMJ` in
`fractal_new.js`, started from the origin with the same cap and the same `c`, count the same
number of passes. -/
theorem mandelLoop_iters_eq_escapeTimeMJ (maxIters : ℤ) (x y : K) :
    (Fractal.mandelLoop maxIters x y
        { x_sqr := 0, y_sqr := 0, x := 0, y := 0, iters := 0 }).iters =
      FractalNew.escapeTimeMJ maxIters x y none none := by
  have h := whileLoop_related
    (fun (s : Fractal.MandelState K) (t : FractalNew.EscapeState K) =>
      s.x = t.x ∧ s.y = t.y ∧ s.x_sqr = t.x * t.x ∧ s.y_sqr = t.y * t.y ∧ s.iters = t.iterCount)
    (Fractal.mandelGuard maxIters) (Fractal.mandelBody x y) (Fractal.mandelVariant maxIters)
    (fun s h => by
      have h1 : s.iters < maxIters := h.1
      simp only [Fractal.mandelVariant, Fractal.mandelBody]
      omega)
    (FractalNew.escapeGuard maxIters) (FractalNew.escapeBody x y)
    (FractalNew.escapeVariant maxIters)
    (fun s h => by
      have h2 : s.iterCount < maxIters := h.2
      simp only [FractalNew.escapeVariant, FractalNew.escapeBody]
      omega)
    (fun s t hR => by
      obtain ⟨hx, hy, hxs, hys, hi⟩ := hR
      simp only [Fractal.mandelGuard, FractalNew.escapeGuard, sumOfSquares, hxs, hys, hi, hx, hy]
      exact and_comm)
    (fun s t hR _ => by
      obtain ⟨hx, hy, hxs, hys, hi⟩ := hR
      simp only [Fractal.mandelBody, FractalNew.escapeBody, diffOfSquares, hx, hy, hxs, hys, hi]
      refine ⟨?_, ?_, ?_, ?_, trivial⟩ <;> ring)
    { x_sqr := 0, y_sqr := 0, x := 0, y := 0, iters := 0 }
    { x := orZero none, y := orZero none, new_x := 0, new_y := 0, iterCount := 0 }
    (by simp [orZero])
  exact h.2.2.2.2

/-- The result of `escapeTimeMJ` under a cap `maxIters ≥ 0`, for any two last arguments: the
first step at which the orbit's squared magnitude exceeds 4, or the cap. -/
theorem FractalNew.escapeTimeMJ_char (maxIters : ℤ) (hmax : 0 ≤ maxIters) (cx cy : K)
    (xArg yArg : Option K) :
    ∃ n : ℕ, FractalNew.escapeTimeMJ maxIters cx cy xArg yArg = (n : ℤ) ∧
      (n : ℤ) ≤ maxIters ∧
      (∀ k < n, orbitNormSq cx cy (orZero xArg) (orZero yArg) k ≤ 4) ∧
      ((n : ℤ) = maxIters ∨ 4 < orbitNormSq cx cy (orZero xArg) (orZero yArg) n) := by
  obtain ⟨n, hn, hrun, hstop, hbefore⟩ := FractalNew.escapeLoop_stopsAfter maxIters cx cy
    { x := orZero xArg, y := orZero yArg, new_x := 0, new_y := 0, iterCount := 0 }
  have hstate := fun k => FractalNew.escapeBody_iterate cx cy
    { x := orZero xArg, y := orZero yArg, new_x := 0, new_y := 0, iterCount := 0 } k
  have hle : (n : ℤ) ≤ maxIters := by
    simp only [FractalNew.escapeVariant] at hn
    omega
  refine ⟨n, ?_, hle, ?_, ?_⟩
  · simp only [FractalNew.escapeTimeMJ, ← hrun]
    rw [(hstate n).2.2]
    exact zero_add _
  · intro k hk
    have hg := (hbefore k hk).1
    obtain ⟨hx, hy, _⟩ := hstate k
    rw [hx, hy, sumOfSquares_orbit, BAILOUT_eq] at hg
    exact hg
  · rw [← hrun] at hstop
    obtain ⟨hx, hy, hi⟩ := hstate n
    simp only [FractalNew.escapeGuard, hx, hy, hi, sumOfSquares_orbit, BAILOUT_eq, not_and,
      not_lt, zero_add] at hstop
    by_cases h4 : orbitNormSq cx cy (orZero xArg) (orZero yArg) n ≤ 4
    · exact Or.inl (le_antisymm hle (hstop h4))
    · exact Or.inr (lt_of_not_le h4)

theorem Fractal.juliaIter_mem (maxIters : ℤ) (hmax : 0 ≤ maxIters) (x y : K)
    (stepX stepY : K → K → K) :
    0 ≤ Fractal.juliaIter maxIters x y stepX stepY ∧
      Fractal.juliaIter maxIters x y stepX stepY ≤ maxIters := by
  obtain ⟨k, hk, hstop⟩ := Fractal.juliaLoop_stopsAfter maxIters stepX stepY
    { x_coord := x, y_coord := y, iterCount := 0, new_x := 0, new_y := 0 }
  have hval : Fractal.juliaIter maxIters x y stepX stepY = k := by
    simp only [Fractal.juliaIter, ← hstop.1]
    rw [Fractal.juliaBody_iterate_iterCount _ _ _ k]
    exact zero_add _
  simp only [Fractal.juliaVariant] at hk
  rw [hval]
  omega

/-- With the cap 50 both revisions of `mandelIter` return 3 at the point `(1, 0)`. -/
theorem mandelIter_one_zero :
    Fractal.mandelIter 50 (1 : K) 0 = 3 ∧ FractalNew.mandelIter 50 (1 : K) 0 = 3 := by
  have hnew : FractalNew.escapeTimeMJ 50 (1 : K) 0 none none = 3 := by
    unfold FractalNew.escapeTimeMJ FractalNew.escapeLoop
    rw [whileLoop_of_guard _ _ _ _ _
        (by norm_num [FractalNew.escapeGuard, orZero, sumOfSquares, BAILOUT]),
      whileLoop_of_guard _ _ _ _ _
        (by norm_num [FractalNew.escapeGuard, FractalNew.escapeBody, orZero, sumOfSquares,
          diffOfSquares, BAILOUT]),
      whileLoop_of_guard _ _ _ _ _
        (by norm_num [FractalNew.escapeGuard, FractalNew.escapeBody, orZero, sumOfSquares,
          diffOfSquares, BAILOUT]),
      whileLoop_of_not_guard _ _ _ _ _
        (by norm_num [FractalNew.escapeGuard, FractalNew.escapeBody, orZero, sumOfSquares,
          diffOfSquares, BAILOUT])]
    norm_num [FractalNew.escapeBody]
  have hold : ¬ Fractal.earlyExitTest (1 : K) 0 := by
    norm_num [Fractal.earlyExitTest, sumOfSquares]
  have hbail : ¬ FractalNew.mandelEarlyBailout (1 : K) 0 := by
    norm_num [FractalNew.mandelEarlyBailout, FractalNew.isInMainCardioid,
      FractalNew.isInPeriod2Bulb, sumOfSquares]
  constructor
  · rw [Fractal.mandelIter_eq, if_neg hold, mandelLoop_iters_eq_escapeTimeMJ, hnew]
  · rw [FractalNew.mandelIter, if_neg hbail, hnew]

end RevisionLemmas

section RevisionClaims

variable {K : Type} [LinearOrderedField K]

/-- C22 (counterexample): with the cap 50 neither revision of `mandelIter` returns 50 at the
point `(1, 0)`, and the orbit of 0 under `z -> z^2 + 1` has squared magnitude 25 > 4 at step 3,
so it does exceed the bailout threshold. -/
theorem mandelIter_one_zero_not_cap :
    Fractal.mandelIter 50 (1 : ℚ) 0 ≠ 50 ∧ FractalNew.mandelIter 50 (1 : ℚ) 0 ≠ 50 ∧
      4 < orbitNormSq (1 : ℚ) 0 0 0 3 := by
  obtain ⟨h1, h2⟩ := mandelIter_one_zero (K := ℚ)
  rw [h1, h2]
  refine ⟨by decide, by decide, ?_⟩
  norm_num [orbitNormSq, orbit]

/-- C22 (amended): in the Mandelbrot scenario with the cap 50, the point `(1, 0)` passes
neither early-exit test; its orbit `0, 1, 2, 5` has the squared magnitudes 0, 1 and 4 at the
steps 0, 1 and 2, none above the threshold 4, and 25 at step 3, so it escapes there and
`mandelIter(1, 0)` returns 3 in both revisions. -/
theorem mandelIter_one_zero_escapes :
    ¬ Fractal.earlyExitTest (1 : K) 0 ∧ ¬ FractalNew.mandelEarlyBailout (1 : K) 0 ∧
      orbitNormSq (1 : K) 0 0 0 0 = 0 ∧ orbitNormSq (1 : K) 0 0 0 1 = 1 ∧
      orbitNormSq (1 : K) 0 0 0 2 = 4 ∧ orbitNormSq (1 : K) 0 0 0 3 = 25 ∧
      Fractal.mandelIter 50 (1 : K) 0 = 3 ∧ FractalNew.mandelIter 50 (1 : K) 0 = 3 := by
  refine ⟨?_, ?_, ?_, ?_, ?_, ?_, mandelIter_one_zero.1, mandelIter_one_zero.2⟩
  · norm_num [Fractal.earlyExitTest, sumOfSquares]
  · norm_num [FractalNew.mandelEarlyBailout, FractalNew.isInMainCardioid,
      FractalNew.isInPeriod2Bulb, sumOfSquares]
  · norm_num [orbitNormSq, orbit]
  · norm_num [orbitNormSq, orbit]
  · norm_num [orbitNormSq, orbit]
  · norm_num [orbitNormSq, orbit]

/-- C23 (the code at the failing input): at the point `(-1.25, 0)`, which lies on the
boundary of the period-2 bulb (`(x + 1)^2 + y^2 = 0.0625`), the early-exit test of `mandelIter`
in `fractal.js` is false, because it compares with `<`, whereas `mandelEarlyBailout` of
`fractal_new.js` is true. -/
theorem earlyExitTest_false_on_bulb_boundary :
    ((-1.25 : ℚ) + 1) ^ 2 + (0 : ℚ) ^ 2 = 0.0625 ∧
      ¬ Fractal.earlyExitTest (-1.25 : ℚ) 0 ∧
      FractalNew.mandelEarlyBailout (-1.25 : ℚ) 0 := by
  refine ⟨by norm_num, ?_, ?_⟩
  · norm_num [Fractal.earlyExitTest, sumOfSquares]
  · right
    norm_num [FractalNew.isInPeriod2Bulb, sumOfSquares]

/-- C25: for all parameters, start points and caps `0 ≤ M ≤ M'`, the result of `escapeTimeMJ`
under the cap `M` is the minimum of `M` and the result under the cap `M'`. -/
theorem escapeTimeMJ_cap_min (M M' : ℤ) (hM : 0 ≤ M) (hMM' : M ≤ M') (cx cy : K)
    (xArg yArg : Option K) :
    FractalNew.escapeTimeMJ M cx cy xArg yArg =
      min M (FractalNew.escapeTimeMJ M' cx cy xArg yArg) := by
  obtain ⟨n, hn, hle, hlow, hend⟩ := FractalNew.escapeTimeMJ_char M hM cx cy xArg yArg
  obtain ⟨n', hn', hle', hlow', hend'⟩ :=
    FractalNew.escapeTimeMJ_char M' (le_trans hM hMM') cx cy xArg yArg
  rw [hn, hn']
  by_cases hcase : (n' : ℤ) ≤ M
  · rw [min_eq_right hcase]
    rcases Nat.lt_trichotomy n n' with h | h | h
    · rcases hend with he | he
      · omega
      · exact absurd (hlow' n h) (not_le_of_lt he)
    · rw [h]
    · rcases hend' with he | he
      · omega
      · exact absurd (hlow n' h) (not_le_of_lt he)
  · rw [min_eq_left (by omega)]
    rcases hend with he | he
    · exact he
    · have hlt : n < n' := by omega
      exact absurd (hlow' n hlt) (not_le_of_lt he)

/-- For `c = (1, 0)` from the origin, the count under the cap 2 is the minimum of 2 and the
count under the cap 50. -/
theorem escapeTimeMJ_cap_min_witness :
    (0 : ℤ) ≤ 2 ∧ (2 : ℤ) ≤ 50 ∧
      FractalNew.escapeTimeMJ 2 (1 : ℚ) 0 none none =
        min 2 (FractalNew.escapeTimeMJ 50 (1 : ℚ) 0 none none) :=
  ⟨by decide, by decide, escapeTimeMJ_cap_min 2 50 (by decide) (by decide) 1 0 none none⟩

/-- C26: at every point where the early-exit test of `mandelIter` in `fractal.js` is false,
and for every integer cap, the loop of `mandelIter` in `fractal.js` (which caches `x^2` and `y^2` and
updates `y` before `x`) and `mandelIter` itself return the value of `escapeTimeMJ(x, y)` of
`fractal_new.js`, which starts from `(0, 0)`. -/
theorem mandelIter_loop_eq_escapeTimeMJ (maxIters : ℤ) (x y : K)
    (hexit : ¬ Fractal.earlyExitTest x y) :
    (Fractal.mandelLoop maxIters x y
        { x_sqr := 0, y_sqr := 0, x := 0, y := 0, iters := 0 }).iters =
        FractalNew.escapeTimeMJ maxIters x y none none ∧
      Fractal.mandelIter maxIters x y = FractalNew.escapeTimeMJ maxIters x y none none := by
  refine ⟨mandelLoop_iters_eq_escapeTimeMJ maxIters x y, ?_⟩
  rw [Fractal.mandelIter_eq, if_neg hexit, mandelLoop_iters_eq_escapeTimeMJ]

/-- At the point `(1, 0)`, where the early-exit test is false, the two revisions agree under
the cap 50. -/
theorem mandelIter_loop_eq_escapeTimeMJ_witness :
    ¬ Fractal.earlyExitTest (1 : ℚ) 0 ∧
      Fractal.mandelIter 50 (1 : ℚ) 0 = FractalNew.escapeTimeMJ 50 (1 : ℚ) 0 none none :=
  have hexit : ¬ Fractal.earlyExitTest (1 : ℚ) 0 := by
    norm_num [Fractal.earlyExitTest, sumOfSquares]
  ⟨hexit, (mandelIter_loop_eq_escapeTimeMJ 50 1 0 hexit).2⟩

end RevisionClaims

section FireAndLookupClaims

variable {K : Type} [LinearOrderedField K] [FloorRing K]

/-- C21: for every band value `band3` in `[0, 3]` the triple `(r, g, b)` of the fire palette
satisfies: `g > 0` implies `r = 255`, `b > 0` implies `r = 255` and `g = 255`, and
`r ≥ g ≥ b`; the triple is black at `band3 = 0` and white at `band3 = 3`. -/
theorem fire_channels_saturate_in_turn (idx : ℤ) (logScale band3 : K) (h0 : 0 ≤ band3)
    (h3 : band3 ≤ 3) :
    (0 < (fire idx logScale band3).2.1 → (fire idx logScale band3).1 = 255) ∧
      (0 < (fire idx logScale band3).2.2 →
        (fire idx logScale band3).1 = 255 ∧ (fire idx logScale band3).2.1 = 255) ∧
      (fire idx logScale band3).2.1 ≤ (fire idx logScale band3).1 ∧
      (fire idx logScale band3).2.2 ≤ (fire idx logScale band3).2.1 ∧
      fire idx logScale (0 : K) = (0, 0, 0) ∧
      fire idx logScale (3 : K) = (255, 255, 255) := by
  have hcases : band3 < 1 ∨ (¬ band3 < 1 ∧ band3 < 2) ∨ (¬ band3 < 1 ∧ ¬ band3 < 2) := by
    by_cases h1 : band3 < 1
    · exact Or.inl h1
    · by_cases h2 : band3 < 2
      · exact Or.inr (Or.inl ⟨h1, h2⟩)
      · exact Or.inr (Or.inr ⟨h1, h2⟩)
  refine ⟨?_, ?_, ?_, ?_, ?_, ?_⟩
  · rcases hcases with h1 | ⟨h1, h2⟩ | ⟨h1, h2⟩
    · have h2 : band3 < 2 := by linarith
      simp only [fire, if_pos h1, if_pos h2]
      intro h
      exact absurd h (lt_irrefl 0)
    · simp only [fire, if_neg h1, if_pos h2]
      exact fun _ => trivial
    · simp only [fire, if_neg h1, if_neg h2]
      exact fun _ => trivial
  · rcases hcases with h1 | ⟨h1, h2⟩ | ⟨h1, h2⟩
    · have h2 : band3 < 2 := by linarith
      simp only [fire, if_pos h1, if_pos h2]
      intro h
      exact absurd h (lt_irrefl 0)
    · simp only [fire, if_neg h1, if_pos h2]
      intro h
      exact absurd h (lt_irrefl 0)
    · simp only [fire, if_neg h1, if_neg h2]
      exact fun _ => ⟨trivial, trivial⟩
  · rcases hcases with h1 | ⟨h1, h2⟩ | ⟨h1, h2⟩
    · simp only [fire, if_pos h1]
      exact (parseInt_byte (by linarith) (by linarith)).1
    · simp only [fire, if_neg h1, if_pos h2]
      exact (parseInt_byte (by linarith) (by linarith)).2
    · simp only [fire, if_neg h1, if_neg h2]
      exact le_refl _
  · rcases hcases with h1 | ⟨h1, h2⟩ | ⟨h1, h2⟩
    · have h2 : band3 < 2 := by linarith
      simp only [fire, if_pos h1, if_pos h2]
      exact le_refl _
    · simp only [fire, if_neg h1, if_pos h2]
      exact (parseInt_byte (by linarith) (by linarith)).1
    · simp only [fire, if_neg h1, if_neg h2]
      exact (parseInt_byte (by linarith) (by linarith)).2
  · have hp : parseInt (255 * (0 : K)) = 0 := by
      rw [parseInt_of_nonneg (by norm_num)]
      norm_num
    simp only [fire]
    rw [if_pos (by norm_num), if_pos (by norm_num), if_pos (by norm_num), hp]
  · have hp : parseInt (255 * ((3 : K) - 2)) = 255 := by
      rw [parseInt_of_nonneg (by norm_num)]
      norm_num
    simp only [fire]
    rw [if_neg (by norm_num), if_neg (by norm_num), if_neg (by norm_num), if_neg (by norm_num),
      hp]

/-- At `band3 = 3/2` the fire triple is `(255, 127, 0)`: red is saturated, green ramps and
blue has not started. -/
theorem fire_channels_saturate_in_turn_witness :
    (0 : ℚ) ≤ 3 / 2 ∧ (3 / 2 : ℚ) ≤ 3 ∧
      (0 < (fire 0 (1 / 2 : ℚ) (3 / 2)).2.1 → (fire 0 (1 / 2 : ℚ) (3 / 2)).1 = 255) ∧
      (fire 0 (1 / 2 : ℚ) (3 / 2)).2.1 ≤ (fire 0 (1 / 2 : ℚ) (3 / 2)).1 ∧
      (fire 0 (1 / 2 : ℚ) (3 / 2)).2.2 ≤ (fire 0 (1 / 2 : ℚ) (3 / 2)).2.1 :=
  have h := fire_channels_saturate_in_turn 0 (1 / 2 : ℚ) (3 / 2) (by norm_num) (by norm_num)
  ⟨by norm_num, by norm_num, h.1, h.2.2.1, h.2.2.2.1⟩

/-- C24: for every cap `maxIter ≥ 1`, every palette of `buildColourMaps(maxIter)`, every
fractal kind and every plane coordinate, the iteration count returned under the cap `maxIter`
is an index at which the map holds a triple; hence the render loops of `mandelCalcJS` and
`juliaCalcJS` (`fractal.js`) and of `fractalCalcJS` (`fractal_new.js`) over a canvas of
positive size with that map never read an undefined entry and return their buffer. -/
theorem lookup_is_total (ln : K → K) (maxIter : ℤ) (h : 1 ≤ maxIter) (p : Fin 4)
    (x y cx cy : K) (host : Host) (width height : ℤ) (hw : 0 < width) (hh : 0 < height)
    (imageSpace : Fractal.ImageSpace K) (fType : String) (imgSpace : ImgSpace K) :
    (∃ c : RGB, (buildColourMaps ln maxIter p).get (Fractal.mandelIter maxIter x y) = some c) ∧
      (∃ c : RGB, (buildColourMaps ln maxIter p).get
        (Fractal.juliaIter maxIter x y (Fractal.makeJuliaXStepFn cx)
          (Fractal.makeJuliaYStepFn cy)) = some c) ∧
      (∃ c : RGB, (buildColourMaps ln maxIter p).get
        (FractalNew.mandelIter maxIter x y) = some c) ∧
      (∃ c : RGB, (buildColourMaps ln maxIter p).get
        (FractalNew.escapeTimeMJ maxIter cx cy (some x) (some y)) = some c) ∧
      (∃ buf : Uint32Array,
        Fractal.mandelCalcJS host maxIter (buildColourMaps ln maxIter p) width height imageSpace
          = Except.ok buf) ∧
      (∃ buf : Uint32Array,
        Fractal.juliaCalcJS host maxIter (buildColourMaps ln maxIter p) width height imageSpace
          = Except.ok buf) ∧
      ∃ buf : Uint32Array,
        FractalNew.fractalCalcJS host maxIter fType width height
          { imgSpace with colourMap := buildColourMaps ln maxIter p } = Except.ok buf := by
  have hmax : 0 ≤ maxIter := by omega
  have hdef : ∀ j : ℤ, 0 ≤ j ∧ j ≤ maxIter →
      ∃ c : RGB, (buildColourMaps ln maxIter p).get j = some c :=
    fun j hj => buildColourMaps_defined ln maxIter p j hj.1 hj.2
  have key : ∀ thisColour : ℤ → ℤ → Option RGB,
      (∀ ix iy : ℤ, 0 ≤ ix → ix < width → 0 ≤ iy → iy < height →
        ∃ c : RGB, thisColour ix iy = some c) →
      ∃ buf : Uint32Array,
        renderLoops (setRGB host) width height thisColour = Except.ok buf :=
    fun thisColour hcol =>
      let ⟨buf, hbuf, _⟩ := renderLoops_fills (setRGB host) width height hw hh.le thisColour hcol
      ⟨buf, hbuf⟩
  refine ⟨hdef _ (Fractal.mandelIter_mem maxIter hmax x y),
    hdef _ (Fractal.juliaIter_mem maxIter hmax x y _ _),
    hdef _ (FractalNew.mandelIterNew_mem maxIter hmax x y),
    hdef _ (FractalNew.escapeTimeMJ_mem maxIter hmax cx cy _ _), ?_, ?_, ?_⟩
  · refine key _ ?_
    intro ix iy _ _ _ _
    exact hdef _ (Fractal.mandelIter_mem maxIter hmax _ _)
  · refine key _ ?_
    intro ix iy _ _ _ _
    exact hdef _ (Fractal.juliaIter_mem maxIter hmax _ _ _ _)
  · refine key _ ?_
    intro ix iy _ _ _ _
    apply hdef
    split_ifs
    · exact FractalNew.mandelIterNew_mem maxIter hmax _ _
    · exact FractalNew.escapeTimeMJ_mem maxIter hmax _ _ _ _

/-- For the cap 1000, the fire map and a canvas of 800 by 600 pixels every lookup is total. -/
theorem lookup_is_total_witness :
    (1 : ℤ) ≤ 1000 ∧ (0 : ℤ) < 800 ∧ (0 : ℤ) < 600 ∧
      (∃ c : RGB, (buildColourMaps Real.log 1000 1).get
        (Fractal.mandelIter 1000 (-1 / 2 : ℝ) 0) = some c) ∧
      ∃ buf : Uint32Array,
        Fractal.juliaCalcJS littleEndianHost 1000 (buildColourMaps Real.log 1000 1) 800 600
          { mandelXCoord := (0 : ℝ), mandelYCoord := 1, xMin := -2, xMax := 2,
            yMin := -3 / 2, yMax := 3 / 2 } = Except.ok buf :=
  have h := lookup_is_total Real.log 1000 (by decide) 1 (-1 / 2 : ℝ) 0 0 1 littleEndianHost
    800 600 (by decide) (by decide)
    { mandelXCoord := (0 : ℝ), mandelYCoord := 1, xMin := -2, xMax := 2,
      yMin := -3 / 2, yMax := 3 / 2 }
    FractalNew.JULIA
    { colourMap := JSArray.empty, mandelX := (0 : ℝ), mandelY := 1, xMin := -2, xMax := 2,
      yMin := -3 / 2, yMax := 3 / 2 }
  ⟨by decide, by decide, by decide, h.1, h.2.2.2.2.2.1⟩

end FireAndLookupClaims

/-! ## Claims about the colour maps in binary64 arithmetic -/

section Binary64Lemmas

open Binary64

theorem setEntry64_get (m : Fin 4 → JSArray Colour) (k : Fin 4) (i : ℤ) (v : Colour) (p : Fin 4)
    (j : ℤ) :
    (Binary64.setEntry m k i v p).get j = if p = k ∧ j = i then some v else (m p).get j := by
  by_cases hp : p = k
  · subst hp
    by_cases hj : j = i <;> simp [Binary64.setEntry, JSArray.set, hj]
  · simp [Binary64.setEntry, Function.update_noteq hp, hp]

theorem setEntry64_length (m : Fin 4 → JSArray Colour) (k : Fin 4) (i : ℤ) (v : Colour)
    (p : Fin 4) :
    (Binary64.setEntry m k i v p).length =
      if p = k ∧ 0 ≤ i then max (m p).length (i.toNat + 1) else (m p).length := by
  by_cases hp : p = k
  · subst hp
    by_cases hi : 0 ≤ i <;> simp [Binary64.setEntry, JSArray.set, hi]
  · simp [Binary64.setEntry, Function.update_noteq hp, hp]

/-- The value `logScale` that a pass of the loop of `buildColourMaps` computes for the index
`j`. -/
theorem buildBody64_get (ln : ℚ → ℚ) (lm : JSNumber ℚ) (s : Binary64.BuildState) (p : Fin 4) (j : ℤ) :
    ((Binary64.buildBody ln lm s).colourMaps p).get j =
      if j = s.i then
        some (Binary64.colourMapFns p s.i (div (mathLog ln (JSNumber.finite (s.i : ℚ))) lm)
          (mul (div (mathLog ln (JSNumber.finite (s.i : ℚ))) lm) (JSNumber.finite 3)))
      else (s.colourMaps p).get j := by
  simp only [Binary64.buildBody, setEntry64_get]
  by_cases hj : j = s.i
  · fin_cases p <;> simp [hj]
  · simp [hj]

theorem buildBody64_length (ln : ℚ → ℚ) (lm : JSNumber ℚ) (s : Binary64.BuildState) (p : Fin 4) :
    ((Binary64.buildBody ln lm s).colourMaps p).length =
      if 0 ≤ s.i then max (s.colourMaps p).length (s.i.toNat + 1)
      else (s.colourMaps p).length := by
  simp only [Binary64.buildBody, setEntry64_length]
  by_cases hi : 0 ≤ s.i
  · fin_cases p <;> simp [hi]
  · simp [hi]

theorem buildLoop64_unfold (ln : ℚ → ℚ) (iterLimit : ℤ) (lm : JSNumber ℚ) (s : Binary64.BuildState) :
    Binary64.buildLoop ln iterLimit lm s =
      if s.i < iterLimit then Binary64.buildLoop ln iterLimit lm (Binary64.buildBody ln lm s)
      else s := by
  unfold Binary64.buildLoop
  rw [whileLoop_unfold]
  rfl

/-- The loop of `buildColourMaps` writes the entries `i, …, iterLimit - 1` of every map and
leaves every other key as it was. -/
theorem buildLoop64_get (ln : ℚ → ℚ) (iterLimit : ℤ) (lm : JSNumber ℚ) (p : Fin 4) (j : ℤ)
    (s : Binary64.BuildState) :
    ((Binary64.buildLoop ln iterLimit lm s).colourMaps p).get j =
      if s.i ≤ j ∧ j < iterLimit then
        some (Binary64.colourMapFns p j (div (mathLog ln (JSNumber.finite (j : ℚ))) lm)
          (mul (div (mathLog ln (JSNumber.finite (j : ℚ))) lm) (JSNumber.finite 3)))
      else (s.colourMaps p).get j := by
  generalize hn : (iterLimit - s.i).toNat = n
  induction n generalizing s with
  | zero =>
    have hge : ¬ s.i < iterLimit := by omega
    rw [buildLoop64_unfold, if_neg hge, if_neg]
    omega
  | succ n ih =>
    have hlt : s.i < iterLimit := by omega
    have hi : (Binary64.buildBody ln lm s).i = s.i + 1 := rfl
    rw [buildLoop64_unfold, if_pos hlt, ih (Binary64.buildBody ln lm s) (by rw [hi]; omega), hi,
      buildBody64_get]
    by_cases hj : j = s.i
    · subst hj
      have h1 : ¬ (s.i + 1 ≤ s.i ∧ s.i < iterLimit) := by omega
      rw [if_neg h1, if_pos rfl, if_pos ⟨le_refl _, hlt⟩]
    · rw [if_neg hj]
      by_cases hc : s.i ≤ j ∧ j < iterLimit
      · rw [if_pos hc, if_pos (by omega)]
      · rw [if_neg hc, if_neg (by omega)]

theorem buildLoop64_length (ln : ℚ → ℚ) (iterLimit : ℤ) (lm : JSNumber ℚ) (p : Fin 4)
    (s : Binary64.BuildState) (hs : 0 ≤ s.i) :
    ((Binary64.buildLoop ln iterLimit lm s).colourMaps p).length =
      if s.i < iterLimit then max (s.colourMaps p).length iterLimit.toNat
      else (s.colourMaps p).length := by
  generalize hn : (iterLimit - s.i).toNat = n
  induction n generalizing s with
  | zero =>
    have hge : ¬ s.i < iterLimit := by omega
    rw [buildLoop64_unfold, if_neg hge, if_neg hge]
  | succ n ih =>
    have hlt : s.i < iterLimit := by omega
    have hi : (Binary64.buildBody ln lm s).i = s.i + 1 := rfl
    rw [buildLoop64_unfold, if_pos hlt, ih (Binary64.buildBody ln lm s) (by rw [hi]; omega)
      (by rw [hi]; omega), hi, buildBody64_length, if_pos hs, if_pos hlt]
    split_ifs with h
    · omega
    · have : s.i.toNat + 1 = iterLimit.toNat := by omega
      rw [this]

/-- Every key of every map built by `buildColourMaps` in binary64 arithmetic: the loop's entry
at `1 … iterLimit - 1`, the entry computed for index 0 at key 0, black at key `iterLimit`,
nothing elsewhere. -/
theorem buildColourMaps64_get (ln : ℚ → ℚ) (iterLimit : ℤ) (p : Fin 4) (j : ℤ) :
    (Binary64.buildColourMaps ln iterLimit p).get j =
      if 1 ≤ j ∧ j < iterLimit then
        some (Binary64.colourMapFns p j
          (div (mathLog ln (JSNumber.finite (j : ℚ)))
            (mathLog ln (sub (JSNumber.finite (iterLimit : ℚ)) (JSNumber.finite 1.0))))
          (mul (div (mathLog ln (JSNumber.finite (j : ℚ)))
            (mathLog ln (sub (JSNumber.finite (iterLimit : ℚ)) (JSNumber.finite 1.0))))
            (JSNumber.finite 3)))
      else if j = 0 then
        some (Binary64.colourMapFns p 0 (JSNumber.finite 0.0) (JSNumber.finite 0.0))
      else if j = iterLimit then some (JSNumber.finite 0, JSNumber.finite 0, JSNumber.finite 0)
      else none := by
  simp only [Binary64.buildColourMaps, buildLoop64_get, setEntry64_get]
  by_cases h1 : 1 ≤ j ∧ j < iterLimit
  · rw [if_pos h1, if_pos h1]
  · rw [if_neg h1, if_neg h1]
    by_cases h0 : j = 0
    · fin_cases p <;> simp [h0]
    · by_cases hL : j = iterLimit
      · fin_cases p <;> simp [h0, hL, JSArray.empty]
      · simp [h0, hL, JSArray.empty]

/-- The `length` of every map built by `buildColourMaps` in binary64 arithmetic. -/
theorem buildColourMaps64_length (ln : ℚ → ℚ) (iterLimit : ℤ) (p : Fin 4) :
    (Binary64.buildColourMaps ln iterLimit p).length =
      if 0 ≤ iterLimit then iterLimit.toNat + 1 else 1 := by
  simp only [Binary64.buildColourMaps]
  rw [buildLoop64_length _ _ _ _ _ (by norm_num)]
  simp only [setEntry64_length]
  by_cases hL : 0 ≤ iterLimit
  · fin_cases p <;> simp [hL, JSArray.empty]
  · fin_cases p <;> simp [hL, JSArray.empty] <;> omega

end Binary64Lemmas

section RoundingLemmas

open Binary64

theorem roundHalfEven_of_abs_sub_lt {t : ℚ} {m : ℤ} (h : |t - m| < 1 / 2) :
    roundHalfEven t = m := by
  rw [abs_lt] at h
  by_cases ht : (m : ℚ) ≤ t
  · have hf : ⌊t⌋ = m := by
      rw [Int.floor_eq_iff]
      exact ⟨ht, by linarith⟩
    unfold roundHalfEven
    rw [hf, if_pos (by linarith)]
  · have hf : ⌊t⌋ = m - 1 := by
      rw [Int.floor_eq_iff]
      push_cast
      exact ⟨by linarith, by linarith⟩
    unfold roundHalfEven
    rw [hf, if_neg (by push_cast; linarith), if_pos (by push_cast; linarith)]
    ring

theorem roundHalfEven_intCast (m : ℤ) : roundHalfEven (m : ℚ) = m :=
  roundHalfEven_of_abs_sub_lt (by simp)

theorem abs_roundHalfEven_sub_le (t : ℚ) : |(roundHalfEven t : ℚ) - t| ≤ 1 / 2 := by
  have h1 := Int.floor_le t
  have h2 := Int.lt_floor_add_one t
  unfold roundHalfEven
  rw [abs_le]
  split_ifs with a b c
  · constructor <;> linarith
  · push_cast
    constructor <;> linarith
  · constructor <;> linarith
  · push_cast
    constructor <;> linarith

theorem abs_roundHalfEven_le (t : ℚ) : |(roundHalfEven t : ℚ)| ≤ 2 * |t| := by
  by_cases h : |t| < 1 / 2
  · have h0 : roundHalfEven t = 0 := roundHalfEven_of_abs_sub_lt (by simpa using h)
    rw [h0]
    simp
  · have h1 := abs_roundHalfEven_sub_le t
    have h2 : |(roundHalfEven t : ℚ)| ≤ |(roundHalfEven t : ℚ) - t| + |t| := by
      have := abs_add ((roundHalfEven t : ℚ) - t) t
      simpa using this
    push_neg at h
    linarith

/-- A result of magnitude below `2 ^ 1023` rounds to a finite binary64 number, of at most twice
the magnitude. -/
theorem round64_finite {x : ℚ} (hx : |x| < 2 ^ (1023 : ℤ)) :
    ∃ y : ℚ, round64 x = JSNumber.finite y ∧ |y| ≤ 2 * |x| := by
  have hu : ∀ e : ℤ, (0 : ℚ) < 2 ^ e := fun e => zpow_pos (by norm_num) e
  have key : ∀ e : ℤ, |(roundHalfEven (x / 2 ^ (e - 52)) : ℚ) * 2 ^ (e - 52)| ≤ 2 * |x| := by
    intro e
    have h1 := abs_roundHalfEven_le (x / 2 ^ (e - 52))
    rw [abs_mul, abs_of_pos (hu (e - 52))]
    rw [abs_div, abs_of_pos (hu (e - 52))] at h1
    calc |(roundHalfEven (x / 2 ^ (e - 52)) : ℚ)| * 2 ^ (e - 52)
        ≤ 2 * (|x| / 2 ^ (e - 52)) * 2 ^ (e - 52) :=
          mul_le_mul_of_nonneg_right h1 (hu _).le
      _ = 2 * |x| := by
          field_simp
  refine ⟨_, ?_, key (max (Int.log 2 |x|) (-1022))⟩
  unfold round64
  simp only []
  rw [if_neg]
  have h2 := key (max (Int.log 2 |x|) (-1022))
  have h3 : (2 : ℚ) * 2 ^ (1023 : ℤ) = 2 ^ (1024 : ℤ) := by norm_num
  linarith

/-- The binary64 rounding of a number `x` of binary exponent `e`, in the normal range, whose
scaled value `x / 2 ^ (e - 52)` is nearer to the integer `m` than to any other. -/
theorem round64_eq_of {x : ℚ} (e m : ℤ) (h1 : (2 : ℚ) ^ e ≤ |x|) (h2 : |x| < 2 ^ (e + 1))
    (he : -1022 ≤ e) (hm : |x / 2 ^ (e - 52) - m| < 1 / 2)
    (hfin : |(m : ℚ) * 2 ^ (e - 52)| < 2 ^ (1024 : ℤ)) :
    round64 x = JSNumber.finite ((m : ℚ) * 2 ^ (e - 52)) := by
  have hpos : 0 < |x| := lt_of_lt_of_le (zpow_pos (by norm_num) e) h1
  have hlog : Int.log 2 |x| = e := by
    apply le_antisymm
    · have := (Int.lt_zpow_iff_log_lt (R := ℚ) (b := 2) (by norm_num) hpos).mp
        (by simpa using h2)
      omega
    · exact (Int.zpow_le_iff_le_log (R := ℚ) (b := 2) (by norm_num) hpos).mp (by simpa using h1)
  unfold round64
  simp only []
  rw [hlog, max_eq_left he, roundHalfEven_of_abs_sub_lt hm, if_neg (not_le.mpr hfin)]

/-- An integer of magnitude below `2 ^ 53` is a binary64 number. -/
theorem round64_intCast (n : ℤ) (h : |n| < 2 ^ 53) : round64 (n : ℚ) = JSNumber.finite (n : ℚ) := by
  have hle : Int.log 2 |(n : ℚ)| ≤ 52 := by
    by_cases h0 : n = 0
    · subst h0
      simp
    · have hpos : 0 < |(n : ℚ)| := abs_pos.mpr (by exact_mod_cast h0)
      have hlt : |(n : ℚ)| < ((2 : ℕ) : ℚ) ^ (53 : ℤ) := by
        have : ((|n| : ℤ) : ℚ) < ((2 ^ 53 : ℤ) : ℚ) := by exact_mod_cast h
        rw [Int.cast_abs] at this
        norm_num at this ⊢
        exact this
      have := (Int.lt_zpow_iff_log_lt (R := ℚ) (b := 2) (by norm_num) hpos).mp hlt
      omega
  obtain ⟨k, hk⟩ : ∃ k : ℕ, (52 : ℤ) - max (Int.log 2 |(n : ℚ)|) (-1022) = k :=
    ⟨(52 - max (Int.log 2 |(n : ℚ)|) (-1022)).toNat, by
      rw [Int.toNat_of_nonneg]
      have := max_le hle (show (-1022 : ℤ) ≤ 52 by norm_num)
      omega⟩
  have hu : (2 : ℚ) ^ (max (Int.log 2 |(n : ℚ)|) (-1022) - 52) = ((2 : ℚ) ^ k)⁻¹ := by
    rw [show max (Int.log 2 |(n : ℚ)|) (-1022) - 52 = -(k : ℤ) by omega, zpow_neg, zpow_natCast]
  have hq : (n : ℚ) / ((2 : ℚ) ^ k)⁻¹ = ((n * 2 ^ k : ℤ) : ℚ) := by
    push_cast
    rw [div_inv_eq_mul]
  have hn : |(n : ℚ)| < 2 ^ (1024 : ℤ) := by
    have h1 : ((|n| : ℤ) : ℚ) < ((2 ^ 53 : ℤ) : ℚ) := by exact_mod_cast h
    rw [Int.cast_abs] at h1
    have h2 : (((2 : ℤ) ^ 53 : ℤ) : ℚ) ≤ 2 ^ (1024 : ℤ) := by norm_num
    linarith
  have hy : ((n * 2 ^ k : ℤ) : ℚ) * ((2 : ℚ) ^ k)⁻¹ = n := by
    push_cast
    field_simp
  unfold round64
  simp only []
  rw [hu, hq, roundHalfEven_intCast, hy, if_neg (not_le.mpr hn)]

end RoundingLemmas

section Binary64Evaluation

open Binary64

theorem mathLog_lnSample_2 :
    mathLog lnSample (JSNumber.finite 2) = JSNumber.finite (6243314768165359 / 2 ^ 53) := by
  norm_num [mathLog, lnSample]

theorem mathLog_lnSample_32 :
    mathLog lnSample (JSNumber.finite 32) = JSNumber.finite (7804143460206699 / 2 ^ 51) := by
  norm_num [mathLog, lnSample]

theorem mathLog_lnSample_50 :
    mathLog lnSample (JSNumber.finite 50) = JSNumber.finite (8809092674755503 / 2 ^ 51) := by
  norm_num [mathLog, lnSample]

theorem mathLog_lnSample_99 :
    mathLog lnSample (JSNumber.finite 99) = JSNumber.finite (5173645011197227 / 2 ^ 50) := by
  norm_num [mathLog, lnSample]

/-- `Math.log(2) / Math.log(32)` is the binary64 number `0.19999999999999998`. -/
theorem logScale_33_2 :
    div (JSNumber.finite (6243314768165359 / 2 ^ 53)) (JSNumber.finite (7804143460206699 / 2 ^ 51))
      = JSNumber.finite (7205759403792793 / 2 ^ 55) := by
  have h := round64_eq_of (x := (6243314768165359 / 2 ^ 53 : ℚ) / (7804143460206699 / 2 ^ 51))
    (-3) 7205759403792793 (by norm_num [abs_of_pos]) (by norm_num [abs_of_pos]) (by norm_num)
    (by rw [abs_lt]; constructor <;> norm_num) (by norm_num [abs_of_pos])
  simp only [div]
  rw [if_neg (by norm_num), h]
  norm_num

/-- `255 * 0.19999999999999998` is the binary64 number `50.99999999999999`. -/
theorem product_33_2 :
    mul (JSNumber.finite 255) (JSNumber.finite (7205759403792793 / 2 ^ 55))
      = JSNumber.finite (7177611906121727 / 2 ^ 47) := by
  have h := round64_eq_of (x := (255 : ℚ) * (7205759403792793 / 2 ^ 55))
    5 7177611906121727 (by norm_num [abs_of_pos]) (by norm_num [abs_of_pos]) (by norm_num)
    (by rw [abs_lt]; constructor <;> norm_num) (by norm_num [abs_of_pos])
  simp only [mul]
  rw [h]
  norm_num

/-- `Math.log(50) / Math.log(99)` is the binary64 number `0.8513429753771414`. -/
theorem logScale_100_50 :
    div (JSNumber.finite (8809092674755503 / 2 ^ 51)) (JSNumber.finite (5173645011197227 / 2 ^ 50))
      = JSNumber.finite (7668215813345967 / 2 ^ 53) := by
  have h := round64_eq_of (x := (8809092674755503 / 2 ^ 51 : ℚ) / (5173645011197227 / 2 ^ 50))
    (-1) 7668215813345967 (by norm_num [abs_of_pos]) (by norm_num [abs_of_pos]) (by norm_num)
    (by rw [abs_lt]; constructor <;> norm_num) (by norm_num [abs_of_pos])
  simp only [div]
  rw [if_neg (by norm_num), h]
  norm_num

/-- `255 * 0.8513429753771414` is the binary64 number `217.09245872117106`. -/
theorem product_100_50 :
    mul (JSNumber.finite 255) (JSNumber.finite (7668215813345967 / 2 ^ 53))
      = JSNumber.finite (7638261845325084 / 2 ^ 45) := by
  have h := round64_eq_of (x := (255 : ℚ) * (7668215813345967 / 2 ^ 53))
    7 7638261845325084 (by norm_num [abs_of_pos]) (by norm_num [abs_of_pos]) (by norm_num)
    (by rw [abs_lt]; constructor <;> norm_num) (by norm_num [abs_of_pos])
  simp only [mul]
  rw [h]
  norm_num

/-- The subtraction `iterLimit - 1.0` is exact for an integer `iterLimit` up to `2 ^ 53`. -/
theorem sub_one_intCast (n : ℤ) (h0 : 0 ≤ n) (h : n ≤ 2 ^ 53) :
    sub (JSNumber.finite (n : ℚ)) (JSNumber.finite 1.0) = JSNumber.finite ((n - 1 : ℤ) : ℚ) := by
  have h1 : (n : ℚ) - 1.0 = ((n - 1 : ℤ) : ℚ) := by
    push_cast
    norm_num
  simp only [sub]
  rw [h1]
  exact round64_intCast _ (by rw [abs_lt]; constructor <;> omega)

theorem parseInt_finite_of_nonneg {x : ℚ} (h : 0 ≤ x) :
    Binary64.parseInt (JSNumber.finite x) = JSNumber.finite ((⌊x⌋ : ℤ) : ℚ) := by
  simp only [Binary64.parseInt, if_pos h]

/-- The partial sum of `n = 58` terms of the series of `-log (1 - x)` at `x = 1/2`. -/
theorem logSeries_half :
    |(5127302234948592254277914224132826263 / 7397133507499232766190638453523218432 : ℝ) + Real.log (1 - 2⁻¹)| ≤ 1 / 288230376151711744 := by
  have t : |(2⁻¹ : ℝ)| = 2⁻¹ := by rw [abs_of_pos]; norm_num
  have z := Real.abs_log_sub_add_sum_range_le (show |(2⁻¹ : ℝ)| < 1 by rw [t]; norm_num) 58
  rw [t] at z
  have e : (∑ i ∈ Finset.range 58, (2⁻¹ : ℝ) ^ (i + 1) / ((i : ℝ) + 1)) =
      5127302234948592254277914224132826263 / 7397133507499232766190638453523218432 := by
    simp_rw [Finset.sum_range_succ]
    norm_num
  rw [e] at z
  refine z.trans (le_of_eq ?_)
  norm_num

/-- The partial sum of `n = 38` terms of the series of `-log (1 - x)` at `x = 1/3`. -/
theorem logSeries_third :
    |(36128984156900616386023859177419 / 89105038718307235804779960160800 : ℝ) + Real.log (1 - 3⁻¹)| ≤ 1 / 2701703435345984178 := by
  have t : |(3⁻¹ : ℝ)| = 3⁻¹ := by rw [abs_of_pos]; norm_num
  have z := Real.abs_log_sub_add_sum_range_le (show |(3⁻¹ : ℝ)| < 1 by rw [t]; norm_num) 38
  rw [t] at z
  have e : (∑ i ∈ Finset.range 38, (3⁻¹ : ℝ) ^ (i + 1) / ((i : ℝ) + 1)) =
      36128984156900616386023859177419 / 89105038718307235804779960160800 := by
    simp_rw [Finset.sum_range_succ]
    norm_num
  rw [e] at z
  refine z.trans (le_of_eq ?_)
  norm_num

/-- The partial sum of `n = 26` terms of the series of `-log (1 - x)` at `x = 1/5`. -/
theorem logSeries_fifth :
    |(161848508069773130615823071 / 725311160087585449218750000 : ℝ) + Real.log (1 - 5⁻¹)| ≤ 1 / 5960464477539062500 := by
  have t : |(5⁻¹ : ℝ)| = 5⁻¹ := by rw [abs_of_pos]; norm_num
  have z := Real.abs_log_sub_add_sum_range_le (show |(5⁻¹ : ℝ)| < 1 by rw [t]; norm_num) 26
  rw [t] at z
  have e : (∑ i ∈ Finset.range 26, (5⁻¹ : ℝ) ^ (i + 1) / ((i : ℝ) + 1)) =
      161848508069773130615823071 / 725311160087585449218750000 := by
    simp_rw [Finset.sum_range_succ]
    norm_num
  rw [e] at z
  refine z.trans (le_of_eq ?_)
  norm_num

/-- The partial sum of `n = 16` terms of the series of `-log (1 - x)` at `x = 1/12`. -/
theorem logSeries_twelfth :
    |(429416559576386355823 / 4935177150771505397760 : ℝ) + Real.log (1 - 12⁻¹)| ≤ 1 / 2033726847845400576 := by
  have t : |(12⁻¹ : ℝ)| = 12⁻¹ := by rw [abs_of_pos]; norm_num
  have z := Real.abs_log_sub_add_sum_range_le (show |(12⁻¹ : ℝ)| < 1 by rw [t]; norm_num) 16
  rw [t] at z
  have e : (∑ i ∈ Finset.range 16, (12⁻¹ : ℝ) ^ (i + 1) / ((i : ℝ) + 1)) =
      429416559576386355823 / 4935177150771505397760 := by
    simp_rw [Finset.sum_range_succ]
    norm_num
  rw [e] at z
  refine z.trans (le_of_eq ?_)
  norm_num

/-- Each tabulated value of `lnSample` is the binary64 number nearest to the natural logarithm:
it differs from it by less than half a unit in the last place (`2 ^ (-53)` for values in
`[1/2, 1)`, `2 ^ (-52)` in `[1, 2)`, `2 ^ (-51)` in `[2, 4)`, `2 ^ (-50)` in `[4, 8)`). -/
theorem lnSample_nearest :
    |Real.log 2 - ((Binary64.lnSample 2 : ℚ) : ℝ)| < 1 / 2 ^ 54 ∧
      |Real.log 3 - ((Binary64.lnSample 3 : ℚ) : ℝ)| < 1 / 2 ^ 53 ∧
      |Real.log 32 - ((Binary64.lnSample 32 : ℚ) : ℝ)| < 1 / 2 ^ 52 ∧
      |Real.log 50 - ((Binary64.lnSample 50 : ℚ) : ℝ)| < 1 / 2 ^ 52 ∧
      |Real.log 99 - ((Binary64.lnSample 99 : ℚ) : ℝ)| < 1 / 2 ^ 51 := by
  have v2 : ((Binary64.lnSample 2 : ℚ) : ℝ) = 6243314768165359 / 2 ^ 53 := by
    norm_num [Binary64.lnSample]
  have v3 : ((Binary64.lnSample 3 : ℚ) : ℝ) = 4947709893870347 / 2 ^ 52 := by
    norm_num [Binary64.lnSample]
  have v32 : ((Binary64.lnSample 32 : ℚ) : ℝ) = 7804143460206699 / 2 ^ 51 := by
    norm_num [Binary64.lnSample]
  have v50 : ((Binary64.lnSample 50 : ℚ) : ℝ) = 8809092674755503 / 2 ^ 51 := by
    norm_num [Binary64.lnSample]
  have v99 : ((Binary64.lnSample 99 : ℚ) : ℝ) = 5173645011197227 / 2 ^ 50 := by
    norm_num [Binary64.lnSample]
  have h2 : Real.log (1 - 2⁻¹) = -Real.log 2 := by
    rw [show (1 - 2⁻¹ : ℝ) = 2⁻¹ by norm_num, Real.log_inv]
  have h4 : Real.log 4 = 2 * Real.log 2 := by
    rw [show (4 : ℝ) = 2 ^ 2 by norm_num, Real.log_pow]
    norm_num
  have h3 : Real.log (1 - 3⁻¹) = Real.log 2 - Real.log 3 := by
    rw [show (1 - 3⁻¹ : ℝ) = 2 / 3 by norm_num, Real.log_div (by norm_num) (by norm_num)]
  have h5 : Real.log (1 - 5⁻¹) = 2 * Real.log 2 - Real.log 5 := by
    rw [show (1 - 5⁻¹ : ℝ) = 4 / 5 by norm_num, Real.log_div (by norm_num) (by norm_num), h4]
  have h11 : Real.log (1 - 12⁻¹) = Real.log 11 - (2 * Real.log 2 + Real.log 3) := by
    rw [show (1 - 12⁻¹ : ℝ) = 11 / (4 * 3) by norm_num,
      Real.log_div (by norm_num) (by norm_num), Real.log_mul (by norm_num) (by norm_num), h4]
  have h32 : Real.log 32 = 5 * Real.log 2 := by
    rw [show (32 : ℝ) = 2 ^ 5 by norm_num, Real.log_pow]
    norm_num
  have h50 : Real.log 50 = Real.log 2 + 2 * Real.log 5 := by
    rw [show (50 : ℝ) = 2 * 5 ^ 2 by norm_num, Real.log_mul (by norm_num) (by norm_num),
      Real.log_pow]
    norm_num
  have h99 : Real.log 99 = 2 * Real.log 3 + Real.log 11 := by
    rw [show (99 : ℝ) = 3 ^ 2 * 11 by norm_num, Real.log_mul (by norm_num) (by norm_num),
      Real.log_pow]
    norm_num
  have s2 := abs_le.mp logSeries_half
  have s3 := abs_le.mp logSeries_third
  have s5 := abs_le.mp logSeries_fifth
  have s11 := abs_le.mp logSeries_twelfth
  rw [h2] at s2
  rw [h3] at s3
  rw [h5] at s5
  rw [h11] at s11
  obtain ⟨a2, b2⟩ := s2
  obtain ⟨a3, b3⟩ := s3
  obtain ⟨a5, b5⟩ := s5
  obtain ⟨a11, b11⟩ := s11
  rw [v2, v3, v32, v50, v99, h32, h50, h99]
  refine ⟨?_, ?_, ?_, ?_, ?_⟩ <;> rw [abs_lt] <;> constructor <;> linarith

end Binary64Evaluation

section Binary64Integers

open Binary64

theorem isInteger_intCast (n : ℤ) : IsInteger (JSNumber.finite (n : ℚ)) := ⟨n, rfl⟩

theorem isInteger_255 : IsInteger (JSNumber.finite 255) := ⟨255, by norm_num⟩

theorem isInteger_zero : IsInteger (JSNumber.finite 0) := ⟨0, by norm_num⟩

theorem isInteger_parseInt (x : ℚ) : IsInteger (Binary64.parseInt (JSNumber.finite x)) :=
  ⟨_, rfl⟩

theorem isInteger_floor (x : ℚ) : IsInteger (Binary64.floor (JSNumber.finite x)) := ⟨_, rfl⟩

theorem mul_finite (x y B : ℚ) (h : |x * y| ≤ B) (hB : B < 2 ^ (1023 : ℤ)) :
    ∃ z : ℚ, mul (JSNumber.finite x) (JSNumber.finite y) = JSNumber.finite z ∧ |z| ≤ 2 * B := by
  obtain ⟨z, hz, hzb⟩ := round64_finite (lt_of_le_of_lt h hB)
  exact ⟨z, hz, by linarith⟩

theorem sub_finite (x y B : ℚ) (h : |x - y| ≤ B) (hB : B < 2 ^ (1023 : ℤ)) :
    ∃ z : ℚ, sub (JSNumber.finite x) (JSNumber.finite y) = JSNumber.finite z ∧ |z| ≤ 2 * B := by
  obtain ⟨z, hz, hzb⟩ := round64_finite (lt_of_le_of_lt h hB)
  exact ⟨z, hz, by linarith⟩

theorem div_finite (x y B : ℚ) (hy : y ≠ 0) (h : |x / y| ≤ B) (hB : B < 2 ^ (1023 : ℤ)) :
    ∃ z : ℚ, div (JSNumber.finite x) (JSNumber.finite y) = JSNumber.finite z ∧ |z| ≤ 2 * B := by
  obtain ⟨z, hz, hzb⟩ := round64_finite (lt_of_le_of_lt h hB)
  refine ⟨z, ?_, by linarith⟩
  simp only [div]
  rw [if_neg hy, hz]

/-- The channel `parseInt(255*x)` is an integer. -/
theorem isInteger_parseInt_mul (x : ℚ) (hx : |x| ≤ 2 ^ 22) :
    IsInteger (Binary64.parseInt (mul (JSNumber.finite 255) (JSNumber.finite x))) := by
  obtain ⟨z, hz, -⟩ := mul_finite 255 x (255 * 2 ^ 22)
    (by rw [abs_mul]; norm_num; linarith) (by norm_num)
  rw [hz]
  exact isInteger_parseInt z

/-- The channel `parseInt(255*(x-c))` is an integer. -/
theorem isInteger_parseInt_mul_sub (x c : ℚ) (hx : |x| ≤ 2 ^ 20) (hc : |c| ≤ 2) :
    IsInteger (Binary64.parseInt
      (mul (JSNumber.finite 255) (sub (JSNumber.finite x) (JSNumber.finite c)))) := by
  obtain ⟨w, hw, hwb⟩ := sub_finite x c (2 ^ 20 + 2)
    (by have := abs_sub x c; linarith) (by norm_num)
  rw [hw]
  exact isInteger_parseInt_mul w (by linarith)

/-- The channel `Math.floor(255 * (s - a) / d)` is an integer. -/
theorem isInteger_ramp (s a d : ℚ) (hs : |s| ≤ 2 ^ 20) (ha : |a| ≤ 1) (hd : 1 / 16 ≤ |d|) :
    IsInteger (Binary64.floor (div (mul (JSNumber.finite 255)
      (sub (JSNumber.finite s) (JSNumber.finite a))) (JSNumber.finite d))) := by
  have hd0 : d ≠ 0 := by
    intro h
    rw [h, abs_zero] at hd
    norm_num at hd
  have hdpos : 0 < |d| := abs_pos.mpr hd0
  obtain ⟨w, hw, hwb⟩ := sub_finite s a (2 ^ 20 + 1)
    (by have := abs_sub s a; linarith) (by norm_num)
  obtain ⟨z, hz, hzb⟩ := mul_finite 255 w (255 * (2 * (2 ^ 20 + 1)))
    (by rw [abs_mul]; norm_num; linarith) (by norm_num)
  obtain ⟨q, hq, -⟩ := div_finite z d (16 * (2 * (255 * (2 * (2 ^ 20 + 1))))) hd0
    (by
      rw [abs_div, div_le_iff₀ hdpos]
      nlinarith [abs_nonneg z])
    (by norm_num)
  rw [hw, hz, hq]
  exact isInteger_floor q

/-- The channel `Math.floor(255 * s / d)` is an integer. -/
theorem isInteger_ramp_zero (s d : ℚ) (hs : |s| ≤ 2 ^ 20) (hd : 1 / 16 ≤ |d|) :
    IsInteger (Binary64.floor (div (mul (JSNumber.finite 255) (JSNumber.finite s))
      (JSNumber.finite d))) := by
  have hd0 : d ≠ 0 := by
    intro h
    rw [h, abs_zero] at hd
    norm_num at hd
  have hdpos : 0 < |d| := abs_pos.mpr hd0
  obtain ⟨z, hz, hzb⟩ := mul_finite 255 s (255 * 2 ^ 20)
    (by rw [abs_mul]; norm_num; linarith) (by norm_num)
  obtain ⟨q, hq, -⟩ := div_finite z d (16 * (2 * (255 * 2 ^ 20))) hd0
    (by
      rw [abs_div, div_le_iff₀ hdpos]
      nlinarith [abs_nonneg z])
    (by norm_num)
  rw [hz, hq]
  exact isInteger_floor q

theorem R2G_MAX_eq : Binary64.R2G_MAX = JSNumber.finite (4683743612465316 / 2 ^ 55) := by
  have h := round64_eq_of (x := (0.13 : ℚ)) (-3) 4683743612465316
    (by norm_num [abs_of_pos]) (by norm_num [abs_of_pos]) (by norm_num)
    (by rw [abs_lt]; constructor <;> norm_num) (by norm_num [abs_of_pos])
  rw [Binary64.R2G_MAX, h]
  norm_num

theorem G2B_MAX_eq : Binary64.G2B_MAX = JSNumber.finite (7566047373982433 / 2 ^ 54) := by
  have h := round64_eq_of (x := (0.42 : ℚ)) (-2) 7566047373982433
    (by norm_num [abs_of_pos]) (by norm_num [abs_of_pos]) (by norm_num)
    (by rw [abs_lt]; constructor <;> norm_num) (by norm_num [abs_of_pos])
  rw [Binary64.G2B_MAX, h]
  norm_num

theorem B2R_MAX_eq : Binary64.B2R_MAX = JSNumber.finite (6935543426150564 / 2 ^ 53) := by
  have h := round64_eq_of (x := (0.77 : ℚ)) (-1) 6935543426150564
    (by norm_num [abs_of_pos]) (by norm_num [abs_of_pos]) (by norm_num)
    (by rw [abs_lt]; constructor <;> norm_num) (by norm_num [abs_of_pos])
  rw [Binary64.B2R_MAX, h]
  norm_num

theorem R2B_MIN_eq : Binary64.R2B_MIN = JSNumber.finite (4683743612465316 / 2 ^ 54) := by
  have h := round64_eq_of (x := (0.26 : ℚ)) (-2) 4683743612465316
    (by norm_num [abs_of_pos]) (by norm_num [abs_of_pos]) (by norm_num)
    (by rw [abs_lt]; constructor <;> norm_num) (by norm_num [abs_of_pos])
  rw [Binary64.R2B_MIN, h]
  norm_num

theorem G2R_MIN_eq : Binary64.G2R_MIN = JSNumber.finite (5224175567749775 / 2 ^ 53) := by
  have h := round64_eq_of (x := (0.58 : ℚ)) (-1) 5224175567749775
    (by norm_num [abs_of_pos]) (by norm_num [abs_of_pos]) (by norm_num)
    (by rw [abs_lt]; constructor <;> norm_num) (by norm_num [abs_of_pos])
  rw [Binary64.G2R_MIN, h]
  norm_num

theorem sub_R2B_MIN_R2G_MAX :
    sub Binary64.R2B_MIN Binary64.R2G_MAX = JSNumber.finite (4683743612465316 / 2 ^ 55) := by
  have h := round64_eq_of (x := (4683743612465316 / 2 ^ 54 - 4683743612465316 / 2 ^ 55 : ℚ)) (-3) 4683743612465316
    (by norm_num [abs_of_pos]) (by norm_num [abs_of_pos]) (by norm_num)
    (by rw [abs_lt]; constructor <;> norm_num) (by norm_num [abs_of_pos])
  rw [R2B_MIN_eq, R2G_MAX_eq]
  simp only [sub]
  rw [h]
  norm_num

theorem sub_B2R_MAX_G2R_MIN :
    sub Binary64.B2R_MAX Binary64.G2R_MIN = JSNumber.finite (6845471433603156 / 2 ^ 55) := by
  have h := round64_eq_of (x := (6935543426150564 / 2 ^ 53 - 5224175567749775 / 2 ^ 53 : ℚ)) (-3) 6845471433603156
    (by norm_num [abs_of_pos]) (by norm_num [abs_of_pos]) (by norm_num)
    (by rw [abs_lt]; constructor <;> norm_num) (by norm_num [abs_of_pos])
  rw [B2R_MAX_eq, G2R_MIN_eq]
  simp only [sub]
  rw [h]
  norm_num

theorem sub_G2R_MIN_G2B_MAX :
    sub Binary64.G2R_MIN Binary64.G2B_MAX = JSNumber.finite (5764607523034234 / 2 ^ 55) := by
  have h := round64_eq_of (x := (5224175567749775 / 2 ^ 53 - 7566047373982433 / 2 ^ 54 : ℚ)) (-3) 5764607523034234
    (by norm_num [abs_of_pos]) (by norm_num [abs_of_pos]) (by norm_num)
    (by rw [abs_lt]; constructor <;> norm_num) (by norm_num [abs_of_pos])
  rw [G2R_MIN_eq, G2B_MAX_eq]
  simp only [sub]
  rw [h]
  norm_num

theorem sub_G2B_MAX_R2B_MIN :
    sub Binary64.G2B_MAX Binary64.R2B_MIN = JSNumber.finite (5764607523034234 / 2 ^ 55) := by
  have h := round64_eq_of (x := (7566047373982433 / 2 ^ 54 - 4683743612465316 / 2 ^ 54 : ℚ)) (-3) 5764607523034234
    (by norm_num [abs_of_pos]) (by norm_num [abs_of_pos]) (by norm_num)
    (by rw [abs_lt]; constructor <;> norm_num) (by norm_num [abs_of_pos])
  rw [G2B_MAX_eq, R2B_MIN_eq]
  simp only [sub]
  rw [h]
  norm_num

theorem sub_one_B2R_MAX :
    sub (JSNumber.finite 1) Binary64.B2R_MAX = JSNumber.finite (8286623314361712 / 2 ^ 55) := by
  have h := round64_eq_of (x := (1 - 6935543426150564 / 2 ^ 53 : ℚ)) (-3) 8286623314361712
    (by norm_num [abs_of_pos]) (by norm_num [abs_of_pos]) (by norm_num)
    (by rw [abs_lt]; constructor <;> norm_num) (by norm_num [abs_of_pos])
  rw [B2R_MAX_eq]
  simp only [sub]
  rw [h]
  norm_num

theorem monochrome_isIntegerTriple (idx : ℤ) (ls : ℚ) (b : JSNumber ℚ) (hls : |ls| ≤ 2 ^ 20) :
    IsIntegerTriple (Binary64.monochrome idx (JSNumber.finite ls) b) := by
  have h := isInteger_parseInt_mul ls (by linarith)
  exact ⟨h, h, h⟩

theorem fire_isIntegerTriple (idx : ℤ) (ls : JSNumber ℚ) (b : ℚ) (hb : |b| ≤ 2 ^ 20) :
    IsIntegerTriple (Binary64.fire idx ls (JSNumber.finite b)) := by
  refine ⟨?_, ?_, ?_⟩
  · simp only [Binary64.fire]
    split_ifs
    · exact isInteger_parseInt_mul b (by linarith)
    · exact isInteger_255
  · simp only [Binary64.fire]
    split_ifs
    · exact isInteger_zero
    · exact isInteger_parseInt_mul_sub b 1 hb (by norm_num)
    · exact isInteger_255
  · simp only [Binary64.fire]
    split_ifs
    · exact isInteger_zero
    · exact isInteger_parseInt_mul_sub b 2 hb (by norm_num)

/-- The channel `Math.floor((idx % k) / d) * 0x33` is an integer. -/
theorem isInteger_webSafe (r : ℤ) (d : ℚ) (hr : |r| ≤ 252) (hd : 1 ≤ d) :
    IsInteger (mul (Binary64.floor (div (JSNumber.finite (r : ℚ)) (JSNumber.finite d)))
      (JSNumber.finite 0x33)) := by
  have hr' : |(r : ℚ)| ≤ 252 := by
    have : ((|r| : ℤ) : ℚ) ≤ ((252 : ℤ) : ℚ) := by exact_mod_cast hr
    rw [Int.cast_abs] at this
    simpa using this
  have hdpos : 0 < d := by linarith
  obtain ⟨z, hz, hzb⟩ := div_finite (r : ℚ) d 252 hdpos.ne'
    (by
      rw [abs_div, abs_of_pos hdpos, div_le_iff₀ hdpos]
      nlinarith [abs_nonneg (r : ℚ)])
    (by norm_num)
  rw [hz]
  simp only [Binary64.floor, mul]
  have hfl : |⌊z⌋| < 1000 := by
    rw [abs_le] at hzb
    rw [abs_lt]
    constructor
    · have : (-505 : ℤ) ≤ ⌊z⌋ := Int.le_floor.mpr (by push_cast; linarith)
      omega
    · have : ⌊z⌋ < 505 := Int.floor_lt.mpr (by push_cast; linarith)
      omega
  have e : ((⌊z⌋ : ℤ) : ℚ) * 0x33 = ((⌊z⌋ * 51 : ℤ) : ℚ) := by
    push_cast
    norm_num
  rw [e, round64_intCast _ (by rw [abs_lt] at hfl ⊢; constructor <;> omega)]
  exact isInteger_intCast _

theorem webSafeCycle_isIntegerTriple (idx : ℤ) (hidx : 0 ≤ idx) (ls b : JSNumber ℚ) :
    IsIntegerTriple (Binary64.webSafeCycle idx ls b) := by
  have b1 := Int.tmod_nonneg 252 hidx
  have b2 := Int.tmod_lt_of_pos idx (show (0 : ℤ) < 252 by norm_num)
  have b3 := Int.tmod_nonneg 42 hidx
  have b4 := Int.tmod_lt_of_pos idx (show (0 : ℤ) < 42 by norm_num)
  have b5 := Int.tmod_nonneg 6 hidx
  have b6 := Int.tmod_lt_of_pos idx (show (0 : ℤ) < 6 by norm_num)
  refine ⟨?_, ?_, ?_⟩
  · exact isInteger_webSafe _ 42 (by rw [abs_le]; constructor <;> omega) (by norm_num)
  · exact isInteger_webSafe _ 6 (by rw [abs_le]; constructor <;> omega) (by norm_num)
  · simp only [Binary64.webSafeCycle, mul]
    have e : ((idx.tmod 6 : ℤ) : ℚ) * 0x33 = ((idx.tmod 6 * 51 : ℤ) : ℚ) := by
      push_cast
      norm_num
    rw [e, round64_intCast _ (by rw [abs_lt]; constructor <;> omega)]
    exact isInteger_intCast _

theorem rainbow_isIntegerTriple (idx : ℤ) (ls : ℚ) (b : JSNumber ℚ) (hls : |ls| ≤ 2 ^ 20) :
    IsIntegerTriple (Binary64.rainbow idx (JSNumber.finite ls) b) := by
  refine ⟨?_, ?_, ?_⟩
  · simp only [Binary64.rainbow, Binary64.rainbow_red]
    rw [sub_R2B_MIN_R2G_MAX, sub_B2R_MAX_G2R_MIN, R2G_MAX_eq, G2R_MIN_eq]
    split_ifs
    · exact isInteger_255
    · exact isInteger_ramp _ _ _ hls (by norm_num [abs_of_pos]) (by norm_num [abs_of_pos])
    · exact isInteger_ramp _ _ _ hls (by norm_num [abs_of_pos]) (by norm_num [abs_of_pos])
    · exact isInteger_zero
  · simp only [Binary64.rainbow, Binary64.rainbow_green]
    rw [sub_G2R_MIN_G2B_MAX, R2G_MAX_eq, G2B_MAX_eq]
    split_ifs
    · exact isInteger_255
    · exact isInteger_ramp_zero _ _ hls (by norm_num [abs_of_pos])
    · exact isInteger_ramp _ _ _ hls (by norm_num [abs_of_pos]) (by norm_num [abs_of_pos])
    · exact isInteger_zero
  · simp only [Binary64.rainbow, Binary64.rainbow_blue]
    rw [sub_G2B_MAX_R2B_MIN, sub_one_B2R_MAX, R2B_MIN_eq, B2R_MAX_eq]
    split_ifs
    · exact isInteger_255
    · exact isInteger_ramp _ _ _ hls (by norm_num [abs_of_pos]) (by norm_num [abs_of_pos])
    · exact isInteger_ramp _ _ _ hls (by norm_num [abs_of_pos]) (by norm_num [abs_of_pos])
    · exact isInteger_zero

/-- For a finite `logScale` and `band3` of moderate magnitude every colour function returns
three integers. -/
theorem colourMapFns_isIntegerTriple (p : Fin 4) (idx : ℤ) (hidx : 0 ≤ idx) (ls b : ℚ)
    (hls : |ls| ≤ 2 ^ 20) (hb : |b| ≤ 2 ^ 20) :
    IsIntegerTriple (Binary64.colourMapFns p idx (JSNumber.finite ls) (JSNumber.finite b)) := by
  fin_cases p
  · exact monochrome_isIntegerTriple idx ls (JSNumber.finite b) hls
  · exact fire_isIntegerTriple idx (JSNumber.finite ls) b hb
  · exact webSafeCycle_isIntegerTriple idx hidx (JSNumber.finite ls) (JSNumber.finite b)
  · exact rainbow_isIntegerTriple idx ls (JSNumber.finite b) hls

end Binary64Integers

section Binary64Claims

open Binary64

theorem mathLog_one (ln : ℚ → ℚ) : mathLog ln (JSNumber.finite 1) = JSNumber.finite 0 := by
  norm_num [mathLog]

theorem mathLog_of_two_le (ln : ℚ → ℚ) (k : ℤ) (hk : 2 ≤ k) :
    mathLog ln (JSNumber.finite (k : ℚ)) = JSNumber.finite (ln (k : ℚ)) := by
  have h2 : (2 : ℚ) ≤ (k : ℚ) := by exact_mod_cast hk
  simp only [mathLog]
  rw [if_neg (by linarith), if_neg (by linarith), if_neg (by linarith)]

/-- For `iterLimit = 2` the only pass of the loop of `buildColourMaps` divides `Math.log(1)` by
`Math.log(1)`, whatever the host's logarithm: `logScale` and `band3` are `NaN`. -/
theorem buildColourMaps64_cap_two (ln : ℚ → ℚ) :
    (Binary64.buildColourMaps ln 2 0).get 1 =
        some (JSNumber.nan, JSNumber.nan, JSNumber.nan) ∧
      (Binary64.buildColourMaps ln 2 1).get 1 =
        some (JSNumber.finite 255, JSNumber.finite 255, JSNumber.nan) := by
  have e1 : sub (JSNumber.finite ((2 : ℤ) : ℚ)) (JSNumber.finite 1.0) = JSNumber.finite 1 := by
    rw [sub_one_intCast 2 (by norm_num) (by norm_num)]
    norm_num
  have e2 : mathLog ln (JSNumber.finite ((1 : ℤ) : ℚ)) = JSNumber.finite 0 := by
    rw [← mathLog_one ln]
    norm_num
  constructor
  · rw [buildColourMaps64_get, if_pos (by decide), e1, mathLog_one, e2]
    simp [Binary64.colourMapFns, Binary64.monochrome, div, mul, Binary64.parseInt]
  · rw [buildColourMaps64_get, if_pos (by decide), e1, mathLog_one, e2]
    simp [Binary64.colourMapFns, Binary64.fire, div, mul, sub, lt, Binary64.parseInt]

/-- C7 (the code at `maxIter = 2`): in the maps `buildColourMaps(2)` returns, index 1 of the
grayscale map (map 0) holds `[NaN, NaN, NaN]` and index 1 of the fire map (map 1) holds
`[255, 255, NaN]`: the loop computes `Math.log(1) / Math.log(1) = 0 / 0`. These entries are not
triples of numbers. -/
theorem buildColourMaps_cap_two_stores_nan :
    (Binary64.buildColourMaps lnSample 2 0).get 1 =
        some (JSNumber.nan, JSNumber.nan, JSNumber.nan) ∧
      (Binary64.buildColourMaps lnSample 2 1).get 1 =
        some (JSNumber.finite 255, JSNumber.finite 255, JSNumber.nan) ∧
      ¬ IsIntegerTriple (JSNumber.nan, JSNumber.nan, JSNumber.nan) := by
  refine ⟨(buildColourMaps64_cap_two lnSample).1, (buildColourMaps64_cap_two lnSample).2, ?_⟩
  rintro ⟨⟨n, hn⟩, -⟩
  cases hn

/-- C7: for every `maxIter ≥ 1` and any host logarithm, each of the four maps that
`buildColourMaps(maxIter)` returns in binary64 arithmetic has length exactly `maxIter + 1`,
holds a three-element array of numbers (`NaN` and the infinities included) at every index
`0..maxIter`, and holds nothing under any other key. When moreover `maxIter ≠ 2`,
`maxIter ≤ 2 ^ 53` and the host's `Math.log` lies in `[1/2, 1024]` on the integers
`2..maxIter - 1`, all three elements of every entry are finite integers. -/
theorem buildColourMaps_dense_binary64 (ln : ℚ → ℚ) (maxIter : ℤ) (h : 1 ≤ maxIter)
    (p : Fin 4) :
    ((Binary64.buildColourMaps ln maxIter p).length : ℤ) = maxIter + 1 ∧
      (∀ j : ℤ, 0 ≤ j → j ≤ maxIter →
        ∃ r g b : JSNumber ℚ, (Binary64.buildColourMaps ln maxIter p).get j = some (r, g, b)) ∧
      (∀ j : ℤ, (j < 0 ∨ maxIter < j) → (Binary64.buildColourMaps ln maxIter p).get j = none) ∧
      (maxIter ≠ 2 → maxIter ≤ 2 ^ 53 →
        (∀ k : ℤ, 2 ≤ k → k < maxIter → 1 / 2 ≤ ln (k : ℚ) ∧ ln (k : ℚ) ≤ 1024) →
        ∀ j : ℤ, 0 ≤ j → j ≤ maxIter →
          ∃ c : Colour, (Binary64.buildColourMaps ln maxIter p).get j = some c ∧
            IsIntegerTriple c) := by
  refine ⟨?_, ?_, ?_, ?_⟩
  · rw [buildColourMaps64_length, if_pos (by omega)]
    push_cast
    omega
  · intro j h0 hj
    rw [buildColourMaps64_get]
    split_ifs with h1 h2 h3
    · exact ⟨_, _, _, rfl⟩
    · exact ⟨_, _, _, rfl⟩
    · exact ⟨_, _, _, rfl⟩
    · omega
  · intro j hj
    rw [buildColourMaps64_get, if_neg (by omega), if_neg (by omega), if_neg (by omega)]
  · intro hne hle hln j h0 hj
    rw [buildColourMaps64_get]
    split_ifs with h1 h2 h3
    · refine ⟨_, rfl, ?_⟩
      have hM : 3 ≤ maxIter := by omega
      obtain ⟨hy1, hy2⟩ := hln (maxIter - 1) (by omega) (by omega)
      have hnum : ∃ x : ℚ, mathLog ln (JSNumber.finite (j : ℚ)) = JSNumber.finite x ∧
          |x| ≤ 1024 := by
        by_cases hj1 : j = 1
        · subst hj1
          refine ⟨0, ?_, by norm_num⟩
          rw [← mathLog_one ln]
          norm_num
        · obtain ⟨hx1, hx2⟩ := hln j (by omega) h1.2
          refine ⟨ln (j : ℚ), mathLog_of_two_le ln j (by omega), ?_⟩
          rw [abs_of_nonneg (by linarith)]
          exact hx2
      obtain ⟨x, hx, hxb⟩ := hnum
      have hypos : (0 : ℚ) < ln ((maxIter - 1 : ℤ) : ℚ) := by linarith
      rw [sub_one_intCast maxIter (by omega) hle, mathLog_of_two_le ln (maxIter - 1) (by omega),
        hx]
      obtain ⟨ls, hls, hlsb⟩ := div_finite x (ln ((maxIter - 1 : ℤ) : ℚ)) 2048 hypos.ne'
        (by
          rw [abs_div, abs_of_pos hypos, div_le_iff₀ hypos]
          linarith)
        (by norm_num)
      rw [hls]
      obtain ⟨b, hb, hbb⟩ := mul_finite ls 3 (3 * 4096)
        (by rw [abs_mul]; norm_num; linarith) (by norm_num)
      rw [hb]
      exact colourMapFns_isIntegerTriple p j h0 ls b (by linarith) (by linarith)
    · refine ⟨_, rfl, ?_⟩
      exact colourMapFns_isIntegerTriple p 0 (le_refl 0) 0.0 0.0 (by norm_num) (by norm_num)
    · exact ⟨_, rfl, isInteger_zero, isInteger_zero, isInteger_zero⟩
    · omega

/-- With the cap 4 and the sample logarithms, the rainbow map (map 3) has length 5, holds three
finite integers at each index `0..4` and nothing elsewhere. -/
theorem buildColourMaps_dense_binary64_witness :
    (1 : ℤ) ≤ 4 ∧
      ((Binary64.buildColourMaps lnSample 4 3).length : ℤ) = 4 + 1 ∧
      (∀ j : ℤ, 0 ≤ j → j ≤ 4 →
        ∃ c : Colour, (Binary64.buildColourMaps lnSample 4 3).get j = some c ∧
          IsIntegerTriple c) ∧
      (∀ j : ℤ, (j < 0 ∨ 4 < j) → (Binary64.buildColourMaps lnSample 4 3).get j = none) := by
  have hw := buildColourMaps_dense_binary64 lnSample 4 (by decide) 3
  refine ⟨by decide, hw.1, ?_, hw.2.2.1⟩
  refine hw.2.2.2 (by decide) (by norm_num) ?_
  intro k h2 h4
  have hk : k = 2 ∨ k = 3 := by omega
  rcases hk with rfl | rfl <;> norm_num [lnSample]

/-- C10 (the code at `maxIter = 33`, `i = 2`): the binary64 quotient
`Math.log(2) / Math.log(32)` is `0.19999999999999998`, its product with 255 is
`50.99999999999999`, and the grayscale entry is `(50, 50, 50)`; over the reals
`floor(255 * ln(2) / ln(32))` is 51. The two values of `Math.log` used are the binary64
numbers nearest to `ln(2)` and `ln(32)`. -/
theorem grayscale_entry_33_2_is_50 :
    (Binary64.buildColourMaps lnSample 33 0).get 2 =
        some (JSNumber.finite 50, JSNumber.finite 50, JSNumber.finite 50) ∧
      ⌊255 * Real.log ((2 : ℤ) : ℝ) / Real.log (((33 : ℤ) : ℝ) - 1)⌋ = 51 ∧
      |Real.log 2 - ((lnSample 2 : ℚ) : ℝ)| < 1 / 2 ^ 54 ∧
      |Real.log 32 - ((lnSample 32 : ℚ) : ℝ)| < 1 / 2 ^ 52 := by
  refine ⟨?_, ?_, lnSample_nearest.1, lnSample_nearest.2.2.1⟩
  · have e1 : JSNumber.finite (((2 : ℤ) : ℚ)) = JSNumber.finite (2 : ℚ) := by norm_num
    have e2 : JSNumber.finite (((33 - 1 : ℤ) : ℤ) : ℚ) = JSNumber.finite (32 : ℚ) := by norm_num
    have e3 : ⌊(7177611906121727 / 2 ^ 47 : ℚ)⌋ = 50 := by
      rw [Int.floor_eq_iff]
      norm_num
    rw [buildColourMaps64_get, if_pos (by decide), sub_one_intCast 33 (by norm_num) (by norm_num),
      e1, e2, mathLog_lnSample_2, mathLog_lnSample_32, logScale_33_2]
    simp only [Binary64.colourMapFns, Binary64.monochrome]
    rw [product_33_2, parseInt_finite_of_nonneg (by norm_num), e3]
    norm_num
  · have h32 : Real.log (((33 : ℤ) : ℝ) - 1) = 5 * Real.log 2 := by
      have : (((33 : ℤ) : ℝ) - 1) = (2 : ℝ) ^ 5 := by norm_num
      rw [this, Real.log_pow]
      norm_num
    have hpos : 0 < Real.log 2 := Real.log_pos (by norm_num)
    have h2 : (((2 : ℤ) : ℝ)) = 2 := by norm_num
    rw [h32, h2, Int.floor_eq_iff]
    constructor
    · rw [le_div_iff₀ (by positivity)]
      push_cast
      linarith
    · rw [div_lt_iff₀ (by positivity)]
      push_cast
      linarith

/-- C10: for every `maxIter ≥ 3`, every index `1 ≤ i ≤ maxIter - 1` and any host logarithm,
the grayscale entry (map 0) is `(v, v, v)` with
`v = parseInt(255 * (Math.log(i) / Math.log(maxIter - 1)))`, the quotient and the product each
rounded to binary64; for `maxIter = 100` and `i = 50`, with `Math.log` returning the binary64
numbers nearest to `ln(50)` and `ln(99)`, the entry is `(217, 217, 217)`, which is also
`floor(255 * ln(50) / ln(99))` over the reals. -/
theorem grayscale_entry_binary64 (ln : ℚ → ℚ) (maxIter i : ℤ) (h3 : 3 ≤ maxIter) (h1 : 1 ≤ i)
    (h2 : i ≤ maxIter - 1) :
    (∃ v : JSNumber ℚ,
        v = Binary64.parseInt (mul (JSNumber.finite 255)
          (div (mathLog ln (JSNumber.finite (i : ℚ)))
            (mathLog ln (sub (JSNumber.finite (maxIter : ℚ)) (JSNumber.finite 1.0))))) ∧
        (Binary64.buildColourMaps ln maxIter 0).get i = some (v, v, v)) ∧
      (Binary64.buildColourMaps lnSample 100 0).get 50 =
        some (JSNumber.finite 217, JSNumber.finite 217, JSNumber.finite 217) ∧
      ⌊255 * Real.log (50 : ℝ) / Real.log (99 : ℝ)⌋ = 217 ∧
      |Real.log 50 - ((lnSample 50 : ℚ) : ℝ)| < 1 / 2 ^ 52 ∧
      |Real.log 99 - ((lnSample 99 : ℚ) : ℝ)| < 1 / 2 ^ 51 := by
  refine ⟨⟨_, rfl, ?_⟩, ?_, ?_, lnSample_nearest.2.2.2.1, lnSample_nearest.2.2.2.2⟩
  · have hM : 3 ≤ maxIter := h3
    rw [buildColourMaps64_get, if_pos ⟨h1, by omega⟩]
    rfl
  · have e1 : JSNumber.finite (((50 : ℤ) : ℚ)) = JSNumber.finite (50 : ℚ) := by norm_num
    have e2 : JSNumber.finite (((100 - 1 : ℤ) : ℤ) : ℚ) = JSNumber.finite (99 : ℚ) := by
      norm_num
    have e3 : ⌊(7638261845325084 / 2 ^ 45 : ℚ)⌋ = 217 := by
      rw [Int.floor_eq_iff]
      norm_num
    rw [buildColourMaps64_get, if_pos (by decide),
      sub_one_intCast 100 (by norm_num) (by norm_num), e1, e2, mathLog_lnSample_50,
      mathLog_lnSample_99, logScale_100_50]
    simp only [Binary64.colourMapFns, Binary64.monochrome]
    rw [product_100_50, parseInt_finite_of_nonneg (by norm_num), e3]
    norm_num
  · have hpos : 0 < Real.log (99 : ℝ) := Real.log_pos (by norm_num)
    rw [Int.floor_eq_iff]
    constructor
    · rw [le_div_iff₀ hpos]
      have h : Real.log ((99 : ℝ) ^ 217) ≤ Real.log ((50 : ℝ) ^ 255) :=
        Real.log_le_log (by positivity) (by norm_num)
      rw [Real.log_pow, Real.log_pow] at h
      push_cast at h ⊢
      linarith
    · rw [div_lt_iff₀ hpos]
      have h : Real.log ((50 : ℝ) ^ 255) < Real.log ((99 : ℝ) ^ 218) :=
        Real.log_lt_log (by positivity) (by norm_num)
      rw [Real.log_pow, Real.log_pow] at h
      push_cast at h ⊢
      linarith

/-- With `maxIter = 100`, `i = 50` and the sample logarithms the grayscale entry is `(v, v, v)`
for the binary64 value `v` of `parseInt(255 * (Math.log(50) / Math.log(99)))`. -/
theorem grayscale_entry_binary64_witness :
    (3 : ℤ) ≤ 100 ∧ (1 : ℤ) ≤ 50 ∧ (50 : ℤ) ≤ 100 - 1 ∧
      ∃ v : JSNumber ℚ,
        v = Binary64.parseInt (mul (JSNumber.finite 255)
          (div (mathLog lnSample (JSNumber.finite ((50 : ℤ) : ℚ)))
            (mathLog lnSample
              (sub (JSNumber.finite ((100 : ℤ) : ℚ)) (JSNumber.finite 1.0))))) ∧
        (Binary64.buildColourMaps lnSample 100 0).get 50 = some (v, v, v) :=
  ⟨by decide, by decide, by decide,
    (grayscale_entry_binary64 lnSample 100 50 (by decide) (by decide) (by decide)).1⟩

end Binary64Claims

end JsPerformance
